import Mathlib

/-!
# Redwood host: seen cache, tx pipeline, broadcast engine, subscriptions, refs

A shallow embedding of `host.go` (with `StringSet` and `workQueue` from
`util.go`, and the dialling, the slice indices of `serveGetState` and the
private txs of `transport.http.go`) and the properties of the host's tx
pipeline, broadcast engine, registry of writable subscriptions, history replay,
ref transfer, identity challenge and auto-subscribe.

Conventions of the embedding

* Go maps with `nil` checks are functions into `Option` (`none` is the missing
  key / nil inner map); sets that the code ranges over are lists.
* A Go `error` result is `Option Error` (`none` is `nil`); a `(T, error)` result
  is `Except Error T`.
* The collaborators of the host (ControllerHub, peers, subscriptions, config,
  crypto) are the fields of `Env`: what each call answers.  Every call the host
  makes on a collaborator is recorded, in order, as an `Event`.
* Goroutines started by a loop are run one after the other in the order of the
  loop; the order of the loop itself is the (arbitrary) order of the list.
  Timeouts and mutexes are left out. Of the contexts, the one that
  `handleNewState` cancels as soon as it has started the two fan-outs is
  modelled (`broadcastToStateURIProviders.underContext`); elsewhere a context is
  not done.
* The ref transfer and the identity challenge have their own collaborators
  (`RefEnv`, `ChallengeEnv`) and events (`RefEvent`, `ChallengeEvent`).
-/

namespace Redwood

/-! ## Data model -/

/-- Go `error` values. -/
abbrev Error := String

/-- The 20-byte `types.Address`, read as a number; the zero value is `0`. -/
abbrev Address := Nat

/-- The 32-byte `types.ID`, read as a number. -/
abbrev ID := Nat

/-- The 32-byte `types.Hash`, read as a number. -/
abbrev Hash := Nat

/-- A signature: a byte string. -/
abbrev Signature := List Nat

/-- The value `types.Address{}`. -/
def zeroAddress : Address := 0

/-- Modelled from the spec: `ErrNoController` is declared outside the sources; it
is the error kind of a state URI that has no controller. -/
def ErrNoController : Error := "no controller for that state URI"

/-- Modelled from the spec: `tree.Node` is declared outside the sources; a state
node is an opaque token, and `NodeAt` is a collaborator call (see `Env`). -/
abbrev StateNode := String

/-- Modelled from the spec: `tree.Keypath` is declared outside the sources; a
keypath is a byte string, `none` being the nil keypath. -/
abbrev Keypath := Option String

/-- Modelled from the spec: `tree.KeypathSeparator` is declared outside the
sources; it is the bare separator, the root-equivalent keypath. -/
def KeypathSeparator : Keypath := some "/"

/-- Modelled from the spec: `SubscriptionType` is declared outside the sources;
it is a bit-set over the two flags `Txs` and `States`. -/
abbrev SubscriptionType := Nat

/-- Modelled from the spec: the flag `Txs` of the bit-set. -/
def SubscriptionType_Txs : SubscriptionType := 1

/-- Modelled from the spec: the flag `States` of the bit-set. -/
def SubscriptionType_States : SubscriptionType := 2

/-- Modelled from the spec: `st.Includes(x)` holds when every flag of `x` is set
in the bit-set `st`. -/
def SubscriptionType.Includes (st x : SubscriptionType) : Bool :=
  (st &&& x) == x

/-- The struct `PeerDialInfo`. -/
structure PeerDialInfo where
  TransportName : String
  DialAddr : String
  deriving DecidableEq, Repr

/-- A peer handle, as far as the host looks at it: `DialInfo()` and `Address()`. -/
structure Peer where
  DialInfo : PeerDialInfo
  Address : Redwood.Address
  deriving DecidableEq, Repr

/-- Modelled from the spec: the struct `Tx` is declared outside the sources; its
fields are those of the data model (`Private` is what `tx.IsPrivate()` answers). -/
structure Tx where
  ID : Redwood.ID
  Parents : List Redwood.ID
  StateURI : String
  From : Redwood.Address
  Sig : Signature
  Patches : List String
  Attachment : List Nat
  Checkpoint : Bool
  Private : Bool
  deriving DecidableEq, Repr

/-- The method `tx.IsPrivate()`. -/
def Tx.IsPrivate (tx : Tx) : Bool := tx.Private

/-- A writable subscription. `ident` is the identity of the Go object (the
pointer held by the interface value). `peer` is `some p` for a subscription that
is also a `Peer` (`httpWritableSubscription` embeds `*httpPeer`) and `none` for
an `inProcessSubscription`. -/
structure WritableSubscription where
  ident : Nat
  StateURI : String
  Type_ : SubscriptionType
  Keypath : Keypath
  peer : Option Peer
  deriving DecidableEq, Repr

/-! ## `StringSet` (util.go) -/

/-- The type `StringSet`, a `map[string]struct{}`: `none` is the nil map, `some m`
a map with the keys `m`. -/
abbrev StringSet := Option (List String)

/-- What `s.Add(val)` leaves behind: the caller's variable `s` after the call and
the set the call returns. -/
structure StringSet.AddResult where
  receiver : StringSet
  returned : StringSet
  deriving DecidableEq, Repr

/-- `StringSet.Add`. The receiver is passed by value: for a nil receiver the
fresh map is assigned to the callee's copy only, and reaches the caller through
the return value alone; for a non-nil receiver the caller's map is written to. -/
def StringSet.Add (s : StringSet) (val : String) : StringSet.AddResult :=
  match s with
  | none => { receiver := none, returned := some [val] }
  | some m =>
    let m1 := if val ∈ m then m else m ++ [val]
    { receiver := some m1, returned := some m1 }

/-- `StringSet.Contains`: a lookup in the map (a nil map has no keys). -/
def StringSet.Contains (s : StringSet) (str : String) : Bool :=
  match s with
  | none => false
  | some m => decide (str ∈ m)

/-! ## Collaborators and events -/

/-- The cancelable iterator that `ControllerHub.FetchTxs` returns: the txs that
`Next` delivers in turn, and the error, if any, that `Error` reports once they
are delivered (`none`: the log ends and `Next` returns nil). -/
structure TxIterator where
  txs : List Tx
  err : Option Error

/-- The `ControllerHub` calls the host makes, with what they answer.
`StateAtVersion` is always asked for the latest version (a nil version). -/
structure ControllerHub where
  HaveTx : String → ID → Except Error Bool
  AddTx : Tx → Bool → Option Error
  Leaves : String → Except Error (List ID)
  IsPrivate : String → Except Error Bool
  IsMember : String → Address → Except Error Bool
  StateAtVersion : String → Except Error StateNode
  FetchTxs : String → ID → TxIterator

/-- The signing keypair of the host: its address and `SignHash`. -/
structure SigningKeypair where
  Address : Redwood.Address
  SignHash : Hash → Except Error Signature

/-- The collaborators of the host. `GenesisTxID` and `Hash` (the method
`tx.Hash()`) are declared outside the sources and are taken as given;
`ConfigUpdate` is the error `config.Update` returns after it has run the
function it was handed; a `nil` tx or state handed to `Write` is `none`; `RecoverAddress` is `RecoverSigningPubkey` followed by
`Address()` on the recovered key; `CopyToMemory` is the method of the state
handed to `handleNewState`, and `NewMemoryNode` is `tree.NewMemoryNode()`. -/
structure Env where
  hub : ControllerHub
  GenesisTxID : ID
  Hash : Tx → Redwood.Hash
  RecoverAddress : Redwood.Hash → Signature → Except Error Address
  ConfigUpdate : Option Error
  Ack : Peer → String → ID → Option Error
  EnsureConnected : Peer → Option Error
  Put : Peer → Tx → List ID → Option Error
  ClosePeer : Peer → Option Error
  Write : WritableSubscription → Option Tx → Option StateNode → List ID → Option Error
  WritePrivate :
    WritableSubscription → Option Tx → Option StateNode → List ID → Option Error
  CloseSub : WritableSubscription → Option Error
  NodeAt : StateNode → Keypath → StateNode
  ProvidersOfStateURI : String → List Peer
  CopyToMemory : StateNode → Except Error StateNode
  NewMemoryNode : StateNode

/-- A call of the host on one of its collaborators. -/
inductive Event where
  | HaveTx (stateURI : String) (txID : ID)
  | AddTx (tx : Tx) (force : Bool)
  | Leaves (stateURI : String)
  | IsPrivate (stateURI : String)
  | IsMember (stateURI : String) (address : Address)
  | SignHash (hash : Hash)
  | ConfigUpdate
  | Ack (peer : Peer) (stateURI : String) (txID : ID)
  | EnsureConnected (peer : Peer)
  | Put (peer : Peer) (tx : Tx) (leaves : List ID)
  | ClosePeer (peer : Peer)
  | Write (sub : WritableSubscription) (tx : Option Tx) (state : Option StateNode)
      (leaves : List ID)
  | WritePrivate (sub : WritableSubscription) (tx : Option Tx) (state : Option StateNode)
      (leaves : List ID)
  | CloseSub (sub : WritableSubscription)
  | Errorf (err : Error)
  | StateAtVersion (stateURI : String)
  | StateClose
  | FetchTxs (stateURI : String) (fromTxID : ID)
  | IterCancel
  | CopyToMemory (state : StateNode)
  | MultiSubStart (stateURI : String)
  deriving DecidableEq, Repr

/-! ## The host -/

/-- The map `peerSeenTxs`: `map[PeerDialInfo]map[string]map[types.ID]bool`. The
innermost map is only ever looked up, so it is its lookup function. -/
abbrev PeerSeenTxs := PeerDialInfo → Option (String → Option (ID → Bool))

/-- Modelled from the spec: the type `multiReaderSubscription` is declared outside
the sources; the host only makes one for a state URI, starts it and keeps it
in its registry. -/
structure MultiReaderSubscription where
  stateURI : String
  deriving DecidableEq, Repr

/-- The fields of `host` that the tx pipeline and the broadcast engine use. -/
structure Host where
  signingKeypair : SigningKeypair
  SubscribedStateURIs : StringSet
  peerSeenTxs : PeerSeenTxs
  writableSubscriptions : String → Option (List WritableSubscription)
  readableSubscriptions : String → Option MultiReaderSubscription

/-- The maps of a host made by `NewHost`: all empty. -/
def NewHost (signingKeypair : SigningKeypair) (subscribed : StringSet) : Host :=
  { signingKeypair := signingKeypair
    SubscribedStateURIs := subscribed
    peerSeenTxs := fun _ => none
    writableSubscriptions := fun _ => none
    readableSubscriptions := fun _ => none }

/-- `host.Address`. -/
def Host.Address (h : Host) : Address := h.signingKeypair.Address

/-- The three assignments of `markTxSeenByPeer` on the map itself. -/
def PeerSeenTxs.mark (m : PeerSeenTxs) (dialInfo : PeerDialInfo) (stateURI : String)
    (txID : ID) : PeerSeenTxs :=
  let byURI : String → Option (ID → Bool) :=
    match m dialInfo with
    | none => fun _ => none
    | some x => x
  let byID : ID → Bool :=
    match byURI stateURI with
    | none => fun _ => false
    | some x => x
  let byID1 : ID → Bool := fun i => if i = txID then true else byID i
  let byURI1 : String → Option (ID → Bool) :=
    fun u => if u = stateURI then some byID1 else byURI u
  fun d => if d = dialInfo then some byURI1 else m d

/-- `host.markTxSeenByPeer`. -/
def markTxSeenByPeer (h : Host) (peer : Peer) (stateURI : String) (txID : ID) : Host :=
  { h with peerSeenTxs := h.peerSeenTxs.mark peer.DialInfo stateURI txID }

/-- `host.txSeenByPeer`. -/
def txSeenByPeer (h : Host) (peer : Peer) (stateURI : String) (txID : ID) : Bool :=
  if peer.Address = zeroAddress then false
  else
    match h.peerSeenTxs peer.DialInfo with
    | none => false
    | some byURI =>
      match byURI stateURI with
      | none => false
      | some byID => byID txID

/-- `host.HandleTxReceived`: the host afterwards and the calls made. -/
def HandleTxReceived (env : Env) (h : Host) (tx : Tx) (peer : Peer) : Host × List Event :=
  let h1 := markTxSeenByPeer h peer tx.StateURI tx.ID
  match env.hub.HaveTx tx.StateURI tx.ID with
  | .error err => (h1, [Event.HaveTx tx.StateURI tx.ID, Event.Errorf err])
  | .ok have_ =>
    let added : List Event :=
      if !have_ then
        match env.hub.AddTx tx false with
        | some err => [Event.AddTx tx false, Event.Errorf err]
        | none => [Event.AddTx tx false]
      else []
    let acked : List Event :=
      match env.Ack peer tx.StateURI tx.ID with
      | some err => [Event.Ack peer tx.StateURI tx.ID, Event.Errorf err]
      | none => [Event.Ack peer tx.StateURI tx.ID]
    (h1, [Event.HaveTx tx.StateURI tx.ID] ++ added ++ acked)

/-- `host.HandleAckReceived`. -/
def HandleAckReceived (h : Host) (stateURI : String) (txID : ID) (peer : Peer) : Host :=
  markTxSeenByPeer h peer stateURI txID

/-- What a call of `SendTx` leaves behind. -/
structure SendTxResult where
  host : Host
  trace : List Event
  err : Option Error

/-- The deferred function of `SendTx`, run on every return with the error being
returned: the auto-subscribe. The value `Add` returns is dropped. -/
def SendTx.deferred (env : Env) (h : Host) (tx : Tx) (trace : List Event)
    (err : Option Error) : SendTxResult :=
  match err with
  | some e => { host := h, trace := trace, err := some e }
  | none =>
    if !h.SubscribedStateURIs.Contains tx.StateURI then
      let h1 := { h with
        SubscribedStateURIs := (h.SubscribedStateURIs.Add tx.StateURI).receiver }
      match env.ConfigUpdate with
      | some e => { host := h1, trace := trace ++ [Event.ConfigUpdate, Event.Errorf e], err := none }
      | none => { host := h1, trace := trace ++ [Event.ConfigUpdate], err := none }
    else { host := h, trace := trace, err := none }

/-- `host.SignTx`: the signed tx, or the error of `SignHash`. -/
def SignTx (env : Env) (h : Host) (tx : Tx) : Except Error Tx :=
  match h.signingKeypair.SignHash (env.Hash tx) with
  | .error e => .error e
  | .ok sig => .ok { tx with Sig := sig }

/-- The last step of `SendTx`: the commit through `ControllerHub.AddTx`. -/
def SendTx.commit (env : Env) (h : Host) (tx : Tx) (trace : List Event) : SendTxResult :=
  SendTx.deferred env h tx (trace ++ [Event.AddTx tx false]) (env.hub.AddTx tx false)

/-- The third step of `SendTx`: sign when there is no signature. -/
def SendTx.sign (env : Env) (h : Host) (tx : Tx) (trace : List Event) : SendTxResult :=
  if tx.Sig.length = 0 then
    match SignTx env h tx with
    | .error e => SendTx.deferred env h tx (trace ++ [Event.SignHash (env.Hash tx)]) (some e)
    | .ok tx1 => SendTx.commit env h tx1 (trace ++ [Event.SignHash (env.Hash tx)])
  else SendTx.commit env h tx trace

/-- The second step of `SendTx`: the parents of a tx that is not the genesis tx. -/
def SendTx.parents (env : Env) (h : Host) (tx : Tx) : SendTxResult :=
  if tx.Parents.length = 0 ∧ tx.ID ≠ env.GenesisTxID then
    match env.hub.Leaves tx.StateURI with
    | .error e => SendTx.deferred env h tx [Event.Leaves tx.StateURI] (some e)
    | .ok parents => SendTx.sign env h { tx with Parents := parents } [Event.Leaves tx.StateURI]
  else SendTx.sign env h tx []

/-- `host.SendTx`. -/
def SendTx (env : Env) (h : Host) (tx : Tx) : SendTxResult :=
  if tx.From = zeroAddress then
    SendTx.parents env h { tx with From := h.signingKeypair.Address }
  else SendTx.parents env h tx

/-- `host.HandleWritableSubscriptionClosed`: close the subscription, then delete
it from the set of its state URI when there is one. -/
def HandleWritableSubscriptionClosed (env : Env) (h : Host) (writeSub : WritableSubscription) :
    Host × List Event :=
  let closed : List Event :=
    match env.CloseSub writeSub with
    | some err => [Event.CloseSub writeSub, Event.Errorf err]
    | none => [Event.CloseSub writeSub]
  match h.writableSubscriptions writeSub.StateURI with
  | some subs =>
    ({ h with writableSubscriptions := fun u =>
        if u = writeSub.StateURI then some (subs.filter (fun s => decide (s ≠ writeSub)))
        else h.writableSubscriptions u }, closed)
  | none => (h, closed)

/-- The end of `HandleWritableSubscriptionOpened`: the subscription is put into
the set of its state URI, which is made when it is missing. -/
def HandleWritableSubscriptionOpened.register (h : Host) (writeSub : WritableSubscription) :
    Host :=
  let subs : List WritableSubscription :=
    match h.writableSubscriptions writeSub.StateURI with
    | some l => l
    | none => []
  { h with writableSubscriptions := fun u =>
      if u = writeSub.StateURI then some (if writeSub ∈ subs then subs else subs ++ [writeSub])
      else h.writableSubscriptions u }

/-- `host.HandleWritableSubscriptionOpened`: a subscription to states is first
written the current state; when that fails the function returns before the
registration (an `ErrNoController` from `StateAtVersion` is no failure, there
is then no state to write). -/
def HandleWritableSubscriptionOpened (env : Env) (h : Host) (writeSub : WritableSubscription) :
    Host × List Event :=
  if writeSub.Type_.Includes SubscriptionType_States then
    let keypath : Keypath :=
      if writeSub.Keypath = KeypathSeparator then none else writeSub.Keypath
    match env.hub.StateAtVersion writeSub.StateURI with
    | .error err =>
      if err ≠ ErrNoController then
        (h, [Event.StateAtVersion writeSub.StateURI, Event.Errorf err])
      else
        (HandleWritableSubscriptionOpened.register h writeSub,
          [Event.StateAtVersion writeSub.StateURI])
    | .ok state =>
      match env.hub.Leaves writeSub.StateURI with
      | .error err =>
        (h, [Event.StateAtVersion writeSub.StateURI, Event.Leaves writeSub.StateURI,
          Event.Errorf err, Event.StateClose])
      | .ok leaves =>
        match env.Write writeSub none (some (env.NodeAt state keypath)) leaves with
        | some err =>
          (h, [Event.StateAtVersion writeSub.StateURI, Event.Leaves writeSub.StateURI,
            Event.Write writeSub none (some (env.NodeAt state keypath)) leaves,
            Event.Errorf err, Event.StateClose])
        | none =>
          (HandleWritableSubscriptionOpened.register h writeSub,
            [Event.StateAtVersion writeSub.StateURI, Event.Leaves writeSub.StateURI,
              Event.Write writeSub none (some (env.NodeAt state keypath)) leaves,
              Event.StateClose])
  else (HandleWritableSubscriptionOpened.register h writeSub, [])

/-- What a call of `HandleFetchHistoryRequest` leaves behind. -/
structure FetchHistoryResult where
  host : Host
  trace : List Event
  err : Option Error

/-- A `Write` or `WritePrivate` of the loop of `HandleFetchHistoryRequest` that
failed: the subscription is closed and the error returned. -/
def HandleFetchHistoryRequest.failed (env : Env) (h : Host) (writeSub : WritableSubscription)
    (trace : List Event) (err : Error) : FetchHistoryResult :=
  let closed := HandleWritableSubscriptionClosed env h writeSub
  { host := closed.1, trace := trace ++ [Event.Errorf err] ++ closed.2, err := some err }

/-- The loop of `HandleFetchHistoryRequest` over what the iterator delivers: the
txs still to come and the error the iterator reports after them. -/
def HandleFetchHistoryRequest.loop (env : Env) (stateURI : String)
    (writeSub : WritableSubscription) (iterErr : Option Error) :
    List Tx → Host → List Event → FetchHistoryResult
  | [], h, trace => { host := h, trace := trace, err := iterErr }
  | tx :: rest, h, trace =>
    match env.hub.Leaves stateURI with
    | .error err => { host := h, trace := trace ++ [Event.Leaves stateURI], err := some err }
    | .ok leaves =>
      match env.hub.IsPrivate tx.StateURI with
      | .error err =>
        { host := h, trace := trace ++ [Event.Leaves stateURI, Event.IsPrivate tx.StateURI],
          err := some err }
      | .ok isPrivate =>
        let trace1 := trace ++ [Event.Leaves stateURI, Event.IsPrivate tx.StateURI]
        if isPrivate then
          match writeSub.peer with
          | some peer =>
            match env.hub.IsMember tx.StateURI peer.Address with
            | .error err =>
              { host := h
                trace := trace1 ++ [Event.IsMember tx.StateURI peer.Address, Event.Errorf err]
                err := some err }
            | .ok isAllowed =>
              let trace2 := trace1 ++ [Event.IsMember tx.StateURI peer.Address]
              if isAllowed then
                match env.WritePrivate writeSub (some tx) none leaves with
                | some err =>
                  HandleFetchHistoryRequest.failed env h writeSub
                    (trace2 ++ [Event.WritePrivate writeSub (some tx) none leaves]) err
                | none =>
                  HandleFetchHistoryRequest.loop env stateURI writeSub iterErr rest h
                    (trace2 ++ [Event.WritePrivate writeSub (some tx) none leaves])
              else HandleFetchHistoryRequest.loop env stateURI writeSub iterErr rest h trace2
          | none =>
            match env.WritePrivate writeSub (some tx) none leaves with
            | some err =>
              HandleFetchHistoryRequest.failed env h writeSub
                (trace1 ++ [Event.WritePrivate writeSub (some tx) none leaves]) err
            | none =>
              HandleFetchHistoryRequest.loop env stateURI writeSub iterErr rest h
                (trace1 ++ [Event.WritePrivate writeSub (some tx) none leaves])
        else
          match env.Write writeSub (some tx) none leaves with
          | some err =>
            HandleFetchHistoryRequest.failed env h writeSub
              (trace1 ++ [Event.Write writeSub (some tx) none leaves]) err
          | none =>
            HandleFetchHistoryRequest.loop env stateURI writeSub iterErr rest h
              (trace1 ++ [Event.Write writeSub (some tx) none leaves])

/-- `host.HandleFetchHistoryRequest`: the iterator of `FetchTxs`, the loop, and the
deferred `Cancel` of the iterator on return. The parameter `toVersion` is not
used by the function. -/
def HandleFetchHistoryRequest (env : Env) (h : Host) (stateURI : String) (fromTxID : ID)
    (writeSub : WritableSubscription) : FetchHistoryResult :=
  let iter := env.hub.FetchTxs stateURI fromTxID
  let r := HandleFetchHistoryRequest.loop env stateURI writeSub iter.err iter.txs h
    [Event.FetchTxs stateURI fromTxID]
  { r with trace := r.trace ++ [Event.IterCancel] }

/-- A key of the `sync.Map` called `alreadySentPeers`. The keys are `interface{}`
values: the fan-out to subscribers stores the subscription object itself, the
fan-out to providers stores a `PeerDialInfo` struct; two keys of different
dynamic types are never equal. -/
inductive SentKey where
  | sub (writeSub : WritableSubscription)
  | dialInfo (d : PeerDialInfo)
  deriving DecidableEq, Repr

/-- The variables shared by the goroutines of one broadcast: the host, the map
`alreadySentPeers`, the captured variable `state`, and the calls made so far. -/
structure Broadcast where
  host : Host
  alreadySentPeers : List SentKey
  state : StateNode
  trace : List Event

/-- The goroutine that `broadcastToWritableSubscribers` starts for one
subscription. -/
def broadcastToWritableSubscribers.goroutine (env : Env) (tx : Tx) (leaves : List ID)
    (b : Broadcast) (writeSub : WritableSubscription) : Broadcast :=
  if SentKey.sub writeSub ∈ b.alreadySentPeers then b
  else
    let b1 := { b with alreadySentPeers := SentKey.sub writeSub :: b.alreadySentPeers }
    match env.hub.IsPrivate tx.StateURI with
    | .error err =>
      { b1 with trace := b1.trace ++ [Event.IsPrivate tx.StateURI, Event.Errorf err] }
    | .ok isPrivate =>
      let keypath : Keypath :=
        if writeSub.Keypath = KeypathSeparator then none else writeSub.Keypath
      let state := env.NodeAt b1.state keypath
      let b2 := { b1 with state := state, trace := b1.trace ++ [Event.IsPrivate tx.StateURI] }
      if isPrivate then
        let allowed : Except Error Bool × List Event :=
          match writeSub.peer with
          | some peer =>
            (env.hub.IsMember tx.StateURI peer.Address,
              [Event.IsMember tx.StateURI peer.Address])
          | none => (.ok true, [])
        match allowed.1 with
        | .error err => { b2 with trace := b2.trace ++ allowed.2 ++ [Event.Errorf err] }
        | .ok isAllowed =>
          if isAllowed then
            match env.WritePrivate writeSub (some tx) (some state) leaves with
            | some err =>
              let closed := HandleWritableSubscriptionClosed env b2.host writeSub
              { b2 with
                host := closed.1
                trace := b2.trace ++ allowed.2 ++
                  [Event.WritePrivate writeSub (some tx) (some state) leaves, Event.Errorf err] ++ closed.2 }
            | none =>
              { b2 with
                trace := b2.trace ++ allowed.2 ++ [Event.WritePrivate writeSub (some tx) (some state) leaves] }
          else { b2 with trace := b2.trace ++ allowed.2 }
      else
        match env.Write writeSub (some tx) (some state) leaves with
        | some err =>
          let closed := HandleWritableSubscriptionClosed env b2.host writeSub
          { b2 with
            host := closed.1
            trace := b2.trace ++ [Event.Write writeSub (some tx) (some state) leaves, Event.Errorf err] ++
              closed.2 }
        | none => { b2 with trace := b2.trace ++ [Event.Write writeSub (some tx) (some state) leaves] }

/-- The test at the head of the loop of `broadcastToWritableSubscribers`: a
subscription that is a peer which has seen the tx, and does not ask for states,
is passed over. -/
def broadcastToWritableSubscribers.skips (h : Host) (tx : Tx)
    (writeSub : WritableSubscription) : Bool :=
  match writeSub.peer with
  | some peer =>
    txSeenByPeer h peer tx.StateURI tx.ID &&
      !writeSub.Type_.Includes SubscriptionType_States
  | none => false

/-- One turn of the loop of `broadcastToWritableSubscribers`. -/
def broadcastToWritableSubscribers.iteration (env : Env) (tx : Tx) (leaves : List ID)
    (b : Broadcast) (writeSub : WritableSubscription) : Broadcast :=
  if broadcastToWritableSubscribers.skips b.host tx writeSub then b
  else broadcastToWritableSubscribers.goroutine env tx leaves b writeSub

/-- `host.broadcastToWritableSubscribers`: the loop over the set registered for
the state URI of the tx (no turn for a missing set). -/
def broadcastToWritableSubscribers (env : Env) (tx : Tx) (leaves : List ID) (b : Broadcast) :
    Broadcast :=
  match b.host.writableSubscriptions tx.StateURI with
  | none => b
  | some subs => subs.foldl (broadcastToWritableSubscribers.iteration env tx leaves) b

/-- The goroutine that `broadcastToStateURIProviders` starts for one provider. -/
def broadcastToStateURIProviders.goroutine (env : Env) (tx : Tx) (leaves : List ID)
    (b : Broadcast) (peer : Peer) : Broadcast :=
  if SentKey.dialInfo peer.DialInfo ∈ b.alreadySentPeers then b
  else
    let b1 := { b with alreadySentPeers := SentKey.dialInfo peer.DialInfo :: b.alreadySentPeers }
    match env.EnsureConnected peer with
    | some err => { b1 with trace := b1.trace ++ [Event.EnsureConnected peer, Event.Errorf err] }
    | none =>
      match env.Put peer tx leaves with
      | some err =>
        { b1 with trace := b1.trace ++
            [Event.EnsureConnected peer, Event.Put peer tx leaves, Event.Errorf err,
              Event.ClosePeer peer] }
      | none =>
        { b1 with trace := b1.trace ++
            [Event.EnsureConnected peer, Event.Put peer tx leaves, Event.ClosePeer peer] }

/-- One turn of the loop of `broadcastToStateURIProviders`. -/
def broadcastToStateURIProviders.iteration (env : Env) (tx : Tx) (leaves : List ID)
    (b : Broadcast) (peer : Peer) : Broadcast :=
  if txSeenByPeer b.host peer tx.StateURI tx.ID || decide (tx.From = peer.Address) then b
  else broadcastToStateURIProviders.goroutine env tx leaves b peer

/-- `host.broadcastToStateURIProviders` under a context that is not done: the loop
over the peers that `ProvidersOfStateURI` delivers. -/
def broadcastToStateURIProviders (env : Env) (tx : Tx) (leaves : List ID) (b : Broadcast) :
    Broadcast :=
  (env.ProvidersOfStateURI tx.StateURI).foldl
    (broadcastToStateURIProviders.iteration env tx leaves) b

/-- `host.broadcastToStateURIProviders` under its context: `ctxDone` says whether
the context is done when the forwarding goroutine reaches its `select`; the
goroutine then returns before a provider is delivered, the channel is closed
empty, and the loop makes no turn. -/
def broadcastToStateURIProviders.underContext (env : Env) (ctxDone : Bool) (tx : Tx)
    (leaves : List ID) (b : Broadcast) : Broadcast :=
  if ctxDone then b else broadcastToStateURIProviders env tx leaves b

/-- The broadcast of `handleNewState`: a fresh `alreadySentPeers` shared by the two
fan-outs. The goroutine that starts them does not wait for them (there is no
`wg.Wait()`), so its deferred `cancel` runs as soon as they are started: the
context is done when the fan-out to the providers looks at it, and no provider
is taken. The fan-out to the subscribers hands the context to `Write` and
`WritePrivate` and does not look at it itself. -/
def handleNewState.broadcast (env : Env) (h : Host) (tx : Tx) (state : StateNode)
    (leaves : List ID) : Broadcast :=
  broadcastToStateURIProviders.underContext env true tx leaves
    (broadcastToWritableSubscribers env tx leaves
      { host := h, alreadySentPeers := [], state := state, trace := [] })

/-! ## The delivery rule of the subscriber fan-out, spelled out -/

/-- The rule of one turn of the loop of `broadcastToWritableSubscribers`, spelled
out for a plain `Write`: the subscription is not passed over and `IsPrivate`
answers false. -/
def broadcastToWritableSubscribers.writeDue (env : Env) (h : Host) (tx : Tx)
    (s : WritableSubscription) : Bool :=
  !broadcastToWritableSubscribers.skips h tx s &&
    match env.hub.IsPrivate tx.StateURI with
    | .ok false => true
    | _ => false

/-- The rule of one turn of the loop of `broadcastToWritableSubscribers`, spelled
out for a `WritePrivate`: the subscription is not passed over, `IsPrivate` answers
true, and the subscription is in-process or `IsMember` answers true for the
address of its peer. -/
def broadcastToWritableSubscribers.writePrivateDue (env : Env) (h : Host) (tx : Tx)
    (s : WritableSubscription) : Bool :=
  !broadcastToWritableSubscribers.skips h tx s &&
    match env.hub.IsPrivate tx.StateURI with
    | .ok true =>
      match s.peer with
      | some peer =>
        match env.hub.IsMember tx.StateURI peer.Address with
        | .ok true => true
        | _ => false
      | none => true
    | _ => false

/-! ## Reading a trace -/

/-- A `Write` on the subscription `sub`. -/
def Event.isWriteTo (sub : WritableSubscription) : Event → Bool
  | .Write s _ _ _ => decide (s = sub)
  | _ => false

/-- A `WritePrivate` on the subscription `sub`. -/
def Event.isWritePrivateTo (sub : WritableSubscription) : Event → Bool
  | .WritePrivate s _ _ _ => decide (s = sub)
  | _ => false

/-- A `Put` on a peer handle with the dial info `d`. -/
def Event.isPutTo (d : PeerDialInfo) : Event → Bool
  | .Put p _ _ => decide (p.DialInfo = d)
  | _ => false

/-- A call of `ControllerHub.AddTx`. -/
def Event.isAddTx : Event → Bool
  | .AddTx _ _ => true
  | _ => false

/-- A call of `ControllerHub.Leaves`. -/
def Event.isLeaves : Event → Bool
  | .Leaves _ => true
  | _ => false

/-- A call of `peer.Ack`. -/
def Event.isAck : Event → Bool
  | .Ack _ _ _ => true
  | _ => false

/-- A line of the error log. -/
def Event.isErrorf : Event → Bool
  | .Errorf _ => true
  | _ => false

/-- The call `ev`, made by `SendTx` on the ControllerHub or on the signing keypair,
answers the error `e`. -/
def SendTx.answersError (env : Env) (h : Host) (ev : Event) (e : Error) : Bool :=
  match ev with
  | .Leaves stateURI =>
    match env.hub.Leaves stateURI with
    | .error e1 => decide (e1 = e)
    | .ok _ => false
  | .SignHash hash =>
    match h.signingKeypair.SignHash hash with
    | .error e1 => decide (e1 = e)
    | .ok _ => false
  | .AddTx tx force =>
    match env.hub.AddTx tx force with
    | some e1 => decide (e1 = e)
    | none => false
  | _ => false

/-! ## Sequences of calls -/

/-- The arguments of one call of `markTxSeenByPeer`. -/
structure MarkCall where
  peer : Peer
  stateURI : String
  txID : ID
  deriving DecidableEq, Repr

/-- The host after a sequence of calls of `markTxSeenByPeer`. -/
def markCalls (h : Host) (calls : List MarkCall) : Host :=
  calls.foldl (fun acc c => markTxSeenByPeer acc c.peer c.stateURI c.txID) h

/-- A call of one of the entry points of the host, by a transport, by the
ControllerHub or by a local caller. -/
inductive HostCall where
  | TxReceived (tx : Tx) (peer : Peer)
  | AckReceived (stateURI : String) (txID : ID) (peer : Peer)
  | SendTx (tx : Tx)
  | NewState (tx : Tx) (state : StateNode) (leaves : List ID)
  | WritableSubscriptionClosed (writeSub : WritableSubscription)

/-- The host after one call of an entry point, the collaborators answering as
in `env`. -/
def HostCall.run (env : Env) (h : Host) : HostCall → Host
  | .TxReceived tx peer => (HandleTxReceived env h tx peer).1
  | .AckReceived stateURI txID peer => HandleAckReceived h stateURI txID peer
  | .SendTx tx => (Redwood.SendTx env h tx).host
  | .NewState tx state leaves => (handleNewState.broadcast env h tx state leaves).host
  | .WritableSubscriptionClosed writeSub => (HandleWritableSubscriptionClosed env h writeSub).1

/-- The host after a sequence of calls of entry points; the collaborators may
answer differently at each call. -/
def runCalls (h : Host) (calls : List (Env × HostCall)) : Host :=
  calls.foldl (fun acc c => HostCall.run c.1 acc c.2) h

/-! ## Concrete inputs -/

/-- A signing keypair with the address 3; the signature of a hash is the hash
followed by the address of the signer. -/
def exKeypair : SigningKeypair :=
  { Address := 3, SignHash := fun x => .ok [x, 3] }

/-- The recovery that goes with `exKeypair`: it reads the signer off a signature
over the given hash. -/
def exRecoverAddress (x : Hash) (sig : Signature) : Except Error Address :=
  match sig with
  | [y, a] => if y = x then .ok a else .error "invalid signature"
  | _ => .error "invalid signature"

/-- A ControllerHub that has no tx, accepts every tx, has the leaf 7, and knows
only public state URIs. -/
def exHub : ControllerHub :=
  { HaveTx := fun _ _ => .ok false
    AddTx := fun _ _ => none
    Leaves := fun _ => .ok [7]
    IsPrivate := fun _ => .ok false
    IsMember := fun _ _ => .ok true
    StateAtVersion := fun _ => .ok "state"
    FetchTxs := fun _ _ => { txs := [], err := none } }

/-- A peer with a known address. -/
def exPeer : Peer :=
  { DialInfo := { TransportName := "libp2p", DialAddr := "/ip4/10.0.0.2/tcp/21231" }
    Address := 9 }

/-- A peer whose address is not known yet. -/
def exPeerUnknown : Peer :=
  { DialInfo := { TransportName := "http", DialAddr := "http://10.0.0.3:8080" }
    Address := 0 }

/-- Collaborators that all succeed; `exPeer` is the one provider of every state
URI; the hash of a tx is its id. -/
def exEnv : Env :=
  { hub := exHub
    GenesisTxID := 1
    Hash := fun t => t.ID
    RecoverAddress := exRecoverAddress
    ConfigUpdate := none
    Ack := fun _ _ _ => none
    EnsureConnected := fun _ => none
    Put := fun _ _ _ => none
    ClosePeer := fun _ => none
    Write := fun _ _ _ _ => none
    WritePrivate := fun _ _ _ _ => none
    CloseSub := fun _ => none
    NodeAt := fun s _ => s
    ProvidersOfStateURI := fun _ => [exPeer]
    CopyToMemory := fun s => .ok s
    NewMemoryNode := "" }

/-- The collaborators of `exEnv` with a ControllerHub for which every state URI
is private. -/
def exEnvPrivate : Env :=
  { exEnv with hub := { exHub with IsPrivate := fun _ => .ok true } }

/-- The collaborators of `exEnv` with a ControllerHub whose `Leaves` fails. -/
def exEnvNoLeaves : Env :=
  { exEnv with hub := { exHub with Leaves := fun _ => .error "no controller" } }

/-- A tx as a local caller submits it: no sender, no parents, no signature. -/
def exTx : Tx :=
  { ID := 5, Parents := [], StateURI := "room.foo/chat", From := 0, Sig := [], Patches := [],
    Attachment := [], Checkpoint := false, Private := false }

/-- A tx sent by the address 4, complete. -/
def exTxSigned : Tx :=
  { ID := 5, Parents := [7], StateURI := "room.foo/chat", From := 4, Sig := [5, 4],
    Patches := [], Attachment := [], Checkpoint := false, Private := false }

/-- A tx that claims the sender 8 under a signature that is not one. -/
def exTxForged : Tx :=
  { ID := 6, Parents := [7], StateURI := "room.foo/chat", From := 8, Sig := [1, 2, 3],
    Patches := [], Attachment := [], Checkpoint := false, Private := false }

/-- A tx that names the sender 8 and has no signature. -/
def exTxForeign : Tx :=
  { ID := 6, Parents := [7], StateURI := "room.foo/chat", From := 8, Sig := [],
    Patches := [], Attachment := [], Checkpoint := false, Private := false }

/-- A subscription of `exPeer` to the txs of "room.foo/chat". -/
def exSub : WritableSubscription :=
  { ident := 1, StateURI := "room.foo/chat", Type_ := SubscriptionType_Txs, Keypath := none,
    peer := some exPeer }

/-- A subscription of `exPeerUnknown` to the txs of "room.foo/chat". -/
def exSubUnknown : WritableSubscription :=
  { ident := 2, StateURI := "room.foo/chat", Type_ := SubscriptionType_Txs, Keypath := none,
    peer := some exPeerUnknown }

/-- A new host with an empty, non-nil subscribed set and the writable
subscription `exSub`. -/
def exHost : Host :=
  { NewHost exKeypair (some []) with
    writableSubscriptions := fun u => if u = "room.foo/chat" then some [exSub] else none }

/-- A new host with an empty, non-nil subscribed set and the writable
subscription `exSubUnknown`. -/
def exHostUnknown : Host :=
  { NewHost exKeypair (some []) with
    writableSubscriptions := fun u => if u = "room.foo/chat" then some [exSubUnknown] else none }

/-- A new host whose subscribed set is the nil `StringSet`. -/
def exHostNil : Host := NewHost exKeypair none

/-! ## The registry of writable subscriptions -/

/-- The subscription is in the set that `writableSubscriptions` holds for its
state URI. -/
def Host.registered (h : Host) (s : WritableSubscription) : Bool :=
  match h.writableSubscriptions s.StateURI with
  | some l => decide (s ∈ l)
  | none => false

/-- The rule of `HandleWritableSubscriptionOpened`, spelled out: the call reaches
the registration when the subscription does not ask for states, or there is no
controller, or the current state is written to it without error. -/
def HandleWritableSubscriptionOpened.registers (env : Env) (s : WritableSubscription) : Bool :=
  if s.Type_.Includes SubscriptionType_States then
    match env.hub.StateAtVersion s.StateURI with
    | .error err => decide (err = ErrNoController)
    | .ok state =>
      match env.hub.Leaves s.StateURI with
      | .error _ => false
      | .ok leaves =>
        match env.Write s none
            (some (env.NodeAt state (if s.Keypath = KeypathSeparator then none else s.Keypath)))
            leaves with
        | some _ => false
        | none => true
  else true

/-- A call of one of the two handlers of the life of a writable subscription. -/
inductive SubscriptionCall where
  | Opened (writeSub : WritableSubscription)
  | Closed (writeSub : WritableSubscription)
  deriving DecidableEq, Repr

/-- The host after one call of a handler, the collaborators answering as in
`env`. -/
def SubscriptionCall.run (env : Env) (h : Host) : SubscriptionCall → Host
  | .Opened writeSub => (HandleWritableSubscriptionOpened env h writeSub).1
  | .Closed writeSub => (HandleWritableSubscriptionClosed env h writeSub).1

/-- The host after a sequence of calls of the two handlers; the collaborators may
answer differently at each call. -/
def runSubscriptionCalls (h : Host) (calls : List (Env × SubscriptionCall)) : Host :=
  calls.foldl (fun acc c => SubscriptionCall.run c.1 acc c.2) h

/-- A call of `Close` on the subscription `sub`. -/
def Event.isCloseOf (sub : WritableSubscription) : Event → Bool
  | .CloseSub s => decide (s = sub)
  | _ => false

/-- The sets of `writableSubscriptions` hold only subscriptions of their own state
URI. -/
def Host.setsMatchStateURI (h : Host) : Prop :=
  ∀ u l, h.writableSubscriptions u = some l → ∀ s ∈ l, s.StateURI = u

/-- A `Write` or `WritePrivate` on the subscription `sub` that answers an error. -/
def Event.isFailedWriteTo (env : Env) (sub : WritableSubscription) : Event → Bool
  | .Write s tx state leaves => decide (s = sub) && (env.Write s tx state leaves).isSome
  | .WritePrivate s tx state leaves =>
    decide (s = sub) && (env.WritePrivate s tx state leaves).isSome
  | _ => false

/-! ## Reading a trace: writes and cancels -/

/-- A `Write` or a `WritePrivate`, on any subscription. -/
def Event.isAnyWrite : Event → Bool
  | .Write _ _ _ _ => true
  | .WritePrivate _ _ _ _ => true
  | _ => false

/-- The call of `Cancel` on the iterator of `FetchTxs`. -/
def Event.isIterCancel : Event → Bool
  | .IterCancel => true
  | _ => false

/-- What a `Write` or `WritePrivate` answers (`none` for any other call). -/
def Event.writeAnswer (env : Env) : Event → Option Error
  | .Write s tx state leaves => env.Write s tx state leaves
  | .WritePrivate s tx state leaves => env.WritePrivate s tx state leaves
  | _ => none

/-! ## Refs: serving and fetching -/

/-- Modelled from the spec: the hash algorithms of `types.RefID`, declared outside
the sources. -/
inductive HashAlg where
  | SHA1
  | SHA3
  deriving DecidableEq, Repr

/-- Modelled from the spec: the struct `types.RefID`, declared outside the
sources: an algorithm and a hash. -/
structure RefID where
  HashAlg : Redwood.HashAlg
  Hash : Redwood.Hash
  deriving DecidableEq, Repr

/-- The struct `FetchRefResponseBody`: a packet of a ref stream. -/
structure FetchRefResponseBody where
  Data : List Nat
  End : Bool
  deriving DecidableEq, Repr

/-- The reader that `RefStore.Object` returns: the bytes it still delivers and what
it reports once they are delivered, an I/O error or (`none`) the end of the
stream. -/
structure ObjectReader where
  data : List Nat
  err : Option Error
  deriving DecidableEq, Repr

/-- The error result of `io.ReadFull`. -/
inductive ReadError where
  | nil
  | EOF
  | ErrUnexpectedEOF
  | other (err : Error)
  deriving DecidableEq, Repr

/-- What `io.ReadFull(r, buf)` returns: the bytes read into `buf` (their number is
`n`), the error, and the reader afterwards. -/
structure ReadFullResult where
  bytes : List Nat
  err : ReadError
  reader : ObjectReader

/-- `io.ReadFull(r, buf)` for a buffer of `bufLen` bytes: it fills the buffer when
the reader has that many bytes; otherwise it reads what is left and returns the
reader's error, `EOF` when nothing was read at the end of the stream, and
`ErrUnexpectedEOF` when the stream ended after some bytes. -/
def ReadFull (r : ObjectReader) (bufLen : Nat) : ReadFullResult :=
  if bufLen ≤ r.data.length then
    { bytes := r.data.take bufLen, err := ReadError.nil,
      reader := { r with data := r.data.drop bufLen } }
  else
    match r.err with
    | some e => { bytes := r.data, err := ReadError.other e, reader := { r with data := [] } }
    | none =>
      if r.data.length = 0 then { bytes := [], err := ReadError.EOF, reader := r }
      else
        { bytes := r.data, err := ReadError.ErrUnexpectedEOF, reader := { r with data := [] } }

/-- The constant `REF_CHUNK_SIZE`. -/
def REF_CHUNK_SIZE : Nat := 1024

/-- The stream of a peer that serves a ref: the packets that `ReceiveRefPacket`
returns in turn, and the error it returns once they are used up. -/
structure PacketStream where
  packets : List FetchRefResponseBody
  err : Error

/-- The collaborators of the host in serving and fetching refs: the RefStore, the
ref calls on peer handles, and the transports. `StoreObject` is given the bytes
that its reader delivers and the error the reader ends with (`none`: a clean end
of stream). -/
structure RefEnv where
  Object : RefID → Except Error ObjectReader
  StoreObject : List Nat → Option Error → Except Error (Hash × Hash)
  SendRefHeader : Peer → Option Error
  SendRefPacket : Peer → List Nat → Bool → Option Error
  ProvidersOfRef : RefID → List Peer
  EnsureConnected : Peer → Option Error
  FetchRef : Peer → RefID → Option Error
  ReceiveRefHeader : Peer → Option Error
  RefPackets : Peer → PacketStream
  Transports : List String
  AnnounceRef : String → RefID → Option Error
  ErrUnimplemented : Error

/-- A call of the host on a collaborator while serving or fetching a ref. -/
inductive RefEvent where
  | Object (refID : RefID)
  | SendRefHeader (peer : Peer)
  | SendRefPacket (peer : Peer) (data : List Nat) (end_ : Bool)
  | ClosePeer (peer : Peer)
  | EnsureConnected (peer : Peer)
  | FetchRef (peer : Peer) (refID : RefID)
  | ReceiveRefHeader (peer : Peer)
  | ReceiveRefPacket (peer : Peer)
  | StoreObject (data : List Nat) (readerErr : Option Error)
  | AnnounceRef (transport : String) (refID : RefID)
  | Errorf (err : Error)
  | Warnf (err : Error)
  deriving DecidableEq, Repr

/-- How the loop of `HandleFetchRefReceived` is left: by `break`, by `return`, or
not at all within the given number of turns. -/
inductive LoopExit where
  | broke
  | returned
  | outOfFuel
  deriving DecidableEq, Repr

/-- The loop of `HandleFetchRefReceived`, for at most `fuel` turns: read a buffer
full, send it as a packet. `bufLen` is `len(buf)`, which `buf = buf[:n]` shortens
after a short read. -/
def HandleFetchRefReceived.loop (env : RefEnv) (peer : Peer) :
    Nat → ObjectReader → Nat → List RefEvent → List RefEvent × LoopExit
  | 0, _, _, trace => (trace, LoopExit.outOfFuel)
  | fuel + 1, objectReader, bufLen, trace =>
    let read := ReadFull objectReader bufLen
    match read.err with
    | ReadError.EOF => (trace, LoopExit.broke)
    | ReadError.other e => (trace ++ [RefEvent.Errorf e], LoopExit.returned)
    | ReadError.ErrUnexpectedEOF =>
      match env.SendRefPacket peer read.bytes false with
      | some e =>
        (trace ++ [RefEvent.SendRefPacket peer read.bytes false, RefEvent.Errorf e],
          LoopExit.returned)
      | none =>
        HandleFetchRefReceived.loop env peer fuel read.reader read.bytes.length
          (trace ++ [RefEvent.SendRefPacket peer read.bytes false])
    | ReadError.nil =>
      match env.SendRefPacket peer read.bytes false with
      | some e =>
        (trace ++ [RefEvent.SendRefPacket peer read.bytes false, RefEvent.Errorf e],
          LoopExit.returned)
      | none =>
        HandleFetchRefReceived.loop env peer fuel read.reader bufLen
          (trace ++ [RefEvent.SendRefPacket peer read.bytes false])

/-- What a call of `HandleFetchRefReceived` leaves behind: the calls made, the
value it panicked with (if it did), and whether the loop was still running
when the turns allowed to it were used up. -/
structure FetchRefReceivedResult where
  trace : List RefEvent
  panicked : Option Error
  outOfFuel : Bool
  deriving DecidableEq, Repr

/-- `host.HandleFetchRefReceived`. The deferred `peer.Close()` is the last call on
every path, the panic included. The loop is given one turn more than the object
has bytes. -/
def HandleFetchRefReceived (env : RefEnv) (refID : RefID) (peer : Peer) :
    FetchRefReceivedResult :=
  match env.Object refID with
  | .error e =>
    { trace := [RefEvent.Object refID, RefEvent.ClosePeer peer], panicked := some e,
      outOfFuel := false }
  | .ok objectReader =>
    match env.SendRefHeader peer with
    | some e =>
      { trace := [RefEvent.Object refID, RefEvent.SendRefHeader peer, RefEvent.Errorf e,
          RefEvent.ClosePeer peer]
        panicked := none, outOfFuel := false }
    | none =>
      let sent := HandleFetchRefReceived.loop env peer (objectReader.data.length + 1)
        objectReader REF_CHUNK_SIZE [RefEvent.Object refID, RefEvent.SendRefHeader peer]
      match sent.2 with
      | LoopExit.broke =>
        match env.SendRefPacket peer [] true with
        | some e =>
          { trace := sent.1 ++ [RefEvent.SendRefPacket peer [] true, RefEvent.Errorf e,
              RefEvent.ClosePeer peer]
            panicked := none, outOfFuel := false }
        | none =>
          { trace := sent.1 ++ [RefEvent.SendRefPacket peer [] true, RefEvent.ClosePeer peer]
            panicked := none, outOfFuel := false }
      | LoopExit.returned =>
        { trace := sent.1 ++ [RefEvent.ClosePeer peer], panicked := none, outOfFuel := false }
      | LoopExit.outOfFuel =>
        { trace := sent.1 ++ [RefEvent.ClosePeer peer], panicked := none, outOfFuel := true }

/-- What the goroutine of `FetchRef` that feeds the pipe leaves behind: the bytes
written to the pipe, the error the pipe is closed with, the number of calls of
`ReceiveRefPacket`, whether it stopped at a packet flagged `End`, and the error
it logged. -/
structure ReceivedStream where
  data : List Nat
  closeErr : Option Error
  calls : Nat
  sawEnd : Bool
  logged : Option Error
  deriving DecidableEq, Repr

/-- The goroutine of `FetchRef` that feeds the pipe, run over the packets that the
peer delivers (the context is never done, and the pipe takes every write).
The variable `err` that the deferred `pw.CloseWithError(err)` reads is the one
declared before the loop; inside the loop `pkt, err := peer.ReceiveRefPacket()`
declares another one, so the pipe is closed with `nil` when the loop is left. -/
def FetchRef.receive (streamErr : Error) :
    List FetchRefResponseBody → List Nat → Nat → ReceivedStream
  | [], written, calls =>
    { data := written, closeErr := none, calls := calls + 1, sawEnd := false,
      logged := some streamErr }
  | pkt :: rest, written, calls =>
    if pkt.End then
      { data := written, closeErr := none, calls := calls + 1, sawEnd := true, logged := none }
    else FetchRef.receive streamErr rest (written ++ pkt.Data) (calls + 1)

/-- `host.announceRefs`: every ref on every transport; an `ErrUnimplemented` is
passed over, any other error is logged. -/
def announceRefs (env : RefEnv) (refIDs : List RefID) : List RefEvent :=
  env.Transports.flatMap (fun transport =>
    refIDs.flatMap (fun refID =>
      match env.AnnounceRef transport refID with
      | some e =>
        if e = env.ErrUnimplemented then [RefEvent.AnnounceRef transport refID]
        else [RefEvent.AnnounceRef transport refID, RefEvent.Warnf e]
      | none => [RefEvent.AnnounceRef transport refID]))

/-- What a call of `FetchRef` leaves behind: the calls made, and the hashes under
which the object was stored when the function returned from inside the loop. -/
structure FetchRefResult where
  trace : List RefEvent
  stored : Option (Hash × Hash)
  deriving DecidableEq, Repr

/-- The loop of `host.FetchRef` over the providers of the ref. -/
def FetchRef.loop (env : RefEnv) (refID : RefID) : List Peer → List RefEvent → FetchRefResult
  | [], trace => { trace := trace, stored := none }
  | peer :: rest, trace =>
    match env.EnsureConnected peer with
    | some e =>
      FetchRef.loop env refID rest (trace ++ [RefEvent.EnsureConnected peer, RefEvent.Errorf e])
    | none =>
      match env.FetchRef peer refID with
      | some e =>
        FetchRef.loop env refID rest
          (trace ++ [RefEvent.EnsureConnected peer, RefEvent.FetchRef peer refID,
            RefEvent.Errorf e])
      | none =>
        match env.ReceiveRefHeader peer with
        | some e =>
          FetchRef.loop env refID rest
            (trace ++ [RefEvent.EnsureConnected peer, RefEvent.FetchRef peer refID,
              RefEvent.ReceiveRefHeader peer, RefEvent.Errorf e])
        | none =>
          let stream := FetchRef.receive (env.RefPackets peer).err (env.RefPackets peer).packets
            [] 0
          let trace1 := trace ++ [RefEvent.EnsureConnected peer, RefEvent.FetchRef peer refID,
            RefEvent.ReceiveRefHeader peer] ++
            List.replicate stream.calls (RefEvent.ReceiveRefPacket peer) ++
            [RefEvent.StoreObject stream.data stream.closeErr]
          match env.StoreObject stream.data stream.closeErr with
          | .error e => FetchRef.loop env refID rest (trace1 ++ [RefEvent.Errorf e])
          | .ok (sha1Hash, sha3Hash) =>
            { trace := trace1 ++ announceRefs env
                [{ HashAlg := HashAlg.SHA1, Hash := sha1Hash },
                 { HashAlg := HashAlg.SHA3, Hash := sha3Hash }]
              stored := some (sha1Hash, sha3Hash) }

/-- `host.FetchRef`. -/
def FetchRef (env : RefEnv) (refID : RefID) : FetchRefResult :=
  FetchRef.loop env refID (env.ProvidersOfRef refID) []

/-- The packets that a trace of `HandleFetchRefReceived` sent, in order. -/
def RefEvent.sentPackets : List RefEvent → List FetchRefResponseBody
  | [] => []
  | RefEvent.SendRefPacket _ data end_ :: rest =>
    { Data := data, End := end_ } :: RefEvent.sentPackets rest
  | _ :: rest => RefEvent.sentPackets rest

/-! ## The identity challenge -/

/-- Modelled from the spec: the type `SigningPublicKey` is declared outside the
sources; a key is its bytes. -/
structure SigningPublicKey where
  bytes : List Nat
  deriving DecidableEq, Repr

/-- Modelled from the spec: the type `EncryptingPublicKey` is declared outside the
sources; a key is an opaque token. -/
structure EncryptingPublicKey where
  token : Nat
  deriving DecidableEq, Repr

/-- The struct `ChallengeIdentityResponse`: a signature and the bytes of an
encrypting public key. -/
structure ChallengeIdentityResponse where
  Signature : Redwood.Signature
  EncryptingPublicKey : List Nat
  deriving DecidableEq, Repr

/-- The functions of the crypto module that the challenge uses, declared outside
the sources and taken as given: `types.HashBytes`, `RecoverSigningPubkey`, the
method `Address` of a signing public key, `EncryptingPublicKeyFromBytes`, and
the method `Bytes` of an encrypting public key. -/
structure Crypto where
  HashBytes : List Nat → Hash
  RecoverSigningPubkey : Hash → Signature → Except Error SigningPublicKey
  Address : SigningPublicKey → Redwood.Address
  EncryptingPublicKeyFromBytes : List Nat → EncryptingPublicKey
  Bytes : EncryptingPublicKey → List Nat

/-- The collaborators of the host in the identity challenge: the crypto module,
the encrypting public key of the local node, `types.GenerateChallengeMsg`, and
what the calls on a peer handle answer. -/
structure ChallengeEnv where
  crypto : Crypto
  EncryptingPublicKey : Redwood.EncryptingPublicKey
  GenerateChallengeMsg : Except Error (List Nat)
  EnsureConnected : Peer → Option Error
  ChallengeIdentity : Peer → List Nat → Option Error
  ReceiveChallengeIdentityResponse : Peer → Except Error ChallengeIdentityResponse
  RespondChallengeIdentity : Peer → ChallengeIdentityResponse → Option Error

/-- A call of the host on a collaborator during an identity challenge. -/
inductive ChallengeEvent where
  | EnsureConnected (peer : Peer)
  | GenerateChallengeMsg
  | ChallengeIdentity (peer : Peer) (challengeMsg : List Nat)
  | ReceiveChallengeIdentityResponse (peer : Peer)
  | RecoverSigningPubkey (hash : Hash) (sig : Signature)
  | AddVerifiedCredentials (dialInfo : PeerDialInfo) (address : Address)
      (sigpubkey : SigningPublicKey) (encpubkey : EncryptingPublicKey)
  | SignHash (hash : Hash)
  | RespondChallengeIdentity (peer : Peer) (response : ChallengeIdentityResponse)
  | ClosePeer (peer : Peer)
  deriving DecidableEq, Repr

/-- What a call of `ChallengePeerIdentity` leaves behind: the calls made and the
keys or the error returned. -/
structure ChallengePeerIdentityResult where
  trace : List ChallengeEvent
  ret : Except Error (SigningPublicKey × EncryptingPublicKey)

/-- `host.ChallengePeerIdentity` (the deferred `withStack` only decorates the
error). -/
def ChallengePeerIdentity (env : ChallengeEnv) (peer : Peer) : ChallengePeerIdentityResult :=
  match env.EnsureConnected peer with
  | some err => { trace := [ChallengeEvent.EnsureConnected peer], ret := .error err }
  | none =>
    match env.GenerateChallengeMsg with
    | .error err =>
      { trace := [ChallengeEvent.EnsureConnected peer, ChallengeEvent.GenerateChallengeMsg],
        ret := .error err }
    | .ok challengeMsg =>
      match env.ChallengeIdentity peer challengeMsg with
      | some err =>
        { trace := [ChallengeEvent.EnsureConnected peer, ChallengeEvent.GenerateChallengeMsg,
            ChallengeEvent.ChallengeIdentity peer challengeMsg]
          ret := .error err }
      | none =>
        match env.ReceiveChallengeIdentityResponse peer with
        | .error err =>
          { trace := [ChallengeEvent.EnsureConnected peer, ChallengeEvent.GenerateChallengeMsg,
              ChallengeEvent.ChallengeIdentity peer challengeMsg,
              ChallengeEvent.ReceiveChallengeIdentityResponse peer]
            ret := .error err }
        | .ok resp =>
          match env.crypto.RecoverSigningPubkey (env.crypto.HashBytes challengeMsg)
              resp.Signature with
          | .error err =>
            { trace := [ChallengeEvent.EnsureConnected peer, ChallengeEvent.GenerateChallengeMsg,
                ChallengeEvent.ChallengeIdentity peer challengeMsg,
                ChallengeEvent.ReceiveChallengeIdentityResponse peer,
                ChallengeEvent.RecoverSigningPubkey (env.crypto.HashBytes challengeMsg)
                  resp.Signature]
              ret := .error err }
          | .ok sigpubkey =>
            let encpubkey := env.crypto.EncryptingPublicKeyFromBytes resp.EncryptingPublicKey
            { trace := [ChallengeEvent.EnsureConnected peer, ChallengeEvent.GenerateChallengeMsg,
                ChallengeEvent.ChallengeIdentity peer challengeMsg,
                ChallengeEvent.ReceiveChallengeIdentityResponse peer,
                ChallengeEvent.RecoverSigningPubkey (env.crypto.HashBytes challengeMsg)
                  resp.Signature,
                ChallengeEvent.AddVerifiedCredentials peer.DialInfo
                  (env.crypto.Address sigpubkey) sigpubkey encpubkey]
              ret := .ok (sigpubkey, encpubkey) }

/-- What a call of `HandleChallengeIdentity` leaves behind. -/
structure HandleChallengeIdentityResult where
  trace : List ChallengeEvent
  err : Option Error

/-- `host.HandleChallengeIdentity`: sign the hash of the challenge and respond with
the signature and the bytes of the local encrypting public key; the deferred
`peer.Close()` comes last. -/
def HandleChallengeIdentity (env : ChallengeEnv) (h : Host) (challengeMsg : List Nat)
    (peer : Peer) : HandleChallengeIdentityResult :=
  match h.signingKeypair.SignHash (env.crypto.HashBytes challengeMsg) with
  | .error err =>
    { trace := [ChallengeEvent.SignHash (env.crypto.HashBytes challengeMsg),
        ChallengeEvent.ClosePeer peer]
      err := some err }
  | .ok sig =>
    let response : ChallengeIdentityResponse :=
      { Signature := sig, EncryptingPublicKey := env.crypto.Bytes env.EncryptingPublicKey }
    { trace := [ChallengeEvent.SignHash (env.crypto.HashBytes challengeMsg),
        ChallengeEvent.RespondChallengeIdentity peer response, ChallengeEvent.ClosePeer peer]
      err := env.RespondChallengeIdentity peer response }

/-- A call of `PeerStore.AddVerifiedCredentials`. -/
def ChallengeEvent.isAddVerifiedCredentials : ChallengeEvent → Bool
  | .AddVerifiedCredentials _ _ _ _ => true
  | _ => false

/-! ## Concrete inputs: subscriptions, refs, challenges -/

/-- The collaborators of `exEnv`, except that every `Write` on `exSub` answers an
error. -/
def exEnvWriteFails : Env :=
  { exEnv with Write := fun s _ _ _ => if s = exSub then some "broken pipe" else none }

/-- A new host with the writable subscriptions `exSub` and `exSubUnknown`. -/
def exHostBoth : Host :=
  { NewHost exKeypair (some []) with
    writableSubscriptions := fun u =>
      if u = "room.foo/chat" then some [exSub, exSubUnknown] else none }

/-- A subscription of `exPeer` to the states of "room.foo/chat". -/
def exSubStates : WritableSubscription :=
  { ident := 4, StateURI := "room.foo/chat", Type_ := SubscriptionType_States, Keypath := none,
    peer := some exPeer }

/-- The collaborators of `exEnv`, except that every `Write` answers an error. -/
def exEnvNoWrite : Env :=
  { exEnv with Write := fun _ _ _ _ => some "broken pipe" }

/-- The collaborators of `exEnv`, with states named by their path: the node of
`s` at the keypath `k` is `s/k`. -/
def exEnvPaths : Env :=
  { exEnv with
    NodeAt := fun s k =>
      match k with
      | some p => s ++ "/" ++ p
      | none => s }

/-- An in-process subscription to the states of "room.foo/chat" under "a". -/
def exSubA : WritableSubscription :=
  { ident := 5, StateURI := "room.foo/chat", Type_ := SubscriptionType_States,
    Keypath := some "a", peer := none }

/-- An in-process subscription to the states of "room.foo/chat" under "b". -/
def exSubB : WritableSubscription :=
  { ident := 6, StateURI := "room.foo/chat", Type_ := SubscriptionType_States,
    Keypath := some "b", peer := none }

/-- A new host with the writable subscriptions `exSubA` and `exSubB`, ranged over
in this order. -/
def exHostAB : Host :=
  { NewHost exKeypair (some []) with
    writableSubscriptions := fun u => if u = "room.foo/chat" then some [exSubA, exSubB] else none }

/-- A new host with the writable subscriptions `exSubB` and `exSubA`, ranged over
in this order. -/
def exHostBA : Host :=
  { NewHost exKeypair (some []) with
    writableSubscriptions := fun u => if u = "room.foo/chat" then some [exSubB, exSubA] else none }

/-- The collaborators of `exEnv`, with a history of two txs for every state URI;
a `Write` of the second one answers an error. -/
def exEnvHistory : Env :=
  { exEnv with
    hub := { exHub with FetchTxs := fun _ _ => { txs := [exTxSigned, exTxForged], err := none } }
    Write := fun _ tx _ _ => if tx = some exTxForged then some "broken pipe" else none }

/-- A blob of 2500 bytes. -/
def exBlob : List Nat := List.replicate 2500 7

/-- The id under which `exBlob` is asked for. -/
def exRefID : RefID := { HashAlg := HashAlg.SHA3, Hash := 77 }

/-- A second provider. -/
def exPeer2 : Peer :=
  { DialInfo := { TransportName := "libp2p", DialAddr := "/ip4/10.0.0.4/tcp/21231" }
    Address := 11 }

/-- A node that has `exBlob` in its RefStore under every id, and whose calls all
succeed. The store answers with the length and the sum of the bytes for hashes. -/
def exRefEnvServing : RefEnv :=
  { Object := fun _ => .ok { data := exBlob, err := none }
    StoreObject := fun data err =>
      match err with
      | some e => .error e
      | none => .ok (data.length, data.sum)
    SendRefHeader := fun _ => none
    SendRefPacket := fun _ _ _ => none
    ProvidersOfRef := fun _ => []
    EnsureConnected := fun _ => none
    FetchRef := fun _ _ => none
    ReceiveRefHeader := fun _ => none
    RefPackets := fun _ => { packets := [], err := "EOF" }
    Transports := ["libp2p"]
    AnnounceRef := fun _ _ => none
    ErrUnimplemented := "unimplemented" }

/-- A node to which the provider `exPeer` delivers the packets that
`exRefEnvServing` sends for `exRefID`, and after it `exPeer2`. -/
def exRefEnvFetching : RefEnv :=
  { exRefEnvServing with
    ProvidersOfRef := fun _ => [exPeer, exPeer2]
    RefPackets := fun _ =>
      { packets := RefEvent.sentPackets (HandleFetchRefReceived exRefEnvServing exRefID exPeer).trace
        err := "EOF" } }

/-- A node to which every provider delivers the three bytes 1, 2, 3 and the end
of the stream, whatever ref was asked for; the providers are `exPeer` and
`exPeer2`. The store answers with the hashes 3 and 6. -/
def exRefEnvOther : RefEnv :=
  { exRefEnvServing with
    ProvidersOfRef := fun _ => [exPeer, exPeer2]
    RefPackets := fun _ =>
      { packets := [{ Data := [1, 2, 3], End := false }, { Data := [], End := true }]
        err := "EOF" } }

/-- A crypto module in which the signature `[x, a]` over the hash `x` recovers the
key `[a]`, whose address is `a`; a challenge hashes to its sum. -/
def exCrypto : Crypto :=
  { HashBytes := fun msg => msg.sum
    RecoverSigningPubkey := fun x sig =>
      match sig with
      | [y, a] => if y = x then .ok { bytes := [a] } else .error "invalid signature"
      | _ => .error "invalid signature"
    Address := fun pk => pk.bytes.headD 0
    EncryptingPublicKeyFromBytes := fun bs => { token := bs.headD 0 }
    Bytes := fun k => [k.token] }

/-- The challenge that the challenger generates. -/
def exChallengeMsg : List Nat := List.replicate 32 1

/-- The side of the responder, whose encrypting public key is 21. -/
def exResponder : ChallengeEnv :=
  { crypto := exCrypto
    EncryptingPublicKey := { token := 21 }
    GenerateChallengeMsg := .ok exChallengeMsg
    EnsureConnected := fun _ => none
    ChallengeIdentity := fun _ _ => none
    ReceiveChallengeIdentityResponse := fun _ => .error "EOF"
    RespondChallengeIdentity := fun _ _ => none }

/-- The side of the challenger, which receives the response of `exHost` to
`exChallengeMsg`. -/
def exChallenger : ChallengeEnv :=
  { exResponder with
    EncryptingPublicKey := { token := 22 }
    ReceiveChallengeIdentityResponse := fun _ =>
      .ok { Signature := [32, 3], EncryptingPublicKey := [21] } }

/-! ## `handleNewState` and the auto-subscribe -/

/-- What a call of `host.subscribe` leaves behind. -/
structure SubscribeResult where
  host : Host
  trace : List Event
  err : Option Error

/-- `host.subscribe`: `config.Update` runs the function that adds the state URI to
the subscribed set (the value `Add` returns is dropped) and answers its error;
then the multi-reader subscription of the state URI is made, started and put
into `readableSubscriptions` when there is none. The goroutine that deletes the
entry runs when the host or the subscription is done, not before. -/
def subscribe (env : Env) (h : Host) (stateURI : String) : SubscribeResult :=
  let h1 := { h with SubscribedStateURIs := (h.SubscribedStateURIs.Add stateURI).receiver }
  match env.ConfigUpdate with
  | some err => { host := h1, trace := [Event.ConfigUpdate], err := some err }
  | none =>
    match h1.readableSubscriptions stateURI with
    | some _ => { host := h1, trace := [Event.ConfigUpdate], err := none }
    | none =>
      { host := { h1 with readableSubscriptions := fun u =>
            if u = stateURI then some { stateURI := stateURI } else h1.readableSubscriptions u }
        trace := [Event.ConfigUpdate, Event.MultiSubStart stateURI]
        err := none }

/-- What a call of `host.Subscribe` leaves behind; `sub` is the subscription it
returns, `none` being the nil interface value. -/
structure InProcessSubscribeResult where
  host : Host
  trace : List Event
  sub : Option WritableSubscription
  err : Option Error

/-- `host.Subscribe`: after `subscribe`, an `inProcessSubscription` is allocated (at
the address `so`), put into the set of writable subscriptions of the state URI
(which is made when missing) and returned; when `subscribe` fails, `nil` and the
error are returned. -/
def Subscribe (env : Env) (h : Host) (stateURI : String) (subscriptionType : SubscriptionType)
    (stateKeypath : Keypath) (so : Nat) : InProcessSubscribeResult :=
  let r := subscribe env h stateURI
  match r.err with
  | some err => { host := r.host, trace := r.trace, sub := none, err := some err }
  | none =>
    let sub : WritableSubscription :=
      { ident := so, StateURI := stateURI, Type_ := subscriptionType, Keypath := stateKeypath,
        peer := none }
    { host := HandleWritableSubscriptionOpened.register r.host sub, trace := r.trace,
      sub := some sub, err := none }

/-- The goroutine that `host.Subscribe` starts for the in-process subscription, once
`chStop` is closed: the subscription is deleted from the set of its state URI. -/
def Subscribe.stopped (h : Host) (sub : WritableSubscription) : Host :=
  match h.writableSubscriptions sub.StateURI with
  | some subs =>
    { h with writableSubscriptions := fun u =>
        if u = sub.StateURI then some (subs.filter (fun s => decide (s ≠ sub)))
        else h.writableSubscriptions u }
  | none => h

/-- Modelled from the spec: `Close` of an in-process subscription, which is declared
outside the sources, closes `chStop`; `stopped` says whether the goroutine of
`Subscribe` that waits for it has deleted the subscription before the fan-out
reads the registry. -/
def inProcessSubscription.Close (h : Host) (sub : WritableSubscription) (stopped : Bool) :
    Host :=
  if stopped then Subscribe.stopped h sub else h

/-- What a call of `handleNewState` leaves behind; `panicked` says that the
goroutine ended in a run-time panic. -/
structure NewStateResult where
  host : Host
  trace : List Event
  panicked : Bool

/-- The head of `handleNewState`: the state is copied to memory, and is an empty
node when that fails; the node the subscribers are given, and the calls made. -/
def handleNewState.copy (env : Env) (state : StateNode) : StateNode × List Event :=
  match env.CopyToMemory state with
  | .error err => (env.NewMemoryNode, [Event.CopyToMemory state, Event.Errorf err])
  | .ok s => (s, [Event.CopyToMemory state])

/-- `host.handleNewState`, with the goroutine it starts: the state is copied to
memory (an empty node when that fails); for the genesis tx of a private state
URI that is not in the subscribed set, `Subscribe` is called, its error logged,
and `Close` called on the subscription it returned, which is a method call on
the nil interface value, a run-time panic, when `Subscribe` failed; then the
broadcast. `so` is the address of the subscription that `Subscribe` allocates,
and `stopped` the schedule of `inProcessSubscription.Close`. -/
def handleNewState (env : Env) (h : Host) (tx : Tx) (state : StateNode) (leaves : List ID)
    (so : Nat) (stopped : Bool) : NewStateResult :=
  let copied := handleNewState.copy env state
  if tx.IsPrivate && decide (tx.ID = env.GenesisTxID) &&
      !h.SubscribedStateURIs.Contains tx.StateURI then
    let r := Subscribe env h tx.StateURI 0 none so
    let logged : List Event :=
      match r.err with
      | some err => [Event.Errorf err]
      | none => []
    match r.sub with
    | none => { host := r.host, trace := copied.2 ++ r.trace ++ logged, panicked := true }
    | some sub =>
      let h2 := inProcessSubscription.Close r.host sub stopped
      let b := handleNewState.broadcast env h2 tx copied.1 leaves
      { host := b.host
        trace := copied.2 ++ r.trace ++ logged ++ [Event.CloseSub sub] ++ b.trace
        panicked := false }
  else
    let b := handleNewState.broadcast env h tx copied.1 leaves
    { host := b.host, trace := copied.2 ++ b.trace, panicked := false }

/-- The condition under which `handleNewState` subscribes, spelled out. -/
def handleNewState.subscribes (env : Env) (h : Host) (tx : Tx) : Bool :=
  tx.Private && decide (tx.ID = env.GenesisTxID) &&
    !h.SubscribedStateURIs.Contains tx.StateURI

/-- A call of `config.Update`: the mark of a call of `host.subscribe`. -/
def Event.isConfigUpdate : Event → Bool
  | .ConfigUpdate => true
  | _ => false

/-- A call of `Put` on a peer handle, whichever. -/
def Event.isPut : Event → Bool
  | .Put _ _ _ => true
  | _ => false

/-! ## The HTTP transport -/

/-- The error `ErrPeerIsSelf` of host.go. -/
def ErrPeerIsSelf : Error := "peer is self"

/-- `strings.HasPrefix(s, p)`. -/
def HasPrefix (s p : String) : Bool := p.data.isPrefixOf s.data

/-- The fields of `httpTransport` that dialling uses, and what the peer store
holds: the address recorded for a dial info (the zero address when none is),
and the first dial info recorded for an address on this transport. -/
structure httpTransport where
  listenAddr : String
  ownURL : String
  peerStoreAddress : PeerDialInfo → Address
  PeersFromTransportWithAddress : Address → Option PeerDialInfo

/-- `NewHTTPTransport`: the own URL is the listen address, with "localhost" put
before it when the listen address begins with a colon. The cookie jar and the
fields that dialling does not use are left out. -/
def NewHTTPTransport (listenAddr : String) (peerStoreAddress : PeerDialInfo → Address)
    (PeersFromTransportWithAddress : Address → Option PeerDialInfo) : httpTransport :=
  { listenAddr := listenAddr
    ownURL := if listenAddr.data.head? = some ':' then "localhost" ++ listenAddr else listenAddr
    peerStoreAddress := peerStoreAddress
    PeersFromTransportWithAddress := PeersFromTransportWithAddress }

/-- `httpTransport.Name`. -/
def httpTransport.Name (_t : httpTransport) : String := "http"

/-- `httpTransport.makePeer`: a peer handle with the details that the peer store
holds for the dial info of this transport and address. -/
def httpTransport.makePeer (t : httpTransport) (dialAddr : String) : Peer :=
  { DialInfo := { TransportName := t.Name, DialAddr := dialAddr }
    Address := t.peerStoreAddress { TransportName := t.Name, DialAddr := dialAddr } }

/-- `httpTransport.makePeerWithAddress`: a peer handle with the details of the
first peer that the store holds for the address on this transport; when there
is none, the address is recorded under a dial info with no dial address. -/
def httpTransport.makePeerWithAddress (t : httpTransport) (address : Address) : Peer :=
  { DialInfo :=
      match t.PeersFromTransportWithAddress address with
      | some d => d
      | none => { TransportName := t.Name, DialAddr := "" }
    Address := address }

/-- `httpTransport.NewPeerConn`. -/
def httpTransport.NewPeerConn (t : httpTransport) (dialAddr : String) : Except Error Peer :=
  if HasPrefix dialAddr "localhost" then .error ErrPeerIsSelf
  else .ok (t.makePeer dialAddr)

/-! ## The slice indices of `serveGetState` -/

/-- `part.IndexByte(c)`: the index of the first `c` in the part, `none` for -1. -/
def IndexByte (part : List Char) (c : Char) : Option Nat :=
  if c ∈ part then some (part.indexOf c) else none

/-- The slice expression `s[lo:hi]` of Go: `none` is the run-time panic for bounds
out of range (`lo > hi` or `hi > len(s)`). -/
def sliceExpr (s : List Char) (lo hi : Nat) : Option (List Char) :=
  if lo ≤ hi ∧ hi ≤ s.length then some ((s.take hi).drop lo) else none

/-- What the loop of `serveGetState` over the parts of the keypath ends in: the
new parts, the answer 400 "bad slice index", or a run-time panic. -/
inductive SliceIndexParse where
  | parts (newParts : List (List Char))
  | badRequest
  | panicked
  deriving DecidableEq, Repr

/-- The functions of other packages that the loop uses, taken as given:
`strconv.ParseInt(s, 10, 64)` and `tree.EncodeSliceIndex`, which is handed
`uint64(x)`. -/
structure SliceIndexEnv where
  ParseInt : List Char → Except Error Int
  EncodeSliceIndex : Nat → List Char

/-- One turn of the loop of `serveGetState` over the parts of the keypath, for the
part `part` (a byte string), `newParts` being what was appended before.
`len(part) - 1` is not negative where it is computed: the part holds a '['. -/
def serveGetState.part (env : SliceIndexEnv) (part : List Char) (newParts : List (List Char)) :
    SliceIndexParse :=
  match IndexByte part '[' with
  | some idx =>
    match sliceExpr part (idx + 1) (part.length - 1) with
    | none => SliceIndexParse.panicked
    | some digits =>
      match env.ParseInt digits with
      | .error _ => SliceIndexParse.badRequest
      | .ok x =>
        SliceIndexParse.parts
          (newParts ++ [part.take idx, env.EncodeSliceIndex (x % 2 ^ 64).toNat])
  | none => SliceIndexParse.parts (newParts ++ [part])

/-- The loop of `serveGetState` over the parts of the keypath. -/
def serveGetState.newParts (env : SliceIndexEnv) :
    List (List Char) → List (List Char) → SliceIndexParse
  | [], newParts => SliceIndexParse.parts newParts
  | part :: rest, newParts =>
    match serveGetState.part env part newParts with
    | SliceIndexParse.parts newParts1 => serveGetState.newParts env rest newParts1
    | SliceIndexParse.badRequest => SliceIndexParse.badRequest
    | SliceIndexParse.panicked => SliceIndexParse.panicked

/-! ## Private txs over HTTP -/

/-- The struct `EncryptedTx`, the envelope of a private tx. -/
structure EncryptedTx where
  TxID : ID
  EncryptedPayload : List Nat
  SenderPublicKey : List Nat
  deriving DecidableEq, Repr

/-- What `servePostPrivateTx` calls outside the host, taken as given: the JSON
decoding of the request body into an envelope, `EncryptingPublicKeyFromBytes`,
`OpenMessageFrom` of the local encrypting keypair, and the JSON decoding of the
plaintext into a tx. -/
structure PrivateTxEnv where
  DecodeEncryptedTx : List Nat → Except Error EncryptedTx
  EncryptingPublicKeyFromBytes : List Nat → EncryptingPublicKey
  OpenMessageFrom : EncryptingPublicKey → List Nat → Except Error (List Nat)
  UnmarshalTx : List Nat → Except Error Tx

/-- A call of `servePostPrivateTx`: a line of the error log, or the call of
`host.HandleTxReceived`. -/
inductive HTTPEvent where
  | Errorf (msg : Error)
  | HandleTxReceived (tx : Tx) (peer : Peer)
  deriving DecidableEq, Repr

/-- What a call of `servePostPrivateTx` leaves behind: the host, the calls of the
handler, the calls of the host on its collaborators, and the value the handler
panicked with (if it did). -/
structure ServePrivateTxResult where
  host : Host
  trace : List HTTPEvent
  hostTrace : List Event
  panicked : Option Error

/-- `httpTransport.servePostPrivateTx`, for a request with the body `body` from the
address `address`. -/
def httpTransport.servePostPrivateTx (t : httpTransport) (penv : PrivateTxEnv) (env : Env)
    (h : Host) (body : List Nat) (address : Address) : ServePrivateTxResult :=
  match penv.DecodeEncryptedTx body with
  | .error err => { host := h, trace := [], hostTrace := [], panicked := some err }
  | .ok encryptedTx =>
    match penv.OpenMessageFrom (penv.EncryptingPublicKeyFromBytes encryptedTx.SenderPublicKey)
        encryptedTx.EncryptedPayload with
    | .error err =>
      { host := h, trace := [HTTPEvent.Errorf err], hostTrace := [], panicked := none }
    | .ok bs =>
      match penv.UnmarshalTx bs with
      | .error err =>
        { host := h, trace := [HTTPEvent.Errorf err], hostTrace := [], panicked := none }
      | .ok tx =>
        if encryptedTx.TxID ≠ tx.ID then
          { host := h, trace := [HTTPEvent.Errorf "private tx id does not match"],
            hostTrace := [], panicked := none }
        else
          let received := HandleTxReceived env h tx (t.makePeerWithAddress address)
          { host := received.1
            trace := [HTTPEvent.HandleTxReceived tx (t.makePeerWithAddress address)]
            hostTrace := received.2, panicked := none }

/-- The call of `host.HandleTxReceived`. -/
def HTTPEvent.isHandleTxReceived : HTTPEvent → Bool
  | .HandleTxReceived _ _ => true
  | _ => false

/-! ## The work queue (util.go) -/

/-- The state of a `workQueue`: the capacity of `chWork`, the number of values
waiting in it, whether the worker is inside `callback` (when it is not, it
waits in the `select` of `workerLoop`), and the number of calls of `callback`
so far. `Stop` is left out. -/
structure workQueue where
  size : Nat
  pending : Nat
  running : Bool
  runs : Nat
  deriving DecidableEq, Repr

/-- `NewWorkQueue(size, callback)`: an empty channel, the worker waiting. -/
def NewWorkQueue (size : Nat) : workQueue :=
  { size := size, pending := 0, running := false, runs := 0 }

/-- `workQueue.Enqueue`: a send on `chWork` when it has room, and nothing (the
`default` case) when it is full. A `chWork` of capacity 0 takes the send only
while the worker waits to receive, and the worker then calls `callback` at
once. -/
def workQueue.Enqueue (q : workQueue) : workQueue :=
  if q.size = 0 then
    if q.running = false then { q with running := true, runs := q.runs + 1 } else q
  else if q.pending < q.size then { q with pending := q.pending + 1 } else q

/-- A step of a work queue: a call of `Enqueue`; the worker receives from `chWork`
and calls `callback`; `callback` returns. -/
inductive workQueue.Action where
  | Enqueue
  | Receive
  | Return
  deriving DecidableEq, Repr

/-- The step relation of a work queue, as a function: the state after the step, or
`none` when the step cannot be taken (the worker of `workerLoop` receives only
while it is not inside `callback` and a value is waiting). -/
def workQueue.step (q : workQueue) : workQueue.Action → Option workQueue
  | .Enqueue => some q.Enqueue
  | .Receive =>
    if q.running = false ∧ 0 < q.pending then
      some { q with pending := q.pending - 1, running := true, runs := q.runs + 1 }
    else none
  | .Return => if q.running = true then some { q with running := false } else none

/-- The state after a sequence of steps, `none` when one of them cannot be taken. -/
def workQueue.steps (q : workQueue) : List workQueue.Action → Option workQueue
  | [] => some q
  | a :: rest =>
    match q.step a with
    | some q1 => q1.steps rest
    | none => none

/-! ## Reading a trace of the ref transfer -/

/-- A call of `Close` on the peer handle `peer`. -/
def RefEvent.isClosePeer (peer : Peer) : RefEvent → Bool
  | .ClosePeer p => decide (p = peer)
  | _ => false

/-- A call of `RefStore.StoreObject` with a reader that ends with an error. -/
def RefEvent.isStoreOfFailedStream : RefEvent → Bool
  | .StoreObject _ readerErr => readerErr.isSome
  | _ => false

/-! ## Concrete inputs: error paths, transport, private txs -/

/-- The collaborators of `exEnv` with a ControllerHub whose `HaveTx` fails. -/
def exEnvHaveTxFails : Env :=
  { exEnv with hub := { exHub with HaveTx := fun _ _ => .error "db closed" } }

/-- The collaborators of `exEnv`, except that `config.Update` fails. -/
def exEnvConfigFails : Env :=
  { exEnv with ConfigUpdate := some "disk full" }

/-- The genesis tx (the genesis id of `exEnv` is 1) of the private state URI
"room.bar". -/
def exTxPrivateGenesis : Tx :=
  { ID := 1, Parents := [], StateURI := "room.bar", From := 4, Sig := [1, 4], Patches := [],
    Attachment := [], Checkpoint := false, Private := true }

/-- A node to which every provider delivers the three bytes 1, 2, 3 and then fails
with "connection reset", no packet being flagged as the end; the providers are
`exPeer` and `exPeer2`. -/
def exRefEnvTruncated : RefEnv :=
  { exRefEnvServing with
    ProvidersOfRef := fun _ => [exPeer, exPeer2]
    RefPackets := fun _ =>
      { packets := [{ Data := [1, 2, 3], End := false }], err := "connection reset" } }

/-- An HTTP transport that listens on ":8080"; its peer store is empty. -/
def exTransport : httpTransport := NewHTTPTransport ":8080" (fun _ => 0) (fun _ => none)

/-- An HTTP transport that listens on "10.0.0.5:8080"; its peer store is empty. -/
def exTransportAddr : httpTransport :=
  NewHTTPTransport "10.0.0.5:8080" (fun _ => 0) (fun _ => none)

/-- A toy envelope format: the first byte of the body is the tx id of the
envelope, the rest the payload, the sender key always `[21]`; a payload opens
to itself under the key 21; a plaintext of one byte decodes as `exTxSigned`
with that byte for id. -/
def exPrivateTxEnv : PrivateTxEnv :=
  { DecodeEncryptedTx := fun body =>
      match body with
      | [] => .error "EOF"
      | txID :: payload =>
        .ok { TxID := txID, EncryptedPayload := payload, SenderPublicKey := [21] }
    EncryptingPublicKeyFromBytes := fun bs => { token := bs.headD 0 }
    OpenMessageFrom := fun k payload =>
      if k.token = 21 then .ok payload else .error "decryption failed"
    UnmarshalTx := fun bs =>
      match bs with
      | [txID] => .ok { exTxSigned with ID := txID }
      | _ => .error "unexpected end of JSON input" }

/-- A `strconv.ParseInt` that knows the digits 0 to 9 only, and an
`EncodeSliceIndex` that writes the index as one byte. -/
def exSliceIndexEnv : SliceIndexEnv :=
  { ParseInt := fun s =>
      match s with
      | [c] => if c.isDigit then .ok (Int.ofNat (c.toNat - 48)) else .error "invalid syntax"
      | _ => .error "invalid syntax"
    EncodeSliceIndex := fun n => [Char.ofNat n] }

/-! ## Properties of the seen cache -/

theorem txSeenByPeer_markTxSeenByPeer (h : Host) (p : Peer) (u : String) (i : ID)
    (P : Peer) (U : String) (I : ID) :
    txSeenByPeer (markTxSeenByPeer h p u i) P U I =
      (txSeenByPeer h P U I ||
        (decide (P.Address ≠ zeroAddress) && decide (p.DialInfo = P.DialInfo) &&
          decide (u = U) && decide (i = I))) := by
  unfold txSeenByPeer markTxSeenByPeer PeerSeenTxs.mark
  by_cases hA : P.Address = zeroAddress
  · simp [hA]
  · by_cases hD : P.DialInfo = p.DialInfo
    · by_cases hU : U = u
      · by_cases hI : I = i
        · subst hU hI; simp [hA, hD]
        · subst hU
          have hI2 : ¬ i = I := fun e => hI e.symm
          simp only [hA, hD, hI, hI2, if_true, if_false]
          cases h.peerSeenTxs p.DialInfo with
          | none => simp
          | some x => cases hx : x U <;> simp [hx]
      · have hU2 : ¬ u = U := fun e => hU e.symm
        simp only [hA, hD, hU, hU2, if_true, if_false]
        cases h.peerSeenTxs p.DialInfo with
        | none => simp
        | some x => simp
    · have hD2 : ¬ p.DialInfo = P.DialInfo := fun e => hD e.symm
      simp [hA, hD, hD2]

theorem txSeenByPeer_markCalls (calls : List MarkCall) (h : Host) (P : Peer) (U : String)
    (I : ID) :
    txSeenByPeer (markCalls h calls) P U I =
      (txSeenByPeer h P U I ||
        (decide (P.Address ≠ zeroAddress) &&
          calls.any (fun c =>
            decide (c.peer.DialInfo = P.DialInfo) && decide (c.stateURI = U) &&
              decide (c.txID = I)))) := by
  induction calls generalizing h with
  | nil => simp [markCalls]
  | cons c rest ih =>
    have hstep : markCalls h (c :: rest) =
        markCalls (markTxSeenByPeer h c.peer c.stateURI c.txID) rest := rfl
    rw [hstep, ih, txSeenByPeer_markTxSeenByPeer]
    simp only [List.any_cons, Bool.and_or_distrib_left, Bool.or_assoc, Bool.and_assoc]

theorem txSeenByPeer_NewHost (kp : SigningKeypair) (s : StringSet) (P : Peer) (U : String)
    (I : ID) : txSeenByPeer (NewHost kp s) P U I = false := by
  unfold txSeenByPeer NewHost
  split <;> rfl

/-- Claim C9: the seen cache has no false positives. In every cache reached from a
new host by calls of `markTxSeenByPeer`, `txSeenByPeer(P, U, id)` is true exactly
when `P.Address()` is not the zero address and one of the calls had a peer of the
same dial info, the state URI `U` and the tx id `id`; and one more call of
`markTxSeenByPeer` never turns an answer from true to false. -/
theorem seenCache_exact (kp : SigningKeypair) (s : StringSet) (calls : List MarkCall)
    (P : Peer) (U : String) (I : ID) :
    (txSeenByPeer (markCalls (NewHost kp s) calls) P U I = true ↔
      P.Address ≠ zeroAddress ∧
        ∃ c ∈ calls, c.peer.DialInfo = P.DialInfo ∧ c.stateURI = U ∧ c.txID = I) ∧
    (∀ (h : Host) (c : MarkCall), txSeenByPeer h P U I = true →
      txSeenByPeer (markTxSeenByPeer h c.peer c.stateURI c.txID) P U I = true) := by
  constructor
  · rw [txSeenByPeer_markCalls, txSeenByPeer_NewHost]
    simp only [Bool.false_or, Bool.and_eq_true, decide_eq_true_eq, List.any_eq_true, and_assoc]
  · intro h c hseen
    rw [txSeenByPeer_markTxSeenByPeer, hseen, Bool.true_or]

/-! ## Properties of the tx pipeline -/

/-- Claim C3: when `HaveTx` answers without error, `HandleTxReceived` calls
`AddTx(tx, false)` once if the tx was reported absent and not at all if it was
reported present, and then calls `peer.Ack(tx.StateURI, tx.ID)` once, whatever
`AddTx` and `Ack` answer: apart from lines of the error log, the calls made are
exactly `HaveTx`, then `AddTx` when absent, then `Ack`. -/
theorem HandleTxReceived_addTx_then_ack (env : Env) (h : Host) (tx : Tx) (peer : Peer)
    (have_ : Bool) (hHave : env.hub.HaveTx tx.StateURI tx.ID = .ok have_) :
    (HandleTxReceived env h tx peer).2.filter (fun e => !e.isErrorf) =
      [Event.HaveTx tx.StateURI tx.ID] ++
        (if have_ then [] else [Event.AddTx tx false]) ++
        [Event.Ack peer tx.StateURI tx.ID] := by
  unfold HandleTxReceived
  rw [hHave]
  cases have_ <;> cases env.hub.AddTx tx false <;> cases env.Ack peer tx.StateURI tx.ID <;>
    simp [Event.isErrorf]

theorem SendTx.deferred_err (env : Env) (h : Host) (tx : Tx) (trace : List Event)
    (err : Option Error) : (SendTx.deferred env h tx trace err).err = err := by
  unfold SendTx.deferred
  cases err with
  | some e => rfl
  | none => dsimp only; split <;> [split; skip] <;> rfl

theorem SendTx.deferred_host_of_err (env : Env) (h : Host) (tx : Tx) (trace : List Event)
    (e : Error) : (SendTx.deferred env h tx trace (some e)).host = h := rfl

theorem SendTx.deferred_trace (env : Env) (h : Host) (tx : Tx) (trace : List Event)
    (err : Option Error) :
    ∃ rest, (SendTx.deferred env h tx trace err).trace = trace ++ rest ∧
      ∀ e ∈ rest, e = Event.ConfigUpdate ∨ e.isErrorf = true := by
  unfold SendTx.deferred
  cases err with
  | some e => exact ⟨[], by simp⟩
  | none =>
    dsimp only
    split
    · split
      · exact ⟨_, rfl, by simp [Event.isErrorf]⟩
      · exact ⟨_, rfl, by simp⟩
    · exact ⟨[], by simp⟩

theorem SendTx_eq_parents (env : Env) (h : Host) (tx : Tx) :
    SendTx env h tx = SendTx.parents env h
      { tx with From := if tx.From = zeroAddress then h.signingKeypair.Address else tx.From } := by
  unfold SendTx
  split <;> rfl

theorem SendTx.commit_addTx (env : Env) (h : Host) (tx : Tx) (trace : List Event) :
    (SendTx.commit env h tx trace).trace.filter Event.isAddTx =
      trace.filter Event.isAddTx ++ [Event.AddTx tx false] := by
  unfold SendTx.commit
  obtain ⟨rest, hrest, hall⟩ :=
    SendTx.deferred_trace env h tx (trace ++ [Event.AddTx tx false]) (env.hub.AddTx tx false)
  rw [hrest]
  have : rest.filter Event.isAddTx = [] := by
    rw [List.filter_eq_nil_iff]
    intro e he
    rcases hall e he with rfl | hE
    · simp [Event.isAddTx]
    · cases e <;> simp_all [Event.isAddTx, Event.isErrorf]
  simp [List.filter_append, this, Event.isAddTx]

theorem SendTx.commit_leaves (env : Env) (h : Host) (tx : Tx) (trace : List Event) :
    (SendTx.commit env h tx trace).trace.filter Event.isLeaves =
      trace.filter Event.isLeaves := by
  unfold SendTx.commit
  obtain ⟨rest, hrest, hall⟩ :=
    SendTx.deferred_trace env h tx (trace ++ [Event.AddTx tx false]) (env.hub.AddTx tx false)
  rw [hrest]
  have : rest.filter Event.isLeaves = [] := by
    rw [List.filter_eq_nil_iff]
    intro e he
    rcases hall e he with rfl | hE
    · simp [Event.isLeaves]
    · cases e <;> simp_all [Event.isLeaves, Event.isErrorf]
  simp [List.filter_append, this, Event.isLeaves]

/-- Claim C4: `SendTx` hands `ControllerHub.AddTx`, with `force = false`, the input
tx with `From` replaced by the local address when it was the zero address, with
`Parents` replaced by `ControllerHub.Leaves(StateURI)` when they were empty and
the tx is not the genesis tx, and with `Sig` replaced by the local signature over
the hash of the tx after those two fills when it was empty; all else is passed
through. When the tx is the genesis tx, or has parents, `Leaves` is not called
and the parents are the input's. (Stated for the runs in which the calls of
`Leaves` and `SignHash` that are made succeed.) -/
theorem SendTx_commits_filled_tx (env : Env) (h : Host) (tx : Tx) (leaves : List ID)
    (sig : Signature)
    (hLeaves : tx.Parents.length = 0 ∧ tx.ID ≠ env.GenesisTxID →
      env.hub.Leaves tx.StateURI = .ok leaves)
    (hSign : tx.Sig.length = 0 →
      h.signingKeypair.SignHash (env.Hash
        { tx with
          From := if tx.From = zeroAddress then h.Address else tx.From
          Parents := if tx.Parents.length = 0 ∧ tx.ID ≠ env.GenesisTxID then leaves
            else tx.Parents }) = .ok sig) :
    (SendTx env h tx).trace.filter Event.isAddTx =
      [Event.AddTx
        { tx with
          From := if tx.From = zeroAddress then h.Address else tx.From
          Parents := if tx.Parents.length = 0 ∧ tx.ID ≠ env.GenesisTxID then leaves
            else tx.Parents
          Sig := if tx.Sig.length = 0 then sig else tx.Sig } false] ∧
    (tx.ID = env.GenesisTxID ∨ tx.Parents.length ≠ 0 →
      (SendTx env h tx).trace.filter Event.isLeaves = []) := by
  rw [SendTx_eq_parents]
  unfold SendTx.parents
  by_cases hP : tx.Parents.length = 0 ∧ tx.ID ≠ env.GenesisTxID
  · have hL := hLeaves hP
    have hnot : ¬ (tx.ID = env.GenesisTxID ∨ tx.Parents.length ≠ 0) := by
      rintro (h1 | h2)
      · exact hP.2 h1
      · exact h2 hP.1
    simp only [hP, and_self, ne_eq, not_false_eq_true, if_true, hL, hnot, false_imp_iff,
      and_true] at hSign ⊢
    unfold SendTx.sign SignTx
    by_cases hS : tx.Sig.length = 0
    · have hS2 := hSign hS
      simp only [Host.Address] at hS2
      simp only [hS, if_true, hS2, Host.Address]
      rw [SendTx.commit_addTx]
      simp [Event.isAddTx]
    · simp only [hS, if_false]
      rw [SendTx.commit_addTx]
      simp [Event.isAddTx, Host.Address]
  · simp only [hP, if_false] at hSign ⊢
    unfold SendTx.sign SignTx
    by_cases hS : tx.Sig.length = 0
    · have hS2 := hSign hS
      simp only [Host.Address] at hS2
      simp only [hS, if_true, hS2, Host.Address]
      rw [SendTx.commit_addTx, SendTx.commit_leaves]
      simp [Event.isAddTx, Event.isLeaves]
    · simp only [hS, if_false]
      rw [SendTx.commit_addTx, SendTx.commit_leaves]
      simp [Event.isAddTx, Event.isLeaves, Host.Address]

theorem SignTx_eq_error (env : Env) (h : Host) (tx : Tx) (e : Error) :
    SignTx env h tx = .error e ↔ h.signingKeypair.SignHash (env.Hash tx) = .error e := by
  unfold SignTx
  split <;> simp_all

theorem SignTx_eq_ok (env : Env) (h : Host) (tx tx1 : Tx) :
    SignTx env h tx = .ok tx1 ↔
      ∃ sig, h.signingKeypair.SignHash (env.Hash tx) = .ok sig ∧ tx1 = { tx with Sig := sig } := by
  unfold SignTx
  cases h.signingKeypair.SignHash (env.Hash tx) with
  | error e => simp
  | ok sig => simp [eq_comm]

/-- Claim C6: errors on local submit are surfaced and leave the node unsubscribed.
If a call of `Leaves`, `SignHash` or `AddTx` made during `SendTx` answers an error
`e`, then `SendTx` returns `e`, `config.Node.SubscribedStateURIs` is what it was
before the call, and when the failing call is not `AddTx` itself, `AddTx` is not
called at all. -/
theorem SendTx_error_surfaced (env : Env) (h : Host) (tx : Tx) (ev : Event) (e : Error)
    (hev : ev ∈ (SendTx env h tx).trace)
    (hans : SendTx.answersError env h ev e = true) :
    (SendTx env h tx).err = some e ∧
    (SendTx env h tx).host.SubscribedStateURIs = h.SubscribedStateURIs ∧
    (ev.isAddTx = false → (SendTx env h tx).trace.filter Event.isAddTx = []) := by
  rw [SendTx_eq_parents] at hev ⊢
  generalize ({ tx with From := if tx.From = zeroAddress then h.signingKeypair.Address
    else tx.From } : Tx) = t at hev ⊢
  revert hev
  unfold SendTx.answersError at hans
  unfold SendTx.parents SendTx.sign SendTx.commit SendTx.deferred
  repeat' split
  all_goals
    intro hev
    simp only [List.mem_append, List.mem_cons, List.mem_singleton, List.not_mem_nil, or_false,
      false_or, List.nil_append, List.append_assoc, List.cons_append] at hev
  all_goals try casesm* _ ∨ _
  all_goals subst_vars
  all_goals simp only [SignTx_eq_error, SignTx_eq_ok] at *
  all_goals try casesm* ∃ _, _, _ ∧ _
  all_goals subst_vars
  all_goals simp_all [Event.isAddTx]

/-- Claim C10, as amended: a tx that `SendTx` signs itself (the input has no
signature) and whose sender is the local address (the input `From` is the zero
address or the local address) reaches `ControllerHub.AddTx` with
`recoverAddress(hash(tx), tx.Sig) = tx.From`, given the round-trip law of the
crypto module and a tx hash that does not cover the signature. -/
theorem SendTx_own_signature_recovers (env : Env) (h : Host) (tx t : Tx) (force : Bool)
    (hLaw : ∀ x sig, h.signingKeypair.SignHash x = .ok sig →
      env.RecoverAddress x sig = .ok h.signingKeypair.Address)
    (hHash : ∀ (u : Tx) (s : Signature), env.Hash { u with Sig := s } = env.Hash u)
    (hSig : tx.Sig.length = 0)
    (hFrom : tx.From = zeroAddress ∨ tx.From = h.Address)
    (hev : Event.AddTx t force ∈ (SendTx env h tx).trace) :
    env.RecoverAddress (env.Hash t) t.Sig = .ok t.From := by
  rw [SendTx_eq_parents] at hev
  have hFrom1 : (if tx.From = zeroAddress then h.signingKeypair.Address else tx.From) =
      h.signingKeypair.Address := by
    rcases hFrom with h0 | h1
    · simp [h0]
    · simp [h1, Host.Address]
  rw [hFrom1] at hev
  have key : ∀ (u : Tx) (tr : List Event), u.From = h.signingKeypair.Address →
      u.Sig.length = 0 → Event.AddTx t force ∉ tr →
      Event.AddTx t force ∈ (SendTx.sign env h u tr).trace →
      env.RecoverAddress (env.Hash t) t.Sig = .ok t.From := by
    intro u tr hu hs hnot hin
    unfold SendTx.sign at hin
    rw [if_pos hs] at hin
    cases hsh : h.signingKeypair.SignHash (env.Hash u) with
    | error e =>
      have h1 : SignTx env h u = .error e := (SignTx_eq_error env h u e).2 hsh
      rw [h1] at hin
      simp only [SendTx.deferred, List.mem_append, List.mem_singleton] at hin
      rcases hin with hin | hin
      · exact absurd hin hnot
      · cases hin
    | ok sig =>
      have h1 : SignTx env h u = .ok { u with Sig := sig } :=
        (SignTx_eq_ok env h u _).2 ⟨sig, hsh, rfl⟩
      rw [h1] at hin
      simp only [SendTx.commit] at hin
      obtain ⟨rest, hrest, hall⟩ := SendTx.deferred_trace env h { u with Sig := sig }
        (tr ++ [Event.SignHash (env.Hash u)] ++ [Event.AddTx { u with Sig := sig } false])
        (env.hub.AddTx { u with Sig := sig } false)
      rw [hrest] at hin
      simp only [List.mem_append, List.mem_singleton] at hin
      rcases hin with ((hin | hin) | hin) | hin
      · exact absurd hin hnot
      · cases hin
      · injection hin with ht hf
        subst ht
        rw [hHash]
        simpa [hu] using hLaw _ _ hsh
      · rcases hall _ hin with h2 | h2
        · cases h2
        · simp [Event.isErrorf] at h2
  unfold SendTx.parents at hev
  split at hev
  · split at hev
    · simp [SendTx.deferred] at hev
    · refine key _ _ ?_ ?_ ?_ hev
      · rfl
      · exact hSig
      · simp
  · refine key _ _ ?_ ?_ ?_ hev
    · rfl
    · exact hSig
    · simp

theorem SendTx.deferred_subscribes (env : Env) (h : Host) (tx : Tx) (trace : List Event)
    (m : List String) (hm : h.SubscribedStateURIs = some m) :
    (SendTx.deferred env h tx trace none).host.SubscribedStateURIs.Contains tx.StateURI = true ∧
    ∀ v, h.SubscribedStateURIs.Contains v = true →
      (SendTx.deferred env h tx trace none).host.SubscribedStateURIs.Contains v = true := by
  simp only [SendTx.deferred]
  by_cases hc : h.SubscribedStateURIs.Contains tx.StateURI = true
  · simp [hc]
  · have hc2 : tx.StateURI ∉ m := by
      simpa [StringSet.Contains, hm] using hc
    have hadd : (h.SubscribedStateURIs.Add tx.StateURI).receiver = some (m ++ [tx.StateURI]) := by
      simp [StringSet.Add, hm, hc2]
    have hnot : (!h.SubscribedStateURIs.Contains tx.StateURI) = true := by
      simpa using hc
    rw [if_pos hnot]
    cases env.ConfigUpdate with
    | none =>
      simp only [hadd]
      constructor
      · simp [StringSet.Contains]
      · intro v hv
        rw [hm] at hv
        simp only [StringSet.Contains, decide_eq_true_eq] at hv ⊢
        exact List.mem_append_left _ hv
    | some e =>
      simp only [hadd]
      constructor
      · simp [StringSet.Contains]
      · intro v hv
        rw [hm] at hv
        simp only [StringSet.Contains, decide_eq_true_eq] at hv ⊢
        exact List.mem_append_left _ hv

/-- The auto-subscribe of `SendTx` on a subscribed set that is not nil: after a
`SendTx` that returns no error the set contains the state URI of the tx and all
it contained before. -/
theorem SendTx_subscribes_of_not_nil (env : Env) (h : Host) (tx : Tx) (m : List String)
    (hm : h.SubscribedStateURIs = some m) (hok : (SendTx env h tx).err = none) :
    (SendTx env h tx).host.SubscribedStateURIs.Contains tx.StateURI = true ∧
    ∀ v, h.SubscribedStateURIs.Contains v = true →
      (SendTx env h tx).host.SubscribedStateURIs.Contains v = true := by
  rw [SendTx_eq_parents] at hok ⊢
  have key : ∀ (u : Tx) (tr : List Event) (e : Option Error), u.StateURI = tx.StateURI →
      (SendTx.deferred env h u tr e).err = none →
      (SendTx.deferred env h u tr e).host.SubscribedStateURIs.Contains tx.StateURI = true ∧
      ∀ v, h.SubscribedStateURIs.Contains v = true →
        (SendTx.deferred env h u tr e).host.SubscribedStateURIs.Contains v = true := by
    intro u tr e hu he
    rw [SendTx.deferred_err] at he
    subst he
    rw [← hu]
    exact SendTx.deferred_subscribes env h u tr m hm
  obtain ⟨t, ht, hst⟩ : ∃ t : Tx,
      t = { tx with From := if tx.From = zeroAddress then h.signingKeypair.Address
        else tx.From } ∧ t.StateURI = tx.StateURI := ⟨_, rfl, rfl⟩
  rw [← ht] at hok ⊢
  clear ht
  revert hok
  simp only [SendTx.parents, SendTx.sign, SendTx.commit]
  repeat' split
  all_goals simp only [SignTx_eq_ok] at *
  all_goals try casesm* ∃ _, _, _ ∧ _
  all_goals subst_vars
  all_goals exact key _ _ _ hst

/-! ## Properties of the broadcast engine -/

theorem HandleWritableSubscriptionClosed_peerSeenTxs (env : Env) (h : Host)
    (s : WritableSubscription) :
    (HandleWritableSubscriptionClosed env h s).1.peerSeenTxs = h.peerSeenTxs := by
  unfold HandleWritableSubscriptionClosed
  dsimp only
  cases h.writableSubscriptions s.StateURI <;> rfl

theorem broadcastToWritableSubscribers.goroutine_peerSeenTxs (env : Env) (tx : Tx)
    (leaves : List ID) (b : Broadcast) (x : WritableSubscription) :
    (broadcastToWritableSubscribers.goroutine env tx leaves b x).host.peerSeenTxs =
      b.host.peerSeenTxs := by
  simp only [broadcastToWritableSubscribers.goroutine]
  repeat' split
  all_goals first
    | rfl
    | exact HandleWritableSubscriptionClosed_peerSeenTxs env _ x

theorem broadcastToWritableSubscribers.iteration_peerSeenTxs (env : Env) (tx : Tx)
    (leaves : List ID) (b : Broadcast) (x : WritableSubscription) :
    (broadcastToWritableSubscribers.iteration env tx leaves b x).host.peerSeenTxs =
      b.host.peerSeenTxs := by
  unfold broadcastToWritableSubscribers.iteration
  split
  · rfl
  · exact broadcastToWritableSubscribers.goroutine_peerSeenTxs env tx leaves b x

theorem txSeenByPeer_congr (h1 h2 : Host) (hseen : h1.peerSeenTxs = h2.peerSeenTxs) (p : Peer)
    (u : String) (i : ID) : txSeenByPeer h1 p u i = txSeenByPeer h2 p u i := by
  unfold txSeenByPeer
  rw [hseen]

theorem broadcastToWritableSubscribers.skips_congr (h1 h2 : Host)
    (hseen : h1.peerSeenTxs = h2.peerSeenTxs) (tx : Tx) (s : WritableSubscription) :
    broadcastToWritableSubscribers.skips h1 tx s =
      broadcastToWritableSubscribers.skips h2 tx s := by
  unfold broadcastToWritableSubscribers.skips
  split
  · rw [txSeenByPeer_congr h1 h2 hseen]
  · rfl

theorem broadcastToWritableSubscribers.iteration_alreadySent (env : Env) (tx : Tx)
    (leaves : List ID) (b : Broadcast) (x : WritableSubscription) (k : SentKey) :
    k ∈ (broadcastToWritableSubscribers.iteration env tx leaves b x).alreadySentPeers ↔
      k ∈ b.alreadySentPeers ∨
        (k = SentKey.sub x ∧ broadcastToWritableSubscribers.skips b.host tx x = false) := by
  simp only [broadcastToWritableSubscribers.iteration, broadcastToWritableSubscribers.goroutine]
  repeat' split
  all_goals simp_all
  all_goals exact or_comm

theorem HandleWritableSubscriptionClosed_trace (env : Env) (h : Host)
    (x : WritableSubscription) :
    (HandleWritableSubscriptionClosed env h x).2 = [Event.CloseSub x] ∨
      ∃ err, (HandleWritableSubscriptionClosed env h x).2 = [Event.CloseSub x, Event.Errorf err] := by
  unfold HandleWritableSubscriptionClosed
  dsimp only
  cases env.CloseSub x <;> cases h.writableSubscriptions x.StateURI <;> simp

theorem HandleWritableSubscriptionClosed_countP (env : Env) (h : Host)
    (x : WritableSubscription) (q : Event → Bool)
    (hq1 : q (Event.CloseSub x) = false) (hq2 : ∀ err, q (Event.Errorf err) = false) :
    (HandleWritableSubscriptionClosed env h x).2.countP q = 0 := by
  rcases HandleWritableSubscriptionClosed_trace env h x with h1 | ⟨err, h1⟩
  · rw [h1]; simp [hq1]
  · rw [h1]; simp [hq1, hq2]

theorem broadcastToWritableSubscribers.iteration_countP_write (env : Env) (tx : Tx)
    (leaves : List ID) (b : Broadcast) (x s : WritableSubscription) :
    (broadcastToWritableSubscribers.iteration env tx leaves b x).trace.countP
        (Event.isWriteTo s) =
      b.trace.countP (Event.isWriteTo s) +
        (if x = s ∧ SentKey.sub s ∉ b.alreadySentPeers ∧
            broadcastToWritableSubscribers.writeDue env b.host tx s = true then 1 else 0) := by
  have hclosed : ∀ h, (HandleWritableSubscriptionClosed env h x).2.countP (Event.isWriteTo s) = 0 :=
    fun h => HandleWritableSubscriptionClosed_countP env h x _ rfl (fun _ => rfl)
  simp only [broadcastToWritableSubscribers.iteration, broadcastToWritableSubscribers.goroutine,
    broadcastToWritableSubscribers.writeDue]
  generalize (if x.Keypath = KeypathSeparator then none else x.Keypath) = kp
  by_cases hx : x = s
  · subst hx
    repeat' split
    all_goals first
      | (simp [*, List.countP_append, List.countP_cons, Event.isWriteTo]; done)
      | (exfalso; simp_all)
  · repeat' split
    all_goals first
      | (simp [*, List.countP_append, List.countP_cons, Event.isWriteTo]; done)
      | (exfalso; simp_all)

theorem broadcastToWritableSubscribers.iteration_countP_writePrivate (env : Env) (tx : Tx)
    (leaves : List ID) (b : Broadcast) (x s : WritableSubscription) :
    (broadcastToWritableSubscribers.iteration env tx leaves b x).trace.countP
        (Event.isWritePrivateTo s) =
      b.trace.countP (Event.isWritePrivateTo s) +
        (if x = s ∧ SentKey.sub s ∉ b.alreadySentPeers ∧
            broadcastToWritableSubscribers.writePrivateDue env b.host tx s = true
          then 1 else 0) := by
  have hclosed : ∀ h,
      (HandleWritableSubscriptionClosed env h x).2.countP (Event.isWritePrivateTo s) = 0 :=
    fun h => HandleWritableSubscriptionClosed_countP env h x _ rfl (fun _ => rfl)
  simp only [broadcastToWritableSubscribers.iteration, broadcastToWritableSubscribers.goroutine,
    broadcastToWritableSubscribers.writePrivateDue]
  generalize (if x.Keypath = KeypathSeparator then none else x.Keypath) = kp
  by_cases hx : x = s
  · subst hx
    repeat' split
    all_goals first
      | (simp [*, List.countP_append, List.countP_cons, Event.isWritePrivateTo]; done)
      | (exfalso; simp_all)
  · repeat' split
    all_goals first
      | (simp [*, List.countP_append, List.countP_cons, Event.isWritePrivateTo]; done)
      | (exfalso; simp_all)

theorem broadcastToWritableSubscribers.writeDue_not_skipped (env : Env) (h : Host) (tx : Tx)
    (s : WritableSubscription)
    (hdue : broadcastToWritableSubscribers.writeDue env h tx s = true) :
    broadcastToWritableSubscribers.skips h tx s = false := by
  unfold broadcastToWritableSubscribers.writeDue at hdue
  cases hs : broadcastToWritableSubscribers.skips h tx s
  · rfl
  · simp [hs] at hdue

theorem broadcastToWritableSubscribers.writePrivateDue_not_skipped (env : Env) (h : Host)
    (tx : Tx) (s : WritableSubscription)
    (hdue : broadcastToWritableSubscribers.writePrivateDue env h tx s = true) :
    broadcastToWritableSubscribers.skips h tx s = false := by
  unfold broadcastToWritableSubscribers.writePrivateDue at hdue
  cases hs : broadcastToWritableSubscribers.skips h tx s
  · rfl
  · simp [hs] at hdue

theorem broadcastToWritableSubscribers.writeDue_congr (env : Env) (h1 h2 : Host)
    (hseen : h1.peerSeenTxs = h2.peerSeenTxs) (tx : Tx) (s : WritableSubscription) :
    broadcastToWritableSubscribers.writeDue env h1 tx s =
      broadcastToWritableSubscribers.writeDue env h2 tx s := by
  unfold broadcastToWritableSubscribers.writeDue
  rw [broadcastToWritableSubscribers.skips_congr h1 h2 hseen]

theorem broadcastToWritableSubscribers.writePrivateDue_congr (env : Env) (h1 h2 : Host)
    (hseen : h1.peerSeenTxs = h2.peerSeenTxs) (tx : Tx) (s : WritableSubscription) :
    broadcastToWritableSubscribers.writePrivateDue env h1 tx s =
      broadcastToWritableSubscribers.writePrivateDue env h2 tx s := by
  unfold broadcastToWritableSubscribers.writePrivateDue
  rw [broadcastToWritableSubscribers.skips_congr h1 h2 hseen]

/-- The count of the calls of one kind over the whole loop, from the count over one
turn: a subscription in the list is served once when the rule `due` holds for it
and it is not yet in `alreadySentPeers`. -/
theorem broadcastToWritableSubscribers.foldl_countP (env : Env) (tx : Tx) (leaves : List ID)
    (q : WritableSubscription → Event → Bool) (due : Host → WritableSubscription → Bool)
    (hcongr : ∀ h1 h2 s, h1.peerSeenTxs = h2.peerSeenTxs → due h1 s = due h2 s)
    (hskip : ∀ h s, due h s = true → broadcastToWritableSubscribers.skips h tx s = false)
    (hstep : ∀ b x s,
      (broadcastToWritableSubscribers.iteration env tx leaves b x).trace.countP (q s) =
        b.trace.countP (q s) +
          (if x = s ∧ SentKey.sub s ∉ b.alreadySentPeers ∧ due b.host s = true then 1 else 0))
    (subs : List WritableSubscription) (b : Broadcast) (s : WritableSubscription) :
    (subs.foldl (broadcastToWritableSubscribers.iteration env tx leaves) b).trace.countP (q s) =
      b.trace.countP (q s) +
        (if s ∈ subs ∧ SentKey.sub s ∉ b.alreadySentPeers ∧ due b.host s = true then 1 else 0) := by
  induction subs generalizing b with
  | nil => simp
  | cons x rest ih =>
    rw [List.foldl_cons, ih, hstep]
    have hseen := broadcastToWritableSubscribers.iteration_peerSeenTxs env tx leaves b x
    rw [hcongr _ _ s hseen]
    have hsent := broadcastToWritableSubscribers.iteration_alreadySent env tx leaves b x
      (SentKey.sub s)
    by_cases hd : due b.host s = true
    · have hns := hskip _ _ hd
      by_cases hx : x = s
      · subst hx
        by_cases hin : SentKey.sub x ∈ b.alreadySentPeers
        · have : SentKey.sub x ∈
              (broadcastToWritableSubscribers.iteration env tx leaves b x).alreadySentPeers :=
            hsent.2 (Or.inl hin)
          simp [hin, this]
        · have : SentKey.sub x ∈
              (broadcastToWritableSubscribers.iteration env tx leaves b x).alreadySentPeers :=
            hsent.2 (Or.inr ⟨rfl, hns⟩)
          simp [hin, this, hd]
      · have hx2 : ¬ s = x := fun e => hx e.symm
        have hiff : SentKey.sub s ∈
            (broadcastToWritableSubscribers.iteration env tx leaves b x).alreadySentPeers ↔
            SentKey.sub s ∈ b.alreadySentPeers := by
          rw [hsent]
          constructor
          · rintro (h1 | ⟨h1, _⟩)
            · exact h1
            · injection h1 with h1; exact absurd h1 hx2
          · exact Or.inl
        simp [hx, hx2, hiff]
    · simp [hd]

theorem broadcastToWritableSubscribers_countP_write (env : Env) (tx : Tx) (leaves : List ID)
    (h : Host) (state : StateNode) (subs : List WritableSubscription)
    (hreg : h.writableSubscriptions tx.StateURI = some subs) (s : WritableSubscription) :
    (broadcastToWritableSubscribers env tx leaves
        { host := h, alreadySentPeers := [], state := state, trace := [] }).trace.countP
        (Event.isWriteTo s) =
      if s ∈ subs ∧ broadcastToWritableSubscribers.writeDue env h tx s = true then 1 else 0 := by
  unfold broadcastToWritableSubscribers
  simp only [hreg]
  rw [broadcastToWritableSubscribers.foldl_countP env tx leaves Event.isWriteTo
    (fun h s => broadcastToWritableSubscribers.writeDue env h tx s)
    (fun h1 h2 s hseen => broadcastToWritableSubscribers.writeDue_congr env h1 h2 hseen tx s)
    (fun h s => broadcastToWritableSubscribers.writeDue_not_skipped env h tx s)
    (fun b x s => broadcastToWritableSubscribers.iteration_countP_write env tx leaves b x s)]
  simp

theorem broadcastToWritableSubscribers_countP_writePrivate (env : Env) (tx : Tx)
    (leaves : List ID) (h : Host) (state : StateNode) (subs : List WritableSubscription)
    (hreg : h.writableSubscriptions tx.StateURI = some subs) (s : WritableSubscription) :
    (broadcastToWritableSubscribers env tx leaves
        { host := h, alreadySentPeers := [], state := state, trace := [] }).trace.countP
        (Event.isWritePrivateTo s) =
      if s ∈ subs ∧ broadcastToWritableSubscribers.writePrivateDue env h tx s = true
        then 1 else 0 := by
  unfold broadcastToWritableSubscribers
  simp only [hreg]
  rw [broadcastToWritableSubscribers.foldl_countP env tx leaves Event.isWritePrivateTo
    (fun h s => broadcastToWritableSubscribers.writePrivateDue env h tx s)
    (fun h1 h2 s hseen =>
      broadcastToWritableSubscribers.writePrivateDue_congr env h1 h2 hseen tx s)
    (fun h s => broadcastToWritableSubscribers.writePrivateDue_not_skipped env h tx s)
    (fun b x s =>
      broadcastToWritableSubscribers.iteration_countP_writePrivate env tx leaves b x s)]
  simp

/-- Claim C7, as amended: the membership rule of the broadcast to writable
subscribers, for a registered subscription `s`. A subscription that the loop
passes over (a peer that has seen the tx and does not ask for states) receives
nothing. For one that is not passed over: when `IsPrivate` answers true, a
remote-peer subscription receives one `WritePrivate` exactly when `IsMember`
answers true for the address of its peer and otherwise none, an in-process
subscription receives one `WritePrivate`, and no subscription at all receives a
plain `Write`; when `IsPrivate` answers false, it receives one `Write`, and no
subscription at all receives a `WritePrivate`. -/
theorem broadcast_membership_rule (env : Env) (h : Host) (tx : Tx) (state : StateNode)
    (leaves : List ID) (subs : List WritableSubscription) (s : WritableSubscription)
    (hreg : h.writableSubscriptions tx.StateURI = some subs) (hs : s ∈ subs) :
    (broadcastToWritableSubscribers.skips h tx s = true →
      (broadcastToWritableSubscribers env tx leaves
        { host := h, alreadySentPeers := [], state := state, trace := [] }).trace.countP
          (Event.isWriteTo s) = 0 ∧
      (broadcastToWritableSubscribers env tx leaves
        { host := h, alreadySentPeers := [], state := state, trace := [] }).trace.countP
          (Event.isWritePrivateTo s) = 0) ∧
    (broadcastToWritableSubscribers.skips h tx s = false →
      (env.hub.IsPrivate tx.StateURI = .ok true →
        (∀ p, s.peer = some p →
          ((broadcastToWritableSubscribers env tx leaves
            { host := h, alreadySentPeers := [], state := state, trace := [] }).trace.countP
              (Event.isWritePrivateTo s) = 1 ↔
            env.hub.IsMember tx.StateURI p.Address = .ok true) ∧
          (broadcastToWritableSubscribers env tx leaves
            { host := h, alreadySentPeers := [], state := state, trace := [] }).trace.countP
              (Event.isWritePrivateTo s) ≤ 1) ∧
        (s.peer = none →
          (broadcastToWritableSubscribers env tx leaves
            { host := h, alreadySentPeers := [], state := state, trace := [] }).trace.countP
              (Event.isWritePrivateTo s) = 1) ∧
        (∀ s1, (broadcastToWritableSubscribers env tx leaves
            { host := h, alreadySentPeers := [], state := state, trace := [] }).trace.countP
              (Event.isWriteTo s1) = 0)) ∧
      (env.hub.IsPrivate tx.StateURI = .ok false →
        (broadcastToWritableSubscribers env tx leaves
          { host := h, alreadySentPeers := [], state := state, trace := [] }).trace.countP
            (Event.isWriteTo s) = 1 ∧
        (∀ s1, (broadcastToWritableSubscribers env tx leaves
          { host := h, alreadySentPeers := [], state := state, trace := [] }).trace.countP
            (Event.isWritePrivateTo s1) = 0))) := by
  simp only [broadcastToWritableSubscribers_countP_write env tx leaves h state subs hreg,
    broadcastToWritableSubscribers_countP_writePrivate env tx leaves h state subs hreg]
  refine ⟨?_, ?_⟩
  · intro hskip
    simp [broadcastToWritableSubscribers.writeDue,
      broadcastToWritableSubscribers.writePrivateDue, hskip]
  · intro hskip
    refine ⟨?_, ?_⟩
    · intro hpriv
      refine ⟨?_, ?_, ?_⟩
      · intro p hp
        constructor
        · simp only [broadcastToWritableSubscribers.writePrivateDue, hskip, hpriv, hp, hs]
          cases hmem : env.hub.IsMember tx.StateURI p.Address with
          | error e => simp
          | ok m => cases m <;> simp
        · split <;> simp
      · intro hp
        simp [broadcastToWritableSubscribers.writePrivateDue, hskip, hpriv, hp, hs]
      · intro s1
        simp [broadcastToWritableSubscribers.writeDue, hpriv]
    · intro hpriv
      refine ⟨?_, ?_⟩
      · simp [broadcastToWritableSubscribers.writeDue, hskip, hpriv, hs]
      · intro s1
        simp [broadcastToWritableSubscribers.writePrivateDue, hpriv]

theorem HandleTxReceived_host (env : Env) (h : Host) (tx : Tx) (peer : Peer) :
    (HandleTxReceived env h tx peer).1 = markTxSeenByPeer h peer tx.StateURI tx.ID := by
  unfold HandleTxReceived
  split <;> rfl

/-- Claim C2, as amended: duplicate suppression. After `HandleTxReceived(T, P)`, a
broadcast of `T` to the writable subscribers performs no `Write` and no
`WritePrivate` on a writable subscription of `P` whose type does not include
`States`, provided the address of `P` is known (not the zero address). On a
writable subscription of `P` whose type includes `States` it performs exactly one
`Write` when the state URI is not private, exactly one `WritePrivate` when the
state URI is private and `P` is a member, and neither when `IsPrivate` fails or
the state URI is private and `IsMember` does not answer true. -/
theorem broadcast_after_HandleTxReceived (env : Env) (h : Host) (tx : Tx) (P p : Peer)
    (state : StateNode) (leaves : List ID) (subs : List WritableSubscription)
    (s : WritableSubscription)
    (hreg : h.writableSubscriptions tx.StateURI = some subs) (hs : s ∈ subs)
    (hp : s.peer = some p) (hdial : p.DialInfo = P.DialInfo) :
    (p.Address ≠ zeroAddress → s.Type_.Includes SubscriptionType_States = false →
      (broadcastToWritableSubscribers env tx leaves
        { host := (HandleTxReceived env h tx P).1, alreadySentPeers := [], state := state,
          trace := [] }).trace.countP (Event.isWriteTo s) = 0 ∧
      (broadcastToWritableSubscribers env tx leaves
        { host := (HandleTxReceived env h tx P).1, alreadySentPeers := [], state := state,
          trace := [] }).trace.countP (Event.isWritePrivateTo s) = 0) ∧
    (s.Type_.Includes SubscriptionType_States = true →
      (env.hub.IsPrivate tx.StateURI = .ok false →
        (broadcastToWritableSubscribers env tx leaves
          { host := (HandleTxReceived env h tx P).1, alreadySentPeers := [], state := state,
            trace := [] }).trace.countP (Event.isWriteTo s) = 1 ∧
        (broadcastToWritableSubscribers env tx leaves
          { host := (HandleTxReceived env h tx P).1, alreadySentPeers := [], state := state,
            trace := [] }).trace.countP (Event.isWritePrivateTo s) = 0) ∧
      (env.hub.IsPrivate tx.StateURI = .ok true →
        env.hub.IsMember tx.StateURI p.Address = .ok true →
        (broadcastToWritableSubscribers env tx leaves
          { host := (HandleTxReceived env h tx P).1, alreadySentPeers := [], state := state,
            trace := [] }).trace.countP (Event.isWriteTo s) = 0 ∧
        (broadcastToWritableSubscribers env tx leaves
          { host := (HandleTxReceived env h tx P).1, alreadySentPeers := [], state := state,
            trace := [] }).trace.countP (Event.isWritePrivateTo s) = 1) ∧
      ((∃ e, env.hub.IsPrivate tx.StateURI = .error e) ∨
          (env.hub.IsPrivate tx.StateURI = .ok true ∧
            env.hub.IsMember tx.StateURI p.Address ≠ .ok true) →
        (broadcastToWritableSubscribers env tx leaves
          { host := (HandleTxReceived env h tx P).1, alreadySentPeers := [], state := state,
            trace := [] }).trace.countP (Event.isWriteTo s) = 0 ∧
        (broadcastToWritableSubscribers env tx leaves
          { host := (HandleTxReceived env h tx P).1, alreadySentPeers := [], state := state,
            trace := [] }).trace.countP (Event.isWritePrivateTo s) = 0)) := by
  have hreg1 : (HandleTxReceived env h tx P).1.writableSubscriptions tx.StateURI = some subs := by
    rw [HandleTxReceived_host]; exact hreg
  simp only [broadcastToWritableSubscribers_countP_write env tx leaves _ state subs hreg1,
    broadcastToWritableSubscribers_countP_writePrivate env tx leaves _ state subs hreg1]
  have hskip : broadcastToWritableSubscribers.skips (HandleTxReceived env h tx P).1 tx s =
      (decide (p.Address ≠ zeroAddress) && !s.Type_.Includes SubscriptionType_States) := by
    unfold broadcastToWritableSubscribers.skips
    rw [hp, HandleTxReceived_host]
    simp only [txSeenByPeer_markTxSeenByPeer, hdial]
    by_cases hA : p.Address = zeroAddress
    · simp [hA, txSeenByPeer]
    · simp [hA]
  refine ⟨?_, ?_⟩
  · intro hA hT
    simp [broadcastToWritableSubscribers.writeDue,
      broadcastToWritableSubscribers.writePrivateDue, hskip, hA, hT]
  · intro hT
    refine ⟨?_, ?_, ?_⟩
    · intro hpriv
      simp [broadcastToWritableSubscribers.writeDue,
        broadcastToWritableSubscribers.writePrivateDue, hskip, hT, hpriv, hs]
    · intro hpriv hmem
      simp [broadcastToWritableSubscribers.writeDue,
        broadcastToWritableSubscribers.writePrivateDue, hskip, hT, hpriv, hmem, hp, hs]
    · rintro (⟨e, hpriv⟩ | ⟨hpriv, hmem⟩)
      · simp [broadcastToWritableSubscribers.writeDue,
          broadcastToWritableSubscribers.writePrivateDue, hpriv]
      · simp only [broadcastToWritableSubscribers.writeDue,
          broadcastToWritableSubscribers.writePrivateDue, hpriv, hp]
        cases hm : env.hub.IsMember tx.StateURI p.Address with
        | error e => simp
        | ok m =>
          cases m
          · simp
          · exact absurd hm hmem

theorem SendTx_peerSeenTxs (env : Env) (h : Host) (tx : Tx) :
    (SendTx env h tx).host.peerSeenTxs = h.peerSeenTxs := by
  rw [SendTx_eq_parents]
  simp only [SendTx.parents, SendTx.sign, SendTx.commit, SendTx.deferred]
  repeat' split
  all_goals rfl

theorem broadcastToStateURIProviders.iteration_host (env : Env) (tx : Tx) (leaves : List ID)
    (b : Broadcast) (peer : Peer) :
    (broadcastToStateURIProviders.iteration env tx leaves b peer).host = b.host := by
  simp only [broadcastToStateURIProviders.iteration, broadcastToStateURIProviders.goroutine]
  repeat' split
  all_goals rfl

theorem broadcastToStateURIProviders_host (env : Env) (tx : Tx) (leaves : List ID)
    (b : Broadcast) : (broadcastToStateURIProviders env tx leaves b).host = b.host := by
  unfold broadcastToStateURIProviders
  generalize env.ProvidersOfStateURI tx.StateURI = peers
  induction peers generalizing b with
  | nil => rfl
  | cons p rest ih =>
    rw [List.foldl_cons, ih, broadcastToStateURIProviders.iteration_host]

theorem broadcastToWritableSubscribers_peerSeenTxs (env : Env) (tx : Tx) (leaves : List ID)
    (b : Broadcast) :
    (broadcastToWritableSubscribers env tx leaves b).host.peerSeenTxs = b.host.peerSeenTxs := by
  unfold broadcastToWritableSubscribers
  split
  · rfl
  · rename_i subs _
    clear * -
    induction subs generalizing b with
    | nil => rfl
    | cons x rest ih =>
      rw [List.foldl_cons, ih, broadcastToWritableSubscribers.iteration_peerSeenTxs]

theorem HostCall.run_seen (env : Env) (h : Host) (call : HostCall) (Q : Peer) (U : String)
    (I : ID) (hseen : txSeenByPeer h Q U I = true) :
    txSeenByPeer (HostCall.run env h call) Q U I = true := by
  cases call with
  | TxReceived tx peer =>
    simp only [HostCall.run, HandleTxReceived_host, txSeenByPeer_markTxSeenByPeer, hseen,
      Bool.true_or]
  | AckReceived stateURI txID peer =>
    simp only [HostCall.run, HandleAckReceived, txSeenByPeer_markTxSeenByPeer, hseen,
      Bool.true_or]
  | SendTx tx =>
    simp only [HostCall.run]
    rw [txSeenByPeer_congr _ h (SendTx_peerSeenTxs env h tx)]
    exact hseen
  | NewState tx state leaves =>
    simp only [HostCall.run, handleNewState.broadcast,
      broadcastToStateURIProviders.underContext, if_true]
    rw [txSeenByPeer_congr _ h]
    · exact hseen
    · rw [broadcastToWritableSubscribers_peerSeenTxs]
  | WritableSubscriptionClosed writeSub =>
    simp only [HostCall.run]
    rw [txSeenByPeer_congr _ h (HandleWritableSubscriptionClosed_peerSeenTxs env h writeSub)]
    exact hseen

/-- Claim C8, as amended: once the host has handled `HandleAckReceived(U, id, P)`,
`txSeenByPeer(P, U, id)` answers true in every later state, for a handle of `P`
whose address is known (not the zero address). The later states are those
reached by any sequence of calls of `HandleTxReceived`, `HandleAckReceived`,
`SendTx`, the broadcast of `handleNewState` and
`HandleWritableSubscriptionClosed`. -/
theorem seen_after_ack_in_every_later_state (h : Host) (U : String) (I : ID) (P Q : Peer)
    (calls : List (Env × HostCall)) (hdial : Q.DialInfo = P.DialInfo)
    (hA : Q.Address ≠ zeroAddress) :
    txSeenByPeer (runCalls (HandleAckReceived h U I P) calls) Q U I = true := by
  have h0 : txSeenByPeer (HandleAckReceived h U I P) Q U I = true := by
    simp [HandleAckReceived, txSeenByPeer_markTxSeenByPeer, hdial, hA]
  generalize HandleAckReceived h U I P = h1 at h0
  unfold runCalls
  induction calls generalizing h1 with
  | nil => exact h0
  | cons c rest ih =>
    rw [List.foldl_cons]
    exact ih _ (HostCall.run_seen c.1 h1 c.2 Q U I h0)

/-! ## The code at concrete inputs -/

/-- The two fan-outs called one after the other under a context that is not done,
sharing `alreadySentPeers`: `exPeer` is a writable subscriber of "room.foo/chat"
and also the provider that `ProvidersOfStateURI` delivers for it, and the host
performs both a `Write` on the subscription of `exPeer` and a `Put` on the peer
handle of `exPeer`, whichever fan-out is served first: the keys that the two
fan-outs store in `alreadySentPeers` (the subscription object, the dial info)
are never equal. -/
theorem fanouts_under_live_context_write_and_put :
    exSub.peer = some exPeer ∧
    (broadcastToStateURIProviders exEnv exTxSigned [5]
      (broadcastToWritableSubscribers exEnv exTxSigned [5]
        { host := exHost, alreadySentPeers := [], state := "state", trace := [] })).trace.countP
      (Event.isWriteTo exSub) = 1 ∧
    (broadcastToStateURIProviders exEnv exTxSigned [5]
      (broadcastToWritableSubscribers exEnv exTxSigned [5]
        { host := exHost, alreadySentPeers := [], state := "state", trace := [] })).trace.countP
      (Event.isPutTo exPeer.DialInfo) = 1 ∧
    (broadcastToWritableSubscribers exEnv exTxSigned [5]
      (broadcastToStateURIProviders exEnv exTxSigned [5]
        { host := exHost, alreadySentPeers := [], state := "state", trace := [] })).trace.countP
      (Event.isWriteTo exSub) = 1 ∧
    (broadcastToWritableSubscribers exEnv exTxSigned [5]
      (broadcastToStateURIProviders exEnv exTxSigned [5]
        { host := exHost, alreadySentPeers := [], state := "state", trace := [] })).trace.countP
      (Event.isPutTo exPeer.DialInfo) = 1 := by
  decide

/-- Claim C2, counterexample: `exPeerUnknown` has the zero address. After
`HandleTxReceived(T, exPeerUnknown)`, the broadcast of `T` performs a `Write` on
the subscription of `exPeerUnknown`, whose type does not include `States`. -/
theorem broadcast_redelivers_to_unknown_address :
    exSubUnknown.peer = some exPeerUnknown ∧
    exSubUnknown.Type_.Includes SubscriptionType_States = false ∧
    (broadcastToWritableSubscribers exEnv exTxSigned [5]
      { host := (HandleTxReceived exEnv exHostUnknown exTxSigned exPeerUnknown).1
        alreadySentPeers := [], state := "state", trace := [] }).trace.countP
      (Event.isWriteTo exSubUnknown) = 1 := by
  decide

/-- Claim C5, the code at a failing input: on a host whose subscribed set is the
nil `StringSet`, `SendTx` of a tx for "room.foo/chat" returns no error, and the
subscribed set is still nil afterwards and does not contain "room.foo/chat". -/
theorem SendTx_nil_set_not_subscribed :
    (SendTx exEnv exHostNil exTx).err = none ∧
    (SendTx exEnv exHostNil exTx).host.SubscribedStateURIs = none ∧
    (SendTx exEnv exHostNil exTx).host.SubscribedStateURIs.Contains "room.foo/chat" = false := by
  decide

/-- Claim C7, counterexample: the state URI is private and `exPeer` is a member
of it, but `exPeer` has seen the tx and its subscription does not include
`States`: the broadcast performs no `WritePrivate` on it. -/
theorem broadcast_skips_member_that_has_seen_tx :
    exEnvPrivate.hub.IsPrivate exTxSigned.StateURI = .ok true ∧
    exSub.peer = some exPeer ∧
    exEnvPrivate.hub.IsMember exTxSigned.StateURI exPeer.Address = .ok true ∧
    (broadcastToWritableSubscribers exEnvPrivate exTxSigned [5]
      { host := markTxSeenByPeer exHost exPeer "room.foo/chat" 5
        alreadySentPeers := [], state := "state", trace := [] }).trace.countP
      (Event.isWritePrivateTo exSub) = 0 := by
  refine ⟨rfl, rfl, rfl, ?_⟩
  decide

/-- Claim C8, counterexample: the broadcast to the providers calls `Put` on
`exPeer` for a tx, and `txSeenByPeer` still answers false for that peer and tx
afterwards; and after `HandleAckReceived` for a peer whose address is the zero
address, `txSeenByPeer` answers false for it. -/
theorem put_and_ack_without_seen :
    Event.Put exPeer exTxSigned [5] ∈
      (broadcastToStateURIProviders exEnv exTxSigned [5]
        { host := exHost, alreadySentPeers := [], state := "state", trace := [] }).trace ∧
    txSeenByPeer
      (broadcastToStateURIProviders exEnv exTxSigned [5]
        { host := exHost, alreadySentPeers := [], state := "state", trace := [] }).host
      exPeer "room.foo/chat" 5 = false ∧
    txSeenByPeer (HandleAckReceived exHost "room.foo/chat" 5 exPeerUnknown)
      exPeerUnknown "room.foo/chat" 5 = false := by
  decide

/-- Claim C10, counterexample: the crypto of the example obeys the round-trip law,
and yet `HandleTxReceived` hands `AddTx` a tx with a non-empty signature from
which the sender is not recovered, and `SendTx` signs a tx that names a foreign
sender with the local key and hands it to `AddTx`, where the recovered address
is the local one and not the sender. -/
theorem addTx_receives_unverified_signatures :
    (∀ x sig, exKeypair.SignHash x = .ok sig →
      exEnv.RecoverAddress x sig = .ok exKeypair.Address) ∧
    Event.AddTx exTxForged false ∈ (HandleTxReceived exEnv exHost exTxForged exPeer).2 ∧
    exTxForged.Sig ≠ [] ∧
    exEnv.RecoverAddress (exEnv.Hash exTxForged) exTxForged.Sig ≠ .ok exTxForged.From ∧
    Event.AddTx { exTxForeign with Sig := [6, 3] } false ∈ (SendTx exEnv exHost exTxForeign).trace ∧
    exEnv.RecoverAddress (exEnv.Hash { exTxForeign with Sig := [6, 3] }) [6, 3] ≠
      .ok exTxForeign.From := by
  refine ⟨?_, by decide, by decide, ?_, by decide, ?_⟩
  · intro x sig hsig
    simp only [exKeypair] at hsig
    injection hsig with hsig
    subst hsig
    simp [exEnv, exRecoverAddress, exKeypair]
  · intro hx
    have h2 : (Except.error "invalid signature" : Except Error Address) = Except.ok 8 := hx
    cases h2
  · intro hx
    have h2 : (Except.ok 3 : Except Error Address) = Except.ok 8 := hx
    injection h2 with h3
    exact absurd h3 (by decide)

/-! ## The theorems at concrete inputs -/

/-- The seen cache after one call of `markTxSeenByPeer` for `exPeer`. -/
theorem seenCache_exact_witness :
    txSeenByPeer (markCalls (NewHost exKeypair none) [⟨exPeer, "room.foo/chat", 5⟩]) exPeer
      "room.foo/chat" 5 = true :=
  (seenCache_exact exKeypair none [⟨exPeer, "room.foo/chat", 5⟩] exPeer "room.foo/chat" 5).1.2
    ⟨by decide, ⟨exPeer, "room.foo/chat", 5⟩, by simp, rfl, rfl, rfl⟩

/-- A tx that the hub does not have is added once and then acknowledged. -/
theorem HandleTxReceived_addTx_then_ack_witness :
    exEnv.hub.HaveTx exTx.StateURI exTx.ID = .ok false ∧
    (HandleTxReceived exEnv exHost exTx exPeer).2.filter (fun e => !e.isErrorf) =
      [Event.HaveTx "room.foo/chat" 5, Event.AddTx exTx false,
        Event.Ack exPeer "room.foo/chat" 5] :=
  ⟨rfl, HandleTxReceived_addTx_then_ack exEnv exHost exTx exPeer false rfl⟩

/-- The tx `exTx` reaches `AddTx` with the local address, the leaf 7 and the local
signature filled in. -/
theorem SendTx_commits_filled_tx_witness :
    exEnv.hub.Leaves exTx.StateURI = .ok [7] ∧
    exHost.signingKeypair.SignHash 5 = .ok [5, 3] ∧
    (SendTx exEnv exHost exTx).trace.filter Event.isAddTx =
      [Event.AddTx
        { ID := 5, Parents := [7], StateURI := "room.foo/chat", From := 3, Sig := [5, 3],
          Patches := [], Attachment := [], Checkpoint := false, Private := false } false] :=
  ⟨rfl, rfl,
    (SendTx_commits_filled_tx exEnv exHost exTx [7] [5, 3] (fun _ => rfl) (fun _ => rfl)).1⟩

/-- A failure of `Leaves` is returned by `SendTx`, the subscribed set is unchanged
and `AddTx` is not called. -/
theorem SendTx_error_surfaced_witness :
    Event.Leaves "room.foo/chat" ∈ (SendTx exEnvNoLeaves exHost exTx).trace ∧
    SendTx.answersError exEnvNoLeaves exHost (Event.Leaves "room.foo/chat") "no controller" = true ∧
    (SendTx exEnvNoLeaves exHost exTx).err = some "no controller" ∧
    (SendTx exEnvNoLeaves exHost exTx).host.SubscribedStateURIs = some [] ∧
    (SendTx exEnvNoLeaves exHost exTx).trace.filter Event.isAddTx = [] :=
  ⟨by decide, by decide,
    (SendTx_error_surfaced exEnvNoLeaves exHost exTx (Event.Leaves "room.foo/chat")
      "no controller" (by decide) (by decide)).1,
    (SendTx_error_surfaced exEnvNoLeaves exHost exTx (Event.Leaves "room.foo/chat")
      "no controller" (by decide) (by decide)).2.1,
    (SendTx_error_surfaced exEnvNoLeaves exHost exTx (Event.Leaves "room.foo/chat")
      "no controller" (by decide) (by decide)).2.2 rfl⟩

/-- The tx that `SendTx` signs for the local address recovers to its sender. -/
theorem SendTx_own_signature_recovers_witness :
    Event.AddTx { exTx with From := 3, Parents := [7], Sig := [5, 3] } false ∈
      (SendTx exEnv exHost exTx).trace ∧
    exEnv.RecoverAddress 5 [5, 3] = .ok 3 :=
  ⟨by decide,
    SendTx_own_signature_recovers exEnv exHost exTx
      { exTx with From := 3, Parents := [7], Sig := [5, 3] } false
      (by
        intro x sig hsig
        have hsig2 : (Except.ok [x, 3] : Except Error Signature) = Except.ok sig := hsig
        injection hsig2 with hsig3
        subst hsig3
        simp [exEnv, exRecoverAddress, exHost, NewHost, exKeypair])
      (fun _ _ => rfl) rfl (Or.inl rfl) (by decide)⟩

/-- After `HandleTxReceived(exTxSigned, exPeer)` the broadcast does not write to
the subscription of `exPeer`, which does not ask for states. -/
theorem broadcast_after_HandleTxReceived_witness :
    exHost.writableSubscriptions exTxSigned.StateURI = some [exSub] ∧
    exSub ∈ [exSub] ∧ exSub.peer = some exPeer ∧ exPeer.Address ≠ zeroAddress ∧
    exSub.Type_.Includes SubscriptionType_States = false ∧
    (broadcastToWritableSubscribers exEnv exTxSigned [5]
      { host := (HandleTxReceived exEnv exHost exTxSigned exPeer).1, alreadySentPeers := [],
        state := "state", trace := [] }).trace.countP (Event.isWriteTo exSub) = 0 :=
  ⟨rfl, by decide, rfl, by decide, by decide,
    ((broadcast_after_HandleTxReceived exEnv exHost exTxSigned exPeer exPeer "state" [5]
      [exSub] exSub rfl (by decide) rfl rfl).1 (by decide) (by decide)).1⟩

/-- On a private state URI the member `exPeer`, which has not seen the tx,
receives one `WritePrivate`. -/
theorem broadcast_membership_rule_witness :
    exHost.writableSubscriptions exTxSigned.StateURI = some [exSub] ∧
    exSub ∈ [exSub] ∧
    broadcastToWritableSubscribers.skips exHost exTxSigned exSub = false ∧
    exEnvPrivate.hub.IsPrivate exTxSigned.StateURI = .ok true ∧
    exEnvPrivate.hub.IsMember exTxSigned.StateURI exPeer.Address = .ok true ∧
    (broadcastToWritableSubscribers exEnvPrivate exTxSigned [5]
      { host := exHost, alreadySentPeers := [], state := "state", trace := [] }).trace.countP
        (Event.isWritePrivateTo exSub) = 1 :=
  ⟨rfl, by decide, by decide, rfl, rfl,
    ((((broadcast_membership_rule exEnvPrivate exHost exTxSigned "state" [5] [exSub] exSub rfl
      (by decide)).2 (by decide)).1 rfl).1 exPeer rfl).1.2 rfl⟩

/-- After the ack of `exPeer`, the tx stays seen through a local submit and a
broadcast. -/
theorem seen_after_ack_in_every_later_state_witness :
    exPeer.DialInfo = exPeer.DialInfo ∧ exPeer.Address ≠ zeroAddress ∧
    txSeenByPeer
      (runCalls (HandleAckReceived exHost "room.foo/chat" 5 exPeer)
        [(exEnv, HostCall.SendTx exTx), (exEnv, HostCall.NewState exTxSigned "state" [5])])
      exPeer "room.foo/chat" 5 = true :=
  ⟨rfl, by decide,
    seen_after_ack_in_every_later_state exHost "room.foo/chat" 5 exPeer exPeer
      [(exEnv, HostCall.SendTx exTx), (exEnv, HostCall.NewState exTxSigned "state" [5])]
      rfl (by decide)⟩

/-! ## Properties of the registry of writable subscriptions -/

theorem HandleWritableSubscriptionOpened_host (env : Env) (h : Host)
    (s : WritableSubscription) :
    (HandleWritableSubscriptionOpened env h s).1 =
      if HandleWritableSubscriptionOpened.registers env s = true
      then HandleWritableSubscriptionOpened.register h s else h := by
  simp only [HandleWritableSubscriptionOpened, HandleWritableSubscriptionOpened.registers]
  repeat' split
  all_goals simp_all

theorem HandleWritableSubscriptionOpened.register_registered (h : Host)
    (x s : WritableSubscription) :
    (HandleWritableSubscriptionOpened.register h x).registered s =
      (h.registered s || decide (s = x)) := by
  simp only [HandleWritableSubscriptionOpened.register, Host.registered]
  by_cases hu : s.StateURI = x.StateURI
  · rw [if_pos hu, ← hu]
    cases hreg : h.writableSubscriptions s.StateURI with
    | none =>
      by_cases hx : s = x
      · subst hx; simp
      · simp [hx, eq_comm]
    | some l =>
      by_cases hx : s = x
      · subst hx
        by_cases hin : s ∈ l <;> simp [hin]
      · by_cases hin : x ∈ l <;> simp [hin, hx]
  · rw [if_neg hu]
    have hx : ¬ s = x := fun e => hu (by rw [e])
    simp [hx]

theorem HandleWritableSubscriptionClosed_registered (env : Env) (h : Host)
    (x s : WritableSubscription) :
    (HandleWritableSubscriptionClosed env h x).1.registered s =
      (h.registered s && !decide (s = x)) := by
  simp only [HandleWritableSubscriptionClosed, Host.registered]
  by_cases hu : s.StateURI = x.StateURI
  · rw [← hu]
    cases hreg : h.writableSubscriptions s.StateURI with
    | none => simp [hreg]
    | some l =>
      by_cases hx : s = x
      · subst hx; simp [hreg]
      · simp [hx, hreg, List.mem_filter]
  · have hx : ¬ s = x := fun e => hu (by rw [e])
    cases hreg : h.writableSubscriptions x.StateURI with
    | none => simp [hx, hreg]
    | some l => simp [hx, hu, hreg]


theorem SubscriptionCall.run_registered (env : Env) (h : Host) (c : SubscriptionCall)
    (s : WritableSubscription) :
    (SubscriptionCall.run env h c).registered s =
      match c with
      | .Opened x =>
        (h.registered s || (decide (s = x) && HandleWritableSubscriptionOpened.registers env x))
      | .Closed x => (h.registered s && !decide (s = x)) := by
  cases c with
  | Opened x =>
    simp only [SubscriptionCall.run, HandleWritableSubscriptionOpened_host]
    by_cases hr : HandleWritableSubscriptionOpened.registers env x = true
    · simp [hr, HandleWritableSubscriptionOpened.register_registered]
    · simp [hr]
  | Closed x =>
    simp only [SubscriptionCall.run, HandleWritableSubscriptionClosed_registered]

theorem runSubscriptionCalls_registered (calls : List (Env × SubscriptionCall)) (h : Host)
    (s : WritableSubscription) :
    (runSubscriptionCalls h calls).registered s = true ↔
      (h.registered s = true ∧ ∀ c ∈ calls, c.2 ≠ SubscriptionCall.Closed s) ∨
      ∃ pre env post, calls = pre ++ (env, SubscriptionCall.Opened s) :: post ∧
        HandleWritableSubscriptionOpened.registers env s = true ∧
        ∀ c ∈ post, c.2 ≠ SubscriptionCall.Closed s := by
  induction calls generalizing h with
  | nil => simp [runSubscriptionCalls]
  | cons c rest ih =>
    have hstep : runSubscriptionCalls h (c :: rest) =
        runSubscriptionCalls (SubscriptionCall.run c.1 h c.2) rest := rfl
    rw [hstep, ih, SubscriptionCall.run_registered]
    obtain ⟨env, call⟩ := c
    constructor
    · rintro (⟨hreg, hno⟩ | ⟨pre, env1, post, hsplit, hr, hno⟩)
      · cases call with
        | Opened x =>
          simp only [Bool.or_eq_true, Bool.and_eq_true, decide_eq_true_eq] at hreg
          rcases hreg with hreg | ⟨hx, hr⟩
          · left
            refine ⟨hreg, ?_⟩
            intro c hc
            rcases List.mem_cons.1 hc with rfl | hc
            · simp
            · exact hno c hc
          · right
            subst hx
            exact ⟨[], env, rest, rfl, hr, hno⟩
        | Closed x =>
          simp only [Bool.and_eq_true, Bool.not_eq_true', decide_eq_false_iff_not] at hreg
          left
          refine ⟨hreg.1, ?_⟩
          intro c hc
          rcases List.mem_cons.1 hc with rfl | hc
          · intro hcl
            injection hcl with hcl
            exact hreg.2 hcl.symm
          · exact hno c hc
      · right
        exact ⟨(env, call) :: pre, env1, post, by rw [hsplit]; rfl, hr, hno⟩
    · rintro (⟨hreg, hno⟩ | ⟨pre, env1, post, hsplit, hr, hno⟩)
      · left
        refine ⟨?_, fun c hc => hno c (List.mem_cons_of_mem _ hc)⟩
        have hc := hno (env, call) (List.mem_cons_self _ _)
        cases call with
        | Opened x => simp [hreg]
        | Closed x =>
          have hx : ¬ s = x := fun e => hc (by rw [e])
          simp [hreg, hx]
      · cases pre with
        | nil =>
          simp only [List.nil_append, List.cons.injEq, Prod.mk.injEq] at hsplit
          obtain ⟨⟨henv, hcall⟩, hrest⟩ := hsplit
          subst henv hcall hrest
          left
          refine ⟨?_, hno⟩
          simp [hr]
        | cons p pre1 =>
          simp only [List.cons_append, List.cons.injEq] at hsplit
          right
          exact ⟨pre1, env1, post, hsplit.2, hr, hno⟩

theorem NewHost_registered (kp : SigningKeypair) (subscribed : StringSet)
    (s : WritableSubscription) : (NewHost kp subscribed).registered s = false := rfl

theorem HandleWritableSubscriptionOpened.register_setsMatchStateURI (h : Host)
    (x : WritableSubscription) (hwf : h.setsMatchStateURI) :
    (HandleWritableSubscriptionOpened.register h x).setsMatchStateURI := by
  intro u l hl s hs
  simp only [HandleWritableSubscriptionOpened.register] at hl
  by_cases hu : u = x.StateURI
  · rw [if_pos hu] at hl
    injection hl with hl
    subst hl
    cases hreg : h.writableSubscriptions x.StateURI with
    | none =>
      simp only [hreg, List.not_mem_nil, if_false, List.nil_append, List.mem_singleton] at hs
      rw [hs, hu]
    | some l0 =>
      simp only [hreg] at hs
      split at hs
      · rw [hu]; exact hwf _ _ hreg s hs
      · rcases List.mem_append.1 hs with h1 | h1
        · rw [hu]; exact hwf _ _ hreg s h1
        · rw [List.mem_singleton.1 h1, hu]
  · rw [if_neg hu] at hl
    exact hwf u l hl s hs

theorem HandleWritableSubscriptionClosed_setsMatchStateURI (env : Env) (h : Host)
    (x : WritableSubscription) (hwf : h.setsMatchStateURI) :
    (HandleWritableSubscriptionClosed env h x).1.setsMatchStateURI := by
  intro u l hl s hs
  simp only [HandleWritableSubscriptionClosed] at hl
  cases hreg : h.writableSubscriptions x.StateURI with
  | none =>
    simp only [hreg] at hl
    exact hwf u l hl s hs
  | some l0 =>
    simp only [hreg] at hl
    by_cases hu : u = x.StateURI
    · rw [if_pos hu] at hl
      injection hl with hl
      subst hl
      rw [hu]
      exact hwf _ _ hreg s (List.mem_filter.1 hs).1
    · rw [if_neg hu] at hl
      exact hwf u l hl s hs

theorem runSubscriptionCalls_setsMatchStateURI (calls : List (Env × SubscriptionCall))
    (h : Host) (hwf : h.setsMatchStateURI) :
    (runSubscriptionCalls h calls).setsMatchStateURI := by
  induction calls generalizing h with
  | nil => exact hwf
  | cons c rest ih =>
    have hstep : runSubscriptionCalls h (c :: rest) =
        runSubscriptionCalls (SubscriptionCall.run c.1 h c.2) rest := rfl
    rw [hstep]
    apply ih
    obtain ⟨env, call⟩ := c
    cases call with
    | Opened x =>
      simp only [SubscriptionCall.run, HandleWritableSubscriptionOpened_host]
      split
      · exact HandleWritableSubscriptionOpened.register_setsMatchStateURI h x hwf
      · exact hwf
    | Closed x =>
      exact HandleWritableSubscriptionClosed_setsMatchStateURI env h x hwf

/-- The registry of writable subscriptions, for every sequence of calls: in every
state reached from a new host by calls of `HandleWritableSubscriptionOpened` and
`HandleWritableSubscriptionClosed`, a subscription `S` is a member of
`writableSubscriptions[S.StateURI()]` exactly when one of the calls is a
`HandleWritableSubscriptionOpened(S)` that reached the registration (it returns
before it when writing the initial state to a subscription to states fails)
and no `HandleWritableSubscriptionClosed(S)` came after it; and `S` is a member
of the set of no other state URI. -/
theorem registered_iff_opened_and_not_closed_since (kp : SigningKeypair)
    (subscribed : StringSet) (calls : List (Env × SubscriptionCall))
    (s : WritableSubscription) :
    ((runSubscriptionCalls (NewHost kp subscribed) calls).registered s = true ↔
      ∃ pre env post, calls = pre ++ (env, SubscriptionCall.Opened s) :: post ∧
        HandleWritableSubscriptionOpened.registers env s = true ∧
        ∀ c ∈ post, c.2 ≠ SubscriptionCall.Closed s) ∧
    (∀ u l, (runSubscriptionCalls (NewHost kp subscribed) calls).writableSubscriptions u =
      some l → s ∈ l → s.StateURI = u) := by
  constructor
  · rw [runSubscriptionCalls_registered, NewHost_registered]
    simp
  · intro u l hl hs
    have hwf : (NewHost kp subscribed).setsMatchStateURI := by
      intro u l hl
      simp [NewHost] at hl
    exact runSubscriptionCalls_setsMatchStateURI calls _ hwf u l hl s hs

theorem HandleWritableSubscriptionClosed_countP_close (env : Env) (h : Host)
    (x s : WritableSubscription) :
    (HandleWritableSubscriptionClosed env h x).2.countP (Event.isCloseOf s) =
      if x = s then 1 else 0 := by
  rcases HandleWritableSubscriptionClosed_trace env h x with h1 | ⟨err, h1⟩
  · rw [h1]; by_cases hx : x = s <;> simp [Event.isCloseOf, hx]
  · rw [h1]; by_cases hx : x = s <;> simp [Event.isCloseOf, hx]

theorem broadcastToWritableSubscribers.iteration_close (env : Env) (tx : Tx)
    (leaves : List ID) (b : Broadcast) (x s : WritableSubscription) :
    ∃ k : Nat,
      (broadcastToWritableSubscribers.iteration env tx leaves b x).trace.countP
          (Event.isCloseOf s) = b.trace.countP (Event.isCloseOf s) + k ∧
      (broadcastToWritableSubscribers.iteration env tx leaves b x).trace.countP
          (Event.isFailedWriteTo env s) = b.trace.countP (Event.isFailedWriteTo env s) + k ∧
      (broadcastToWritableSubscribers.iteration env tx leaves b x).host.registered s =
        (b.host.registered s && decide (k = 0)) := by
  have hc1 : ∀ h, (HandleWritableSubscriptionClosed env h x).2.countP
      (Event.isFailedWriteTo env s) = 0 :=
    fun h => HandleWritableSubscriptionClosed_countP env h x _ rfl (fun _ => rfl)
  have hc2 := fun h => HandleWritableSubscriptionClosed_countP_close env h x s
  have hc3 := fun h => HandleWritableSubscriptionClosed_registered env h x s
  simp only [broadcastToWritableSubscribers.iteration, broadcastToWritableSubscribers.goroutine]
  generalize (if x.Keypath = KeypathSeparator then none else x.Keypath) = kp
  by_cases hx : x = s
  · subst hx
    repeat' split
    all_goals first
      | (refine ⟨0, ?_⟩
         simp [*, List.countP_append, List.countP_cons, Event.isCloseOf, Event.isFailedWriteTo]
         done)
      | (refine ⟨1, ?_⟩
         simp [*, List.countP_append, List.countP_cons, Event.isCloseOf, Event.isFailedWriteTo])
  · have hx2 : ¬ s = x := fun e => hx e.symm
    refine ⟨0, ?_⟩
    repeat' split
    all_goals
      simp [*, List.countP_append, List.countP_cons, Event.isCloseOf, Event.isFailedWriteTo]


theorem broadcastToWritableSubscribers.foldl_close (env : Env) (tx : Tx) (leaves : List ID)
    (subs : List WritableSubscription) (b : Broadcast) (s : WritableSubscription) :
    ∃ k : Nat,
      (subs.foldl (broadcastToWritableSubscribers.iteration env tx leaves) b).trace.countP
          (Event.isCloseOf s) = b.trace.countP (Event.isCloseOf s) + k ∧
      (subs.foldl (broadcastToWritableSubscribers.iteration env tx leaves) b).trace.countP
          (Event.isFailedWriteTo env s) = b.trace.countP (Event.isFailedWriteTo env s) + k ∧
      (subs.foldl (broadcastToWritableSubscribers.iteration env tx leaves) b).host.registered s =
        (b.host.registered s && decide (k = 0)) := by
  induction subs generalizing b with
  | nil => exact ⟨0, by simp⟩
  | cons x rest ih =>
    obtain ⟨k1, h1, h2, h3⟩ := broadcastToWritableSubscribers.iteration_close env tx leaves b x s
    obtain ⟨k2, g1, g2, g3⟩ := ih (broadcastToWritableSubscribers.iteration env tx leaves b x)
    refine ⟨k1 + k2, ?_, ?_, ?_⟩
    · rw [List.foldl_cons, g1, h1, Nat.add_assoc]
    · rw [List.foldl_cons, g2, h2, Nat.add_assoc]
    · rw [List.foldl_cons, g3, h3, Bool.and_assoc]
      congr 1
      by_cases hk1 : k1 = 0 <;> by_cases hk2 : k2 = 0 <;> simp [hk1, hk2]

theorem List.countP_isFailedWriteTo_le (env : Env) (s : WritableSubscription)
    (trace : List Event) :
    trace.countP (Event.isFailedWriteTo env s) ≤
      trace.countP (Event.isWriteTo s) + trace.countP (Event.isWritePrivateTo s) := by
  induction trace with
  | nil => simp
  | cons e rest ih =>
    simp only [List.countP_cons]
    cases e <;> simp only [Event.isFailedWriteTo, Event.isWriteTo, Event.isWritePrivateTo] <;>
      first
        | omega
        | (rename_i x _ _ _
           by_cases hx : x = s <;> simp [hx] <;> first | omega | (split <;> omega))

/-- Claim C14: write failures are terminal for the failing subscription and
isolated from the others. If, in a broadcast to the writable subscribers of the
state URI of a tx, a `Write` or `WritePrivate` on the registered subscription `S`
answers an error, then `Close` is called on `S` exactly once (the one call of
`HandleWritableSubscriptionClosed(S)`), and `S` is in no set of the registry
afterwards. Every other registered subscription that the loop does not pass
over is still written to once (`Write` on a public state URI; `WritePrivate` on
a private one when it is in-process or a member), and is registered afterwards
as it was before unless a write on it failed as well. -/
theorem broadcast_write_failure_terminal_and_isolated (env : Env) (h : Host) (tx : Tx)
    (state : StateNode) (leaves : List ID) (subs : List WritableSubscription)
    (S : WritableSubscription) (ev : Event)
    (hreg : h.writableSubscriptions tx.StateURI = some subs)
    (hS : S.StateURI = tx.StateURI)
    (hev : ev ∈ (broadcastToWritableSubscribers env tx leaves
      { host := h, alreadySentPeers := [], state := state, trace := [] }).trace)
    (hfail : ev.isFailedWriteTo env S = true) :
    (broadcastToWritableSubscribers env tx leaves
      { host := h, alreadySentPeers := [], state := state, trace := [] }).trace.countP
        (Event.isCloseOf S) = 1 ∧
    (∀ l, (broadcastToWritableSubscribers env tx leaves
      { host := h, alreadySentPeers := [], state := state, trace := [] }).host.writableSubscriptions
        tx.StateURI = some l → S ∉ l) ∧
    (∀ s ∈ subs, s ≠ S →
      (broadcastToWritableSubscribers.skips h tx s = false →
        (env.hub.IsPrivate tx.StateURI = .ok false →
          (broadcastToWritableSubscribers env tx leaves
            { host := h, alreadySentPeers := [], state := state, trace := [] }).trace.countP
              (Event.isWriteTo s) = 1) ∧
        (env.hub.IsPrivate tx.StateURI = .ok true →
          (s.peer = none ∨ ∃ p, s.peer = some p ∧
            env.hub.IsMember tx.StateURI p.Address = .ok true) →
          (broadcastToWritableSubscribers env tx leaves
            { host := h, alreadySentPeers := [], state := state, trace := [] }).trace.countP
              (Event.isWritePrivateTo s) = 1)) ∧
      ((∀ e ∈ (broadcastToWritableSubscribers env tx leaves
          { host := h, alreadySentPeers := [], state := state, trace := [] }).trace,
          e.isFailedWriteTo env s = false) →
        (broadcastToWritableSubscribers env tx leaves
          { host := h, alreadySentPeers := [], state := state, trace := [] }).host.registered s =
          h.registered s)) := by
  have hcw := broadcastToWritableSubscribers_countP_write env tx leaves h state subs hreg
  have hcp := broadcastToWritableSubscribers_countP_writePrivate env tx leaves h state subs hreg
  have hfold : ∀ s, ∃ k : Nat,
      (broadcastToWritableSubscribers env tx leaves
        { host := h, alreadySentPeers := [], state := state, trace := [] }).trace.countP
          (Event.isCloseOf s) = k ∧
      (broadcastToWritableSubscribers env tx leaves
        { host := h, alreadySentPeers := [], state := state, trace := [] }).trace.countP
          (Event.isFailedWriteTo env s) = k ∧
      (broadcastToWritableSubscribers env tx leaves
        { host := h, alreadySentPeers := [], state := state, trace := [] }).host.registered s =
        (h.registered s && decide (k = 0)) := by
    intro s
    unfold broadcastToWritableSubscribers
    simp only [hreg]
    obtain ⟨k, h1, h2, h3⟩ := broadcastToWritableSubscribers.foldl_close env tx leaves subs
      { host := h, alreadySentPeers := [], state := state, trace := [] } s
    exact ⟨k, by simpa using h1, by simpa using h2, by simpa using h3⟩
  refine ⟨?_, ?_, ?_⟩
  · obtain ⟨k, h1, h2, _⟩ := hfold S
    have hpos : 0 < k := by
      rw [← h2]
      exact List.countP_pos_iff.2 ⟨ev, hev, hfail⟩
    have hle := List.countP_isFailedWriteTo_le env S
      (broadcastToWritableSubscribers env tx leaves
        { host := h, alreadySentPeers := [], state := state, trace := [] }).trace
    rw [h2, hcw, hcp] at hle
    have hexcl : ¬ (broadcastToWritableSubscribers.writeDue env h tx S = true ∧
        broadcastToWritableSubscribers.writePrivateDue env h tx S = true) := by
      simp only [broadcastToWritableSubscribers.writeDue,
        broadcastToWritableSubscribers.writePrivateDue]
      cases env.hub.IsPrivate tx.StateURI with
      | error e => simp
      | ok p => cases p <;> simp
    rw [h1]
    by_cases hw : broadcastToWritableSubscribers.writeDue env h tx S = true <;>
      by_cases hp : broadcastToWritableSubscribers.writePrivateDue env h tx S = true
    · exact absurd ⟨hw, hp⟩ hexcl
    · simp only [hw, hp, and_true, and_false, if_false, Bool.false_eq_true] at hle
      split at hle <;> omega
    · simp only [hw, hp, and_true, and_false, if_false, Bool.false_eq_true] at hle
      split at hle <;> omega
    · simp only [hw, hp, and_false, if_false, Bool.false_eq_true] at hle
      omega
  · intro l hl hin
    obtain ⟨k, _, h2, h3⟩ := hfold S
    have hpos : 0 < k := by
      rw [← h2]
      exact List.countP_pos_iff.2 ⟨ev, hev, hfail⟩
    have hk : ¬ k = 0 := by omega
    simp only [Host.registered, hS, hl, hk, decide_False, Bool.and_false,
      decide_eq_false_iff_not] at h3
    exact h3 hin
  · intro s hs hne
    refine ⟨?_, ?_⟩
    · intro hskip
      refine ⟨?_, ?_⟩
      · intro hpriv
        rw [hcw]
        simp [broadcastToWritableSubscribers.writeDue, hskip, hpriv, hs]
      · intro hpriv hmem
        rw [hcp]
        rcases hmem with hnone | ⟨p, hp, hm⟩
        · simp [broadcastToWritableSubscribers.writePrivateDue, hskip, hpriv, hs, hnone]
        · simp [broadcastToWritableSubscribers.writePrivateDue, hskip, hpriv, hs, hp, hm]
    · intro hnofail
      obtain ⟨k, _, h2, h3⟩ := hfold s
      have hk : k = 0 := by
        rw [← h2]
        exact List.countP_eq_zero.2 (fun e he => by simp [hnofail e he])
      rw [h3, hk]
      simp

/-! ## Properties of the history replay -/

theorem HandleFetchHistoryRequest.loop_no_cancel (env : Env) (stateURI : String)
    (writeSub : WritableSubscription) (iterErr : Option Error) (txs : List Tx) (h : Host)
    (trace : List Event) :
    (HandleFetchHistoryRequest.loop env stateURI writeSub iterErr txs h trace).trace.countP
        Event.isIterCancel = trace.countP Event.isIterCancel := by
  have hclosed : ∀ h0, (HandleWritableSubscriptionClosed env h0 writeSub).2.countP
      Event.isIterCancel = 0 :=
    fun h0 => HandleWritableSubscriptionClosed_countP env h0 writeSub _ rfl (fun _ => rfl)
  induction txs generalizing h trace with
  | nil => rfl
  | cons tx rest ih =>
    simp only [HandleFetchHistoryRequest.loop, HandleFetchHistoryRequest.failed]
    repeat' split
    all_goals first
      | (rw [ih]; simp [List.countP_append, List.countP_cons, Event.isIterCancel])
      | simp [hclosed, List.countP_append, List.countP_cons, Event.isIterCancel]

theorem HandleFetchHistoryRequest.loop_public (env : Env) (stateURI : String)
    (writeSub : WritableSubscription) (iterErr : Option Error) (leaves : List ID)
    (hLeaves : env.hub.Leaves stateURI = .ok leaves) (txs : List Tx) (h : Host)
    (trace : List Event)
    (hPublic : ∀ tx ∈ txs, env.hub.IsPrivate tx.StateURI = .ok false) :
    (HandleFetchHistoryRequest.loop env stateURI writeSub iterErr txs h trace).trace.filter
        Event.isAnyWrite =
      trace.filter Event.isAnyWrite ++
        (txs.take (txs.findIdx
            (fun tx => (env.Write writeSub (some tx) none leaves).isSome) + 1)).map
          (fun tx => Event.Write writeSub (some tx) none leaves) ∧
    (HandleFetchHistoryRequest.loop env stateURI writeSub iterErr txs h trace).err =
      (match txs.find? (fun tx => (env.Write writeSub (some tx) none leaves).isSome) with
        | some tx => env.Write writeSub (some tx) none leaves
        | none => iterErr) ∧
    (HandleFetchHistoryRequest.loop env stateURI writeSub iterErr txs h trace).trace.countP
        (Event.isCloseOf writeSub) =
      trace.countP (Event.isCloseOf writeSub) +
        (if txs.any (fun tx => (env.Write writeSub (some tx) none leaves).isSome) = true
          then 1 else 0) ∧
    (HandleFetchHistoryRequest.loop env stateURI writeSub iterErr txs h trace).host =
      (if txs.any (fun tx => (env.Write writeSub (some tx) none leaves).isSome) = true
        then (HandleWritableSubscriptionClosed env h writeSub).1 else h) := by
  have hc1 : ∀ h0, (HandleWritableSubscriptionClosed env h0 writeSub).2.filter
      Event.isAnyWrite = [] := by
    intro h0
    rcases HandleWritableSubscriptionClosed_trace env h0 writeSub with h1 | ⟨err, h1⟩ <;>
      rw [h1] <;> simp [Event.isAnyWrite]
  have hc2 := fun h0 => HandleWritableSubscriptionClosed_countP_close env h0 writeSub writeSub
  induction txs generalizing h trace with
  | nil => simp [HandleFetchHistoryRequest.loop]
  | cons tx rest ih =>
    have hpub := hPublic tx (List.mem_cons_self _ _)
    have hrest : ∀ t ∈ rest, env.hub.IsPrivate t.StateURI = .ok false :=
      fun t ht => hPublic t (List.mem_cons_of_mem _ ht)
    simp only [HandleFetchHistoryRequest.loop, hLeaves, hpub, HandleFetchHistoryRequest.failed]
    cases hw : env.Write writeSub (some tx) none leaves with
    | some err =>
      simp [hw, hc1, hc2, List.filter_append, List.countP_append, List.countP_cons,
        Event.isAnyWrite, Event.isCloseOf, List.findIdx_cons]
    | none =>
      obtain ⟨i1, i2, i3, i4⟩ := ih h
        (trace ++ [Event.Leaves stateURI, Event.IsPrivate tx.StateURI] ++
          [Event.Write writeSub (some tx) none leaves]) hrest
      simp only [Bool.false_eq_true, if_false]
      refine ⟨?_, ?_, ?_, ?_⟩
      · rw [i1]
        simp [hw, List.filter_append, Event.isAnyWrite, List.findIdx_cons]
      · rw [i2]
        simp [hw, List.find?_cons]
      · rw [i3]
        simp [hw, List.countP_append, List.countP_cons, Event.isCloseOf]
      · rw [i4]
        simp [hw]


theorem HandleFetchHistoryRequest.loop_head (env : Env) (stateURI : String)
    (writeSub : WritableSubscription) (iterErr : Option Error) (txs : List Tx) (h : Host)
    (trace : List Event) (e : Event) (hhead : trace.head? = some e) :
    (HandleFetchHistoryRequest.loop env stateURI writeSub iterErr txs h trace).trace.head? =
      some e := by
  have happ : ∀ l : List Event, (trace ++ l).head? = some e := by
    intro l
    cases trace with
    | nil => simp at hhead
    | cons a t => simpa using hhead
  induction txs generalizing h trace with
  | nil => exact hhead
  | cons tx rest ih =>
    simp only [HandleFetchHistoryRequest.loop, HandleFetchHistoryRequest.failed]
    repeat' split
    all_goals first
      | (apply ih
         · simp only [List.append_assoc]; exact happ _
         · intro l; simp only [List.append_assoc]; exact happ _)
      | (simp only [List.append_assoc]; exact happ _)

theorem HandleFetchHistoryRequest.loop_failed_write (env : Env) (stateURI : String)
    (writeSub : WritableSubscription) (iterErr : Option Error) (txs : List Tx) (h : Host)
    (trace : List Event)
    (hclean : ∀ e ∈ trace, Event.writeAnswer env e = none)
    (hnoclose : trace.countP (Event.isCloseOf writeSub) = 0)
    (ev : Event) (err : Error)
    (hev : ev ∈ (HandleFetchHistoryRequest.loop env stateURI writeSub iterErr txs h
      trace).trace)
    (herr : Event.writeAnswer env ev = some err) :
    (HandleFetchHistoryRequest.loop env stateURI writeSub iterErr txs h trace).trace.countP
        (Event.isCloseOf writeSub) = 1 ∧
    ((HandleFetchHistoryRequest.loop env stateURI writeSub iterErr txs h trace).trace.filter
        Event.isAnyWrite).getLast? = some ev ∧
    (HandleFetchHistoryRequest.loop env stateURI writeSub iterErr txs h trace).err =
      some err := by
  have hc1 : ∀ h0, (HandleWritableSubscriptionClosed env h0 writeSub).2.filter
      Event.isAnyWrite = [] := by
    intro h0
    rcases HandleWritableSubscriptionClosed_trace env h0 writeSub with h1 | ⟨e1, h1⟩ <;>
      rw [h1] <;> simp [Event.isAnyWrite]
  have hc2 := fun h0 => HandleWritableSubscriptionClosed_countP_close env h0 writeSub writeSub
  have hc3 : ∀ h0, ∀ e ∈ (HandleWritableSubscriptionClosed env h0 writeSub).2,
      Event.writeAnswer env e = none := by
    intro h0 e he
    rcases HandleWritableSubscriptionClosed_trace env h0 writeSub with h1 | ⟨e1, h1⟩ <;>
      rw [h1] at he <;> simp at he
    · subst he; rfl
    · rcases he with rfl | rfl <;> rfl
  have hnot : ev ∉ trace := by
    intro hin
    rw [hclean ev hin] at herr
    cases herr
  induction txs generalizing h trace with
  | nil => exact absurd hev hnot
  | cons tx rest ih =>
    revert hev
    simp only [HandleFetchHistoryRequest.loop, HandleFetchHistoryRequest.failed]
    repeat' split
    all_goals intro hev
    all_goals first
      | (refine ih _ _ ?_ ?_ hev ?_
         · intro e he
           simp only [List.mem_append, List.mem_cons, List.mem_singleton, List.not_mem_nil,
             or_false] at he
           casesm* _ ∨ _
           all_goals first
             | exact hclean e (by assumption)
             | (subst_vars; first | rfl | (simp only [Event.writeAnswer]; assumption))
         · simp [hnoclose, List.countP_append, List.countP_cons, Event.isCloseOf]
         · intro hin
           simp only [List.mem_append, List.mem_cons, List.mem_singleton, List.not_mem_nil,
             or_false] at hin
           casesm* _ ∨ _
           all_goals first
             | exact hnot (by assumption)
             | (subst_vars; simp [Event.writeAnswer, *] at herr))
      | (simp only [List.mem_append, List.mem_cons, List.mem_singleton, List.not_mem_nil,
           or_false] at hev
         casesm* _ ∨ _
         all_goals first
           | (exfalso; exact hnot (by assumption))
           | (exfalso; rename_i hin; exact absurd (hc3 _ _ hin) (by rw [herr]; simp))
           | (exfalso; subst_vars; simp [Event.writeAnswer] at herr; done)
           | (subst_vars
              clear ih hclean hc3 hnot
              simp only [Event.writeAnswer] at herr
              simp only [hc1, hc2, List.filter_append, List.countP_append, List.countP_cons,
                List.filter_cons, List.filter_nil, Event.isAnyWrite, Event.isCloseOf,
                hnoclose]
              simp_all))


/-- Claim C20: history replay. `HandleFetchHistoryRequest` first asks
`ControllerHub.FetchTxs(stateURI, fromTxID)` for the iterator, and on every
return path the last call it makes, and only that one, is the iterator's
`Cancel`. When `Leaves` answers and the state URIs of the delivered txs are
public, the writes performed are one `Write` per tx, with no state, in the
order of the iterator, up to and including the first `Write` that answers an
error; when there is one, the subscription is closed through
`HandleWritableSubscriptionClosed` (one `Close`) and that error is returned;
when there is none, the subscription is not closed and the result is what the
iterator reports. On any state URI, public or private, a `Write` or
`WritePrivate` that answers an error is the last write performed, the
subscription is then closed (one `Close`), and that error is returned. -/
theorem HandleFetchHistoryRequest_replays_in_order (env : Env) (h : Host) (stateURI : String)
    (fromTxID : ID) (writeSub : WritableSubscription) :
    ((HandleFetchHistoryRequest env h stateURI fromTxID writeSub).trace.head? =
        some (Event.FetchTxs stateURI fromTxID) ∧
      (HandleFetchHistoryRequest env h stateURI fromTxID writeSub).trace.getLast? =
        some Event.IterCancel ∧
      (HandleFetchHistoryRequest env h stateURI fromTxID writeSub).trace.countP
        Event.isIterCancel = 1) ∧
    (∀ leaves, env.hub.Leaves stateURI = .ok leaves →
      (∀ tx ∈ (env.hub.FetchTxs stateURI fromTxID).txs,
        env.hub.IsPrivate tx.StateURI = .ok false) →
      (HandleFetchHistoryRequest env h stateURI fromTxID writeSub).trace.filter
          Event.isAnyWrite =
        ((env.hub.FetchTxs stateURI fromTxID).txs.take
          ((env.hub.FetchTxs stateURI fromTxID).txs.findIdx
            (fun tx => (env.Write writeSub (some tx) none leaves).isSome) + 1)).map
          (fun tx => Event.Write writeSub (some tx) none leaves) ∧
      (HandleFetchHistoryRequest env h stateURI fromTxID writeSub).err =
        (match (env.hub.FetchTxs stateURI fromTxID).txs.find?
            (fun tx => (env.Write writeSub (some tx) none leaves).isSome) with
          | some tx => env.Write writeSub (some tx) none leaves
          | none => (env.hub.FetchTxs stateURI fromTxID).err) ∧
      (HandleFetchHistoryRequest env h stateURI fromTxID writeSub).trace.countP
          (Event.isCloseOf writeSub) =
        (if (env.hub.FetchTxs stateURI fromTxID).txs.any
            (fun tx => (env.Write writeSub (some tx) none leaves).isSome) = true
          then 1 else 0) ∧
      (HandleFetchHistoryRequest env h stateURI fromTxID writeSub).host =
        (if (env.hub.FetchTxs stateURI fromTxID).txs.any
            (fun tx => (env.Write writeSub (some tx) none leaves).isSome) = true
          then (HandleWritableSubscriptionClosed env h writeSub).1 else h)) ∧
    (∀ ev err, ev ∈ (HandleFetchHistoryRequest env h stateURI fromTxID writeSub).trace →
      Event.writeAnswer env ev = some err →
      (HandleFetchHistoryRequest env h stateURI fromTxID writeSub).trace.countP
          (Event.isCloseOf writeSub) = 1 ∧
      ((HandleFetchHistoryRequest env h stateURI fromTxID writeSub).trace.filter
          Event.isAnyWrite).getLast? = some ev ∧
      (HandleFetchHistoryRequest env h stateURI fromTxID writeSub).err = some err) := by
  refine ⟨⟨?_, ?_, ?_⟩, ?_, ?_⟩
  · simp only [HandleFetchHistoryRequest]
    have := HandleFetchHistoryRequest.loop_head env stateURI writeSub
      (env.hub.FetchTxs stateURI fromTxID).err (env.hub.FetchTxs stateURI fromTxID).txs h
      [Event.FetchTxs stateURI fromTxID] _ rfl
    generalize (HandleFetchHistoryRequest.loop env stateURI writeSub
      (env.hub.FetchTxs stateURI fromTxID).err (env.hub.FetchTxs stateURI fromTxID).txs h
      [Event.FetchTxs stateURI fromTxID]).trace = t at this ⊢
    cases t with
    | nil => simp at this
    | cons a t => simpa using this
  · simp [HandleFetchHistoryRequest]
  · simp [HandleFetchHistoryRequest, List.countP_append,
      HandleFetchHistoryRequest.loop_no_cancel, Event.isIterCancel]
  · intro leaves hLeaves hPublic
    obtain ⟨i1, i2, i3, i4⟩ := HandleFetchHistoryRequest.loop_public env stateURI writeSub
      (env.hub.FetchTxs stateURI fromTxID).err leaves hLeaves
      (env.hub.FetchTxs stateURI fromTxID).txs h [Event.FetchTxs stateURI fromTxID] hPublic
    simp only [HandleFetchHistoryRequest]
    refine ⟨?_, ?_, ?_, ?_⟩
    · rw [List.filter_append, i1]
      simp [Event.isAnyWrite]
    · exact i2
    · rw [List.countP_append, i3]
      simp [Event.isCloseOf]
    · exact i4
  · intro ev err hev herr
    simp only [HandleFetchHistoryRequest] at hev ⊢
    have hev1 : ev ∈ (HandleFetchHistoryRequest.loop env stateURI writeSub
        (env.hub.FetchTxs stateURI fromTxID).err (env.hub.FetchTxs stateURI fromTxID).txs h
        [Event.FetchTxs stateURI fromTxID]).trace := by
      rcases List.mem_append.1 hev with h1 | h1
      · exact h1
      · rw [List.mem_singleton.1 h1] at herr
        cases herr
    obtain ⟨j1, j2, j3⟩ := HandleFetchHistoryRequest.loop_failed_write env stateURI writeSub
      (env.hub.FetchTxs stateURI fromTxID).err (env.hub.FetchTxs stateURI fromTxID).txs h
      [Event.FetchTxs stateURI fromTxID]
      (by intro e he; rw [List.mem_singleton.1 he]; rfl) (by simp [Event.isCloseOf])
      ev err hev1 herr
    refine ⟨?_, ?_, j3⟩
    · rw [List.countP_append, j1]
      simp [Event.isCloseOf]
    · rw [List.filter_append, ← j2]
      simp [Event.isAnyWrite]

/-! ## Properties of ref serving and fetching -/

theorem HandleFetchRefReceived.loop_chunks (env : RefEnv) (peer : Peer)
    (hSend : ∀ d e, env.SendRefPacket peer d e = none) (fuel : Nat) (data : List Nat)
    (trace : List RefEvent) (hfuel : data.length < fuel) :
    ∃ bs : List (List Nat),
      HandleFetchRefReceived.loop env peer fuel { data := data, err := none } REF_CHUNK_SIZE
          trace =
        (trace ++ bs.map (fun c => RefEvent.SendRefPacket peer c false), LoopExit.broke) ∧
      bs.flatten = data ∧
      bs.length = (data.length + 1023) / 1024 ∧
      (∀ c ∈ bs, 0 < c.length ∧ c.length ≤ 1024) ∧
      (∀ c ∈ bs.dropLast, c.length = 1024) := by
  induction fuel generalizing data trace with
  | zero => omega
  | succ fuel ih =>
    by_cases hfull : 1024 ≤ data.length
    · have hlen : (data.drop 1024).length < fuel := by
        rw [List.length_drop]; omega
      obtain ⟨bs, h1, h2, h3, h4, h5⟩ := ih (data.drop 1024)
        (trace ++ [RefEvent.SendRefPacket peer (data.take 1024) false]) hlen
      refine ⟨data.take 1024 :: bs, ?_, ?_, ?_, ?_, ?_⟩
      · simp only [HandleFetchRefReceived.loop, ReadFull, REF_CHUNK_SIZE, hfull, if_true, hSend]
        simp only [REF_CHUNK_SIZE] at h1
        rw [h1]
        simp
      · simp [h2]
      · rw [List.length_cons, h3, List.length_drop]
        omega
      · intro c hc
        rcases List.mem_cons.1 hc with rfl | hc
        · rw [List.length_take]
          omega
        · exact h4 c hc
      · intro c hc
        cases bs with
        | nil => simp at hc
        | cons b0 bs0 =>
          rw [List.dropLast_cons₂] at hc
          rcases List.mem_cons.1 hc with rfl | hc
          · rw [List.length_take]
            omega
          · exact h5 c hc
    · by_cases hzero : data.length = 0
      · refine ⟨[], ?_, ?_, ?_, ?_, ?_⟩
        · simp [HandleFetchRefReceived.loop, ReadFull, REF_CHUNK_SIZE, hfull, hzero]
        · simp [List.length_eq_zero.1 hzero]
        · simp [hzero]
        · simp
        · simp
      · have hfuel1 : 0 < fuel := by omega
        obtain ⟨f, rfl⟩ : ∃ f, fuel = f + 1 := ⟨fuel - 1, by omega⟩
        refine ⟨[data], ?_, ?_, ?_, ?_, ?_⟩
        · simp [HandleFetchRefReceived.loop, ReadFull, REF_CHUNK_SIZE, hfull, hzero, hSend]
        · simp
        · simp only [List.length_singleton]
          omega
        · intro c hc
          rw [List.mem_singleton.1 hc]
          omega
        · simp


/-- Claim C11: ref serving chunking. For a stored object of `n` bytes whose reads
and sends succeed, `HandleFetchRefReceived` asks the RefStore for the object,
sends the header, then body packets with `end = false`, then one packet with
`end = true` and no data, then closes the peer handle, and returns. The body
packets number `ceil(n / 1024)`; each holds at least one and at most 1024 bytes,
all but the last exactly 1024; their data in order is the object. -/
theorem HandleFetchRefReceived_chunks (env : RefEnv) (refID : RefID) (peer : Peer)
    (data : List Nat)
    (hObject : env.Object refID = .ok { data := data, err := none })
    (hHeader : env.SendRefHeader peer = none)
    (hSend : ∀ d e, env.SendRefPacket peer d e = none) :
    ∃ bs : List (List Nat),
      HandleFetchRefReceived env refID peer =
        { trace := [RefEvent.Object refID, RefEvent.SendRefHeader peer] ++
            bs.map (fun c => RefEvent.SendRefPacket peer c false) ++
            [RefEvent.SendRefPacket peer [] true, RefEvent.ClosePeer peer]
          panicked := none, outOfFuel := false } ∧
      bs.flatten = data ∧
      bs.length = (data.length + 1023) / 1024 ∧
      (∀ c ∈ bs, 0 < c.length ∧ c.length ≤ 1024) ∧
      (∀ c ∈ bs.dropLast, c.length = 1024) := by
  obtain ⟨bs, h1, h2, h3, h4, h5⟩ := HandleFetchRefReceived.loop_chunks env peer hSend
    (data.length + 1) data [RefEvent.Object refID, RefEvent.SendRefHeader peer]
    (Nat.lt_succ_self _)
  refine ⟨bs, ?_, h2, h3, h4, h5⟩
  simp only [HandleFetchRefReceived, hObject, hHeader, h1, hSend]

theorem RefEvent.sentPackets_append (t1 t2 : List RefEvent) :
    RefEvent.sentPackets (t1 ++ t2) = RefEvent.sentPackets t1 ++ RefEvent.sentPackets t2 := by
  induction t1 with
  | nil => rfl
  | cons e rest ih =>
    cases e <;> simp [RefEvent.sentPackets, ih]

theorem RefEvent.sentPackets_map (peer : Peer) (bs : List (List Nat)) :
    RefEvent.sentPackets (bs.map (fun c => RefEvent.SendRefPacket peer c false)) =
      bs.map (fun c => { Data := c, End := false }) := by
  induction bs with
  | nil => rfl
  | cons b rest ih => simp [RefEvent.sentPackets, ih]

theorem FetchRef.receive_body_then_end (streamErr : Error) (bs : List (List Nat))
    (after : List FetchRefResponseBody) (written : List Nat) (calls : Nat) :
    FetchRef.receive streamErr
        (bs.map (fun c => ({ Data := c, End := false } : FetchRefResponseBody)) ++
          { Data := [], End := true } :: after) written calls =
      { data := written ++ bs.flatten, closeErr := none, calls := calls + bs.length + 1,
        sawEnd := true, logged := none } := by
  induction bs generalizing written calls with
  | nil => simp [FetchRef.receive]
  | cons b rest ih =>
    have hstep := ih (written ++ b) (calls + 1)
    simp only [List.map_cons, List.cons_append, FetchRef.receive, Bool.false_eq_true, if_false,
      List.append_eq, hstep, List.flatten_cons, List.append_assoc, List.length_cons]
    congr 1
    omega

/-- Claim C12: ref round trip. Let the packets that `HandleFetchRefReceived` sends
for a stored blob (reads and sends succeeding) be what `ReceiveRefPacket`
delivers, unchanged and in order, to `FetchRef` from the first provider, which
connects and answers the request and the header. Then the goroutine of
`FetchRef` makes one call of `ReceiveRefPacket` per packet sent and stops at the
packet flagged `End`, the bytes handed to `RefStore.StoreObject` are exactly the
blob, with a clean end of stream, and when that store succeeds `FetchRef`
announces the two hashes and returns without turning to another provider. -/
theorem FetchRef_round_trip (serving fetching : RefEnv) (refID : RefID) (server p : Peer)
    (rest : List Peer) (blob : List Nat) (sha1Hash sha3Hash : Hash)
    (hObject : serving.Object refID = .ok { data := blob, err := none })
    (hHeader : serving.SendRefHeader server = none)
    (hSend : ∀ d e, serving.SendRefPacket server d e = none)
    (hProviders : fetching.ProvidersOfRef refID = p :: rest)
    (hConnected : fetching.EnsureConnected p = none)
    (hFetch : fetching.FetchRef p refID = none)
    (hRefHeader : fetching.ReceiveRefHeader p = none)
    (hDelivered : (fetching.RefPackets p).packets =
      RefEvent.sentPackets (HandleFetchRefReceived serving refID server).trace)
    (hStore : fetching.StoreObject blob none = .ok (sha1Hash, sha3Hash)) :
    FetchRef.receive (fetching.RefPackets p).err (fetching.RefPackets p).packets [] 0 =
      { data := blob, closeErr := none, calls := (fetching.RefPackets p).packets.length,
        sawEnd := true, logged := none } ∧
    (fetching.RefPackets p).packets.length = (blob.length + 1023) / 1024 + 1 ∧
    FetchRef fetching refID =
      { trace := [RefEvent.EnsureConnected p, RefEvent.FetchRef p refID,
            RefEvent.ReceiveRefHeader p] ++
          List.replicate (fetching.RefPackets p).packets.length (RefEvent.ReceiveRefPacket p) ++
          [RefEvent.StoreObject blob none] ++
          announceRefs fetching
            [{ HashAlg := HashAlg.SHA1, Hash := sha1Hash },
             { HashAlg := HashAlg.SHA3, Hash := sha3Hash }]
        stored := some (sha1Hash, sha3Hash) } := by
  obtain ⟨bs, h0, h2, h3, _, _⟩ := HandleFetchRefReceived.loop_chunks serving server hSend
    (blob.length + 1) blob [RefEvent.Object refID, RefEvent.SendRefHeader server]
    (Nat.lt_succ_self _)
  have h1 : HandleFetchRefReceived serving refID server =
      { trace := [RefEvent.Object refID, RefEvent.SendRefHeader server] ++
          bs.map (fun c => RefEvent.SendRefPacket server c false) ++
          [RefEvent.SendRefPacket server [] true, RefEvent.ClosePeer server]
        panicked := none, outOfFuel := false } := by
    simp only [HandleFetchRefReceived, hObject, hHeader, h0, hSend]
  have hpk : (fetching.RefPackets p).packets =
      bs.map (fun c => ({ Data := c, End := false } : FetchRefResponseBody)) ++
        { Data := [], End := true } :: [] := by
    rw [hDelivered, h1]
    simp [RefEvent.sentPackets_append, RefEvent.sentPackets_map, RefEvent.sentPackets]
  have hlen : (fetching.RefPackets p).packets.length = bs.length + 1 := by
    rw [hpk]; simp
  have hrecv :
      FetchRef.receive (fetching.RefPackets p).err (fetching.RefPackets p).packets [] 0 =
        { data := blob, closeErr := none, calls := (fetching.RefPackets p).packets.length,
          sawEnd := true, logged := none } := by
    rw [hlen, hpk, FetchRef.receive_body_then_end, h2]
    simp
  refine ⟨hrecv, by rw [hlen, h3], ?_⟩
  simp only [FetchRef, hProviders, FetchRef.loop, hConnected, hFetch, hRefHeader, hrecv, hStore,
    List.nil_append]

/-! ## Properties of the identity challenge -/

/-- Claim C18: failure semantics of the challenge. `ChallengePeerIdentity` calls
`PeerStore.AddVerifiedCredentials` exactly when `EnsureConnected`, the
generation of the challenge, `ChallengeIdentity`,
`ReceiveChallengeIdentityResponse` and `RecoverSigningPubkey` all succeed. When
one of them fails it returns an error and no keys, and the peer store is not
called. When they succeed it makes one call of `AddVerifiedCredentials`, for
`peer.DialInfo()`, with the address of the recovered signing public key, that
key, and the encrypting key decoded from the response, and returns the two
keys. -/
theorem ChallengePeerIdentity_failure_semantics (env : ChallengeEnv) (peer : Peer) :
    ((∃ e ∈ (ChallengePeerIdentity env peer).trace, e.isAddVerifiedCredentials = true) ↔
      (env.EnsureConnected peer = none ∧
        ∃ challengeMsg resp sigpubkey,
          env.GenerateChallengeMsg = .ok challengeMsg ∧
          env.ChallengeIdentity peer challengeMsg = none ∧
          env.ReceiveChallengeIdentityResponse peer = .ok resp ∧
          env.crypto.RecoverSigningPubkey (env.crypto.HashBytes challengeMsg) resp.Signature =
            .ok sigpubkey)) ∧
    (¬ (env.EnsureConnected peer = none ∧
        ∃ challengeMsg resp sigpubkey,
          env.GenerateChallengeMsg = .ok challengeMsg ∧
          env.ChallengeIdentity peer challengeMsg = none ∧
          env.ReceiveChallengeIdentityResponse peer = .ok resp ∧
          env.crypto.RecoverSigningPubkey (env.crypto.HashBytes challengeMsg) resp.Signature =
            .ok sigpubkey) →
      (∃ err, (ChallengePeerIdentity env peer).ret = .error err) ∧
      ∀ e ∈ (ChallengePeerIdentity env peer).trace, e.isAddVerifiedCredentials = false) ∧
    (∀ challengeMsg resp sigpubkey,
      env.EnsureConnected peer = none →
      env.GenerateChallengeMsg = .ok challengeMsg →
      env.ChallengeIdentity peer challengeMsg = none →
      env.ReceiveChallengeIdentityResponse peer = .ok resp →
      env.crypto.RecoverSigningPubkey (env.crypto.HashBytes challengeMsg) resp.Signature =
        .ok sigpubkey →
      (ChallengePeerIdentity env peer).trace.filter ChallengeEvent.isAddVerifiedCredentials =
        [ChallengeEvent.AddVerifiedCredentials peer.DialInfo (env.crypto.Address sigpubkey)
          sigpubkey (env.crypto.EncryptingPublicKeyFromBytes resp.EncryptingPublicKey)] ∧
      (ChallengePeerIdentity env peer).ret =
        .ok (sigpubkey, env.crypto.EncryptingPublicKeyFromBytes resp.EncryptingPublicKey)) := by
  refine ⟨?_, ?_, ?_⟩
  · simp only [ChallengePeerIdentity]
    cases h1 : env.EnsureConnected peer with
    | some e => simp [ChallengeEvent.isAddVerifiedCredentials]
    | none =>
      cases h2 : env.GenerateChallengeMsg with
      | error e => simp [ChallengeEvent.isAddVerifiedCredentials]
      | ok c =>
        cases h3 : env.ChallengeIdentity peer c with
        | some e => simp [ChallengeEvent.isAddVerifiedCredentials, h3]
        | none =>
          cases h4 : env.ReceiveChallengeIdentityResponse peer with
          | error e => simp [ChallengeEvent.isAddVerifiedCredentials, h3]
          | ok resp =>
            cases h5 : env.crypto.RecoverSigningPubkey (env.crypto.HashBytes c)
                resp.Signature with
            | error e => simp [ChallengeEvent.isAddVerifiedCredentials, h3, h5]
            | ok pk => simp [ChallengeEvent.isAddVerifiedCredentials, h3, h5]
  · simp only [ChallengePeerIdentity]
    cases h1 : env.EnsureConnected peer with
    | some e => simp [ChallengeEvent.isAddVerifiedCredentials]
    | none =>
      cases h2 : env.GenerateChallengeMsg with
      | error e => simp [ChallengeEvent.isAddVerifiedCredentials]
      | ok c =>
        cases h3 : env.ChallengeIdentity peer c with
        | some e => simp [ChallengeEvent.isAddVerifiedCredentials, h3]
        | none =>
          cases h4 : env.ReceiveChallengeIdentityResponse peer with
          | error e => simp [ChallengeEvent.isAddVerifiedCredentials, h3]
          | ok resp =>
            cases h5 : env.crypto.RecoverSigningPubkey (env.crypto.HashBytes c)
                resp.Signature with
            | error e => simp [ChallengeEvent.isAddVerifiedCredentials, h3, h5]
            | ok pk => simp [ChallengeEvent.isAddVerifiedCredentials, h3, h5]
  · intro c resp pk h1 h2 h3 h4 h5
    simp [ChallengePeerIdentity, h1, h2, h3, h4, h5, ChallengeEvent.isAddVerifiedCredentials]

/-- Claim C19: the round trip of the identity challenge. When the response that
the challenger receives is the one that `HandleChallengeIdentity` of the
responder hands to `RespondChallengeIdentity` for the challenge that was sent,
and both sides use the same crypto module, which obeys the round-trip law of
signing and recovery, then `ChallengePeerIdentity` recovers a signing public
key whose address is the address of the responder, returns it, and records,
for `peer.DialInfo()`, exactly that address, that key, and the encrypting key
decoded from the bytes of the responder's encrypting public key (the
responder's key itself when decoding undoes `Bytes`). -/
theorem ChallengePeerIdentity_round_trip (challenger responder : ChallengeEnv)
    (responderHost : Host) (peer responderPeer : Peer) (challengeMsg : List Nat)
    (resp : ChallengeIdentityResponse)
    (hCrypto : challenger.crypto = responder.crypto)
    (hLaw : ∀ x sig, responderHost.signingKeypair.SignHash x = .ok sig →
      ∃ pk, challenger.crypto.RecoverSigningPubkey x sig = .ok pk ∧
        challenger.crypto.Address pk = responderHost.signingKeypair.Address)
    (hConnected : challenger.EnsureConnected peer = none)
    (hChallenge : challenger.GenerateChallengeMsg = .ok challengeMsg)
    (hSent : challenger.ChallengeIdentity peer challengeMsg = none)
    (hResponded : ChallengeEvent.RespondChallengeIdentity responderPeer resp ∈
      (HandleChallengeIdentity responder responderHost challengeMsg responderPeer).trace)
    (hReceived : challenger.ReceiveChallengeIdentityResponse peer = .ok resp) :
    ∃ sigpubkey,
      challenger.crypto.Address sigpubkey = responderHost.Address ∧
      (ChallengePeerIdentity challenger peer).ret =
        .ok (sigpubkey, challenger.crypto.EncryptingPublicKeyFromBytes
          (responder.crypto.Bytes responder.EncryptingPublicKey)) ∧
      (ChallengePeerIdentity challenger peer).trace.filter
          ChallengeEvent.isAddVerifiedCredentials =
        [ChallengeEvent.AddVerifiedCredentials peer.DialInfo responderHost.Address sigpubkey
          (challenger.crypto.EncryptingPublicKeyFromBytes
            (responder.crypto.Bytes responder.EncryptingPublicKey))] ∧
      (challenger.crypto.EncryptingPublicKeyFromBytes
          (responder.crypto.Bytes responder.EncryptingPublicKey) =
        responder.EncryptingPublicKey →
        (ChallengePeerIdentity challenger peer).ret =
          .ok (sigpubkey, responder.EncryptingPublicKey)) := by
  simp only [HandleChallengeIdentity] at hResponded
  cases hsig : responderHost.signingKeypair.SignHash (responder.crypto.HashBytes challengeMsg) with
  | error e => simp [hsig] at hResponded
  | ok sig =>
    simp only [hsig, List.mem_cons, List.mem_singleton, List.not_mem_nil, or_false] at hResponded
    rcases hResponded with h0 | h0 | h0
    · cases h0
    · injection h0 with _ hresp
      subst hresp
      obtain ⟨pk, hrec, haddr⟩ := hLaw _ _ hsig
      rw [← hCrypto] at hrec
      refine ⟨pk, haddr, ?_, ?_, ?_⟩
      · simp [ChallengePeerIdentity, hConnected, hChallenge, hSent, hReceived, hrec]
      · simp [ChallengePeerIdentity, hConnected, hChallenge, hSent, hReceived, hrec,
          ChallengeEvent.isAddVerifiedCredentials, haddr, Host.Address]
      · intro henc
        simp [ChallengePeerIdentity, hConnected, hChallenge, hSent, hReceived, hrec, henc]
    · cases h0

/-! ## Subscriptions, refs and challenges at concrete inputs -/

/-- Claim C13, the code at a failing input: `exRefID` asks for the hash 77. The
first provider delivers three bytes, which the RefStore stores under the hashes
3 and 6. `FetchRef` announces these two refs and returns: the second provider is
never connected to, and nothing was stored under the requested hash. -/
theorem FetchRef_accepts_object_with_other_hashes :
    exRefEnvOther.ProvidersOfRef exRefID = [exPeer, exPeer2] ∧
    (FetchRef exRefEnvOther exRefID).stored = some (3, 6) ∧
    exRefID.Hash ≠ 3 ∧ exRefID.Hash ≠ 6 ∧
    RefEvent.AnnounceRef "libp2p" { HashAlg := HashAlg.SHA1, Hash := 3 } ∈
      (FetchRef exRefEnvOther exRefID).trace ∧
    RefEvent.AnnounceRef "libp2p" { HashAlg := HashAlg.SHA3, Hash := 6 } ∈
      (FetchRef exRefEnvOther exRefID).trace ∧
    RefEvent.EnsureConnected exPeer2 ∉ (FetchRef exRefEnvOther exRefID).trace := by
  decide

/-- Claim C15, the code at a failing input: `HandleWritableSubscriptionOpened` is
called on a subscription to states while the write of the current state fails.
The function logs the error and returns: it neither puts the subscription into
the set of its state URI nor closes it (no `Close`, no
`HandleWritableSubscriptionClosed`). So a subscription that was opened and whose
close handler was never invoked is not a member of the registry. -/
theorem opened_subscription_not_registered_when_initial_write_fails :
    exSubStates.Type_.Includes SubscriptionType_States = true ∧
    Event.Write exSubStates none (some "state") [7] ∈
      (HandleWritableSubscriptionOpened exEnvNoWrite (NewHost exKeypair none) exSubStates).2 ∧
    exEnvNoWrite.Write exSubStates none (some "state") [7] = some "broken pipe" ∧
    (HandleWritableSubscriptionOpened exEnvNoWrite (NewHost exKeypair none)
      exSubStates).2.countP (Event.isCloseOf exSubStates) = 0 ∧
    (∀ c ∈ [(exEnvNoWrite, SubscriptionCall.Opened exSubStates)],
      c.2 ≠ SubscriptionCall.Closed exSubStates) ∧
    (runSubscriptionCalls (NewHost exKeypair none)
      [(exEnvNoWrite, SubscriptionCall.Opened exSubStates)]).registered exSubStates = false := by
  refine ⟨by decide, by decide, rfl, by decide, ?_, by decide⟩
  intro c hc
  rw [List.mem_singleton.1 hc]
  decide

/-- Claim C16, the code at a failing input: two calls of
`HandleWritableSubscriptionClosed(S)`, on any host and whatever the
collaborators answer, leave the registry that one call leaves, and call
`S.Close()` twice. -/
theorem HandleWritableSubscriptionClosed_twice_closes_twice (env env2 : Env) (h : Host)
    (S : WritableSubscription) :
    (HandleWritableSubscriptionClosed env2 (HandleWritableSubscriptionClosed env h S).1 S).1 =
      (HandleWritableSubscriptionClosed env h S).1 ∧
    ((HandleWritableSubscriptionClosed env h S).2 ++
      (HandleWritableSubscriptionClosed env2
        (HandleWritableSubscriptionClosed env h S).1 S).2).countP (Event.isCloseOf S) = 2 := by
  constructor
  · simp only [HandleWritableSubscriptionClosed]
    cases hreg : h.writableSubscriptions S.StateURI with
    | none => simp [hreg]
    | some subs =>
      simp only [if_true]
      congr 1
      funext u
      by_cases hu : u = S.StateURI
      · simp [hu, List.filter_filter]
      · simp [hu]
  · rw [List.countP_append, HandleWritableSubscriptionClosed_countP_close,
      HandleWritableSubscriptionClosed_countP_close]
    simp

/-- Claim C17, the code at a failing input: the in-process subscriptions `exSubA`
and `exSubB` ask for the state under "a" and under "b". In one broadcast of the
state "s" the subscription served second is written the node of the first
one's node at its own keypath, not the node of "s" at its keypath, in either
order. -/
theorem broadcast_keypath_filter_leaks_between_subscribers :
    exEnvPaths.NodeAt "s" exSubA.Keypath = "s/a" ∧
    exEnvPaths.NodeAt "s" exSubB.Keypath = "s/b" ∧
    (broadcastToWritableSubscribers exEnvPaths exTxSigned [5]
      { host := exHostAB, alreadySentPeers := [], state := "s", trace := [] }).trace.filter
        Event.isAnyWrite =
      [Event.Write exSubA (some exTxSigned) (some "s/a") [5],
        Event.Write exSubB (some exTxSigned) (some "s/a/b") [5]] ∧
    (broadcastToWritableSubscribers exEnvPaths exTxSigned [5]
      { host := exHostBA, alreadySentPeers := [], state := "s", trace := [] }).trace.filter
        Event.isAnyWrite =
      [Event.Write exSubB (some exTxSigned) (some "s/b") [5],
        Event.Write exSubA (some exTxSigned) (some "s/b/a") [5]] := by
  decide

/-- The blob of 2500 bytes is served in three body packets and the end packet. -/
theorem HandleFetchRefReceived_chunks_witness :
    exRefEnvServing.Object exRefID = .ok { data := exBlob, err := none } ∧
    ∃ bs : List (List Nat),
      HandleFetchRefReceived exRefEnvServing exRefID exPeer =
        { trace := [RefEvent.Object exRefID, RefEvent.SendRefHeader exPeer] ++
            bs.map (fun c => RefEvent.SendRefPacket exPeer c false) ++
            [RefEvent.SendRefPacket exPeer [] true, RefEvent.ClosePeer exPeer]
          panicked := none, outOfFuel := false } ∧
      bs.flatten = exBlob ∧
      bs.length = (exBlob.length + 1023) / 1024 ∧
      (∀ c ∈ bs, 0 < c.length ∧ c.length ≤ 1024) ∧
      (∀ c ∈ bs.dropLast, c.length = 1024) :=
  ⟨rfl, HandleFetchRefReceived_chunks exRefEnvServing exRefID exPeer exBlob rfl rfl
    (fun _ _ => rfl)⟩

/-- The blob that `exRefEnvServing` serves reaches the store of `exRefEnvFetching`
unchanged. -/
theorem FetchRef_round_trip_witness :
    (exRefEnvFetching.RefPackets exPeer).packets =
      RefEvent.sentPackets (HandleFetchRefReceived exRefEnvServing exRefID exPeer).trace ∧
    (FetchRef.receive (exRefEnvFetching.RefPackets exPeer).err
      (exRefEnvFetching.RefPackets exPeer).packets [] 0).data = exBlob ∧
    (FetchRef exRefEnvFetching exRefID).stored = some (exBlob.length, exBlob.sum) :=
  ⟨by simp only [exRefEnvFetching],
    by
      rw [(FetchRef_round_trip exRefEnvServing exRefEnvFetching exRefID exPeer exPeer [exPeer2]
        exBlob exBlob.length exBlob.sum rfl rfl (fun _ _ => rfl) rfl rfl rfl rfl
        (by simp only [exRefEnvFetching]) rfl).1],
    by
      rw [(FetchRef_round_trip exRefEnvServing exRefEnvFetching exRefID exPeer exPeer [exPeer2]
        exBlob exBlob.length exBlob.sum rfl rfl (fun _ _ => rfl) rfl rfl rfl rfl
        (by simp only [exRefEnvFetching]) rfl).2.2]⟩

/-- The write on `exSub` fails: it is closed once and leaves the registry, and
`exSubUnknown` is still written to and stays registered. -/
theorem broadcast_write_failure_terminal_and_isolated_witness :
    exHostBoth.writableSubscriptions exTxSigned.StateURI = some [exSub, exSubUnknown] ∧
    Event.Write exSub (some exTxSigned) (some "state") [5] ∈
      (broadcastToWritableSubscribers exEnvWriteFails exTxSigned [5]
        { host := exHostBoth, alreadySentPeers := [], state := "state", trace := [] }).trace ∧
    (Event.Write exSub (some exTxSigned) (some "state") [5]).isFailedWriteTo exEnvWriteFails
      exSub = true ∧
    (broadcastToWritableSubscribers exEnvWriteFails exTxSigned [5]
      { host := exHostBoth, alreadySentPeers := [], state := "state", trace := [] }).trace.countP
        (Event.isCloseOf exSub) = 1 ∧
    (broadcastToWritableSubscribers exEnvWriteFails exTxSigned [5]
      { host := exHostBoth, alreadySentPeers := [], state := "state", trace := [] }).trace.countP
        (Event.isWriteTo exSubUnknown) = 1 :=
  ⟨rfl, by decide, by decide,
    (broadcast_write_failure_terminal_and_isolated exEnvWriteFails exHostBoth exTxSigned "state"
      [5] [exSub, exSubUnknown] exSub (Event.Write exSub (some exTxSigned) (some "state") [5])
      rfl rfl (by decide) (by decide)).1,
    (((broadcast_write_failure_terminal_and_isolated exEnvWriteFails exHostBoth exTxSigned "state"
      [5] [exSub, exSubUnknown] exSub (Event.Write exSub (some exTxSigned) (some "state") [5])
      rfl rfl (by decide) (by decide)).2.2 exSubUnknown (by decide) (by decide)).1
        (by decide)).1 rfl⟩

/-- A subscription that is opened, closed and opened again is registered. -/
theorem registered_iff_opened_and_not_closed_since_witness :
    (runSubscriptionCalls (NewHost exKeypair none)
      [(exEnv, SubscriptionCall.Opened exSub), (exEnv, SubscriptionCall.Closed exSub),
        (exEnv, SubscriptionCall.Opened exSub)]).registered exSub = true :=
  (registered_iff_opened_and_not_closed_since exKeypair none
    [(exEnv, SubscriptionCall.Opened exSub), (exEnv, SubscriptionCall.Closed exSub),
      (exEnv, SubscriptionCall.Opened exSub)] exSub).1.2
    ⟨[(exEnv, SubscriptionCall.Opened exSub), (exEnv, SubscriptionCall.Closed exSub)], exEnv, [],
      rfl, by decide, by simp⟩

/-- The challenge of `exChallenger` succeeds and records the recovered key. -/
theorem ChallengePeerIdentity_failure_semantics_witness :
    (ChallengePeerIdentity exChallenger exPeer).trace.filter
        ChallengeEvent.isAddVerifiedCredentials =
      [ChallengeEvent.AddVerifiedCredentials exPeer.DialInfo 3 { bytes := [3] } { token := 21 }] :=
  ((ChallengePeerIdentity_failure_semantics exChallenger exPeer).2.2 exChallengeMsg
    { Signature := [32, 3], EncryptingPublicKey := [21] } { bytes := [3] } rfl rfl rfl rfl
    rfl).1

/-- The response of `exHost` to the challenge of `exChallenger` verifies the
address and the encrypting key of `exHost`. -/
theorem ChallengePeerIdentity_round_trip_witness :
    ChallengeEvent.RespondChallengeIdentity exPeer2
        { Signature := [32, 3], EncryptingPublicKey := [21] } ∈
      (HandleChallengeIdentity exResponder exHost exChallengeMsg exPeer2).trace ∧
    ∃ sigpubkey,
      exChallenger.crypto.Address sigpubkey = exHost.Address ∧
      (ChallengePeerIdentity exChallenger exPeer).ret =
        .ok (sigpubkey, exChallenger.crypto.EncryptingPublicKeyFromBytes
          (exResponder.crypto.Bytes exResponder.EncryptingPublicKey)) ∧
      (ChallengePeerIdentity exChallenger exPeer).trace.filter
          ChallengeEvent.isAddVerifiedCredentials =
        [ChallengeEvent.AddVerifiedCredentials exPeer.DialInfo exHost.Address sigpubkey
          (exChallenger.crypto.EncryptingPublicKeyFromBytes
            (exResponder.crypto.Bytes exResponder.EncryptingPublicKey))] ∧
      (exChallenger.crypto.EncryptingPublicKeyFromBytes
          (exResponder.crypto.Bytes exResponder.EncryptingPublicKey) =
        exResponder.EncryptingPublicKey →
        (ChallengePeerIdentity exChallenger exPeer).ret =
          .ok (sigpubkey, exResponder.EncryptingPublicKey)) :=
  ⟨by decide,
    ChallengePeerIdentity_round_trip exChallenger exResponder exHost exPeer exPeer2
      exChallengeMsg { Signature := [32, 3], EncryptingPublicKey := [21] } rfl
      (by
        intro x sig hsig
        have hsig2 : (Except.ok [x, 3] : Except Error Signature) = Except.ok sig := hsig
        injection hsig2 with hsig3
        subst hsig3
        exact ⟨{ bytes := [3] }, by simp [exChallenger, exResponder, exCrypto], rfl⟩)
      rfl rfl rfl (by decide) rfl⟩

/-- The history of two txs is replayed in order; the write of the second one
fails, the subscription is closed and the error is returned. -/
theorem HandleFetchHistoryRequest_replays_in_order_witness :
    (HandleFetchHistoryRequest exEnvHistory exHost "room.foo/chat" 1 exSub).trace.filter
        Event.isAnyWrite =
      [Event.Write exSub (some exTxSigned) none [7], Event.Write exSub (some exTxForged) none [7]] ∧
    (HandleFetchHistoryRequest exEnvHistory exHost "room.foo/chat" 1 exSub).err =
      some "broken pipe" ∧
    (HandleFetchHistoryRequest exEnvHistory exHost "room.foo/chat" 1 exSub).trace.countP
      (Event.isCloseOf exSub) = 1 :=
  ⟨((HandleFetchHistoryRequest_replays_in_order exEnvHistory exHost "room.foo/chat" 1
      exSub).2.1 [7] rfl (fun _ _ => rfl)).1,
    ((HandleFetchHistoryRequest_replays_in_order exEnvHistory exHost "room.foo/chat" 1
      exSub).2.1 [7] rfl (fun _ _ => rfl)).2.1,
    ((HandleFetchHistoryRequest_replays_in_order exEnvHistory exHost "room.foo/chat" 1
      exSub).2.1 [7] rfl (fun _ _ => rfl)).2.2.1⟩

/-! ## Properties of the error paths -/

/-- Claim C25: when `ControllerHub.HaveTx` answers an error, `HandleTxReceived`
returns with the host on which the tx is marked as seen by the sending peer
(the mark is made before `HaveTx` is asked and is not undone), having made the
call of `HaveTx` and logged the error and nothing else: neither
`ControllerHub.AddTx` nor `peer.Ack` is called. For a peer of known address
`txSeenByPeer` answers true afterwards. -/
theorem HandleTxReceived_HaveTx_error (env : Env) (h : Host) (tx : Tx) (peer : Peer)
    (err : Error) (hHave : env.hub.HaveTx tx.StateURI tx.ID = .error err) :
    (HandleTxReceived env h tx peer).1 = markTxSeenByPeer h peer tx.StateURI tx.ID ∧
    (HandleTxReceived env h tx peer).2 = [Event.HaveTx tx.StateURI tx.ID, Event.Errorf err] ∧
    (HandleTxReceived env h tx peer).2.countP Event.isAddTx = 0 ∧
    (HandleTxReceived env h tx peer).2.countP Event.isAck = 0 ∧
    (peer.Address ≠ zeroAddress →
      txSeenByPeer (HandleTxReceived env h tx peer).1 peer tx.StateURI tx.ID = true) := by
  have h2 : (HandleTxReceived env h tx peer).2 =
      [Event.HaveTx tx.StateURI tx.ID, Event.Errorf err] := by
    simp only [HandleTxReceived, hHave]
  refine ⟨HandleTxReceived_host env h tx peer, h2, ?_, ?_, ?_⟩
  · rw [h2]; simp [Event.isAddTx]
  · rw [h2]; simp [Event.isAck]
  · intro hA
    rw [HandleTxReceived_host, txSeenByPeer_markTxSeenByPeer]
    simp [hA]

/-- Claim C29, the code at the failing input: for the nil set, `s.Add(v)` with the
returned set dropped leaves `s` nil, and `s.Contains(v)` is false afterwards,
for every `v`. The other half of the claim holds: the returned set contains `v`
and every element of `s`; and for a set that is not nil, `s` itself contains `v`
afterwards. -/
theorem StringSet.Add_dropped_on_nil_set (v : String) :
    (StringSet.Add none v).receiver = none ∧
    (StringSet.Add none v).receiver.Contains v = false ∧
    (∀ s : StringSet, (s.Add v).returned.Contains v = true ∧
      ∀ x, s.Contains x = true → (s.Add v).returned.Contains x = true) ∧
    (∀ s : StringSet, s ≠ none → (s.Add v).receiver.Contains v = true) := by
  refine ⟨rfl, rfl, ?_, ?_⟩
  · intro s
    cases s with
    | none => simp [StringSet.Add, StringSet.Contains]
    | some m =>
      by_cases hv : v ∈ m
      · simp [StringSet.Add, StringSet.Contains, hv]
      · simp only [StringSet.Add, StringSet.Contains, hv, if_false]
        simp
        intro x hx
        exact Or.inl hx
  · intro s hs
    cases s with
    | none => exact absurd rfl hs
    | some m =>
      by_cases hv : v ∈ m
      · simp [StringSet.Add, StringSet.Contains, hv]
      · simp [StringSet.Add, StringSet.Contains, hv]

/-- The loop of `HandleFetchRefReceived` is left by `break` or `return` within one
turn more than the reader has bytes, and never closes the peer handle. -/
theorem HandleFetchRefReceived.loop_exit (env : RefEnv) (peer p : Peer) (fuel : Nat)
    (r : ObjectReader) (bufLen : Nat) (trace : List RefEvent) (hbuf : 0 < bufLen)
    (hfuel : r.data.length < fuel) :
    (HandleFetchRefReceived.loop env peer fuel r bufLen trace).2 ≠ LoopExit.outOfFuel ∧
    (HandleFetchRefReceived.loop env peer fuel r bufLen trace).1.countP
      (RefEvent.isClosePeer p) = trace.countP (RefEvent.isClosePeer p) := by
  induction fuel generalizing r bufLen trace with
  | zero => omega
  | succ fuel ih =>
    by_cases hfull : bufLen ≤ r.data.length
    · simp only [HandleFetchRefReceived.loop, ReadFull, hfull, if_true]
      cases hs : env.SendRefPacket peer (r.data.take bufLen) false with
      | some e => simp [List.countP_append, List.countP_cons, RefEvent.isClosePeer]
      | none =>
        have hlen : ({ r with data := r.data.drop bufLen } : ObjectReader).data.length < fuel := by
          simp only [List.length_drop]; omega
        have := ih { r with data := r.data.drop bufLen } bufLen
          (trace ++ [RefEvent.SendRefPacket peer (r.data.take bufLen) false]) hbuf hlen
        simpa [List.countP_append, List.countP_cons, RefEvent.isClosePeer] using this
    · simp only [HandleFetchRefReceived.loop, ReadFull, hfull, if_false]
      cases he : r.err with
      | some e => simp [List.countP_append, List.countP_cons, RefEvent.isClosePeer]
      | none =>
        by_cases hzero : r.data.length = 0
        · simp [hzero]
        · simp only [hzero, if_false]
          cases hs : env.SendRefPacket peer r.data false with
          | some e => simp [List.countP_append, List.countP_cons, RefEvent.isClosePeer]
          | none =>
            have hlen : ({ r with data := [] } : ObjectReader).data.length < fuel := by
              simp only [List.length_nil]; omega
            have := ih { r with data := [] } r.data.length
              (trace ++ [RefEvent.SendRefPacket peer r.data false]) (by omega) hlen
            simpa [List.countP_append, List.countP_cons, RefEvent.isClosePeer, he] using this

/-- Claim C22, the code at every input: `HandleFetchRefReceived` panics exactly
when `RefStore.Object` answers an error (a ref the store does not hold), with
that error. The other half of the claim holds: on every path, the panic
included, the peer handle is closed exactly once, by the last call made, and
the loop over the object is always left. -/
theorem HandleFetchRefReceived_panics_iff_Object_fails (env : RefEnv) (refID : RefID)
    (peer : Peer) :
    (HandleFetchRefReceived env refID peer).panicked =
      (match env.Object refID with
        | .error e => some e
        | .ok _ => none) ∧
    (HandleFetchRefReceived env refID peer).trace.countP (RefEvent.isClosePeer peer) = 1 ∧
    (HandleFetchRefReceived env refID peer).trace.getLast? = some (RefEvent.ClosePeer peer) ∧
    (HandleFetchRefReceived env refID peer).outOfFuel = false := by
  cases hO : env.Object refID with
  | error e => simp [HandleFetchRefReceived, hO, RefEvent.isClosePeer]
  | ok objectReader =>
    cases hH : env.SendRefHeader peer with
    | some e => simp [HandleFetchRefReceived, hO, hH, RefEvent.isClosePeer]
    | none =>
      obtain ⟨h1, h2⟩ := HandleFetchRefReceived.loop_exit env peer peer
        (objectReader.data.length + 1) objectReader REF_CHUNK_SIZE
        [RefEvent.Object refID, RefEvent.SendRefHeader peer] (by decide) (Nat.lt_succ_self _)
      rcases hsent : HandleFetchRefReceived.loop env peer (objectReader.data.length + 1)
        objectReader REF_CHUNK_SIZE [RefEvent.Object refID, RefEvent.SendRefHeader peer]
        with ⟨t, ex⟩
      rw [hsent] at h1 h2
      simp only [List.countP_cons, List.countP_nil, RefEvent.isClosePeer] at h2
      cases ex with
      | outOfFuel => exact absurd rfl h1
      | returned =>
        simp [HandleFetchRefReceived, hO, hH, hsent, List.countP_append, List.countP_cons,
          RefEvent.isClosePeer, h2]
      | broke =>
        cases hS : env.SendRefPacket peer [] true with
        | some e =>
          simp [HandleFetchRefReceived, hO, hH, hsent, hS, List.countP_append,
            List.countP_cons, RefEvent.isClosePeer, h2]
        | none =>
          simp [HandleFetchRefReceived, hO, hH, hsent, hS, List.countP_append,
            List.countP_cons, RefEvent.isClosePeer, h2]

/-- The goroutine of `FetchRef` always closes the pipe with `nil`. -/
theorem FetchRef.receive_closeErr (streamErr : Error) (pkts : List FetchRefResponseBody)
    (written : List Nat) (calls : Nat) :
    (FetchRef.receive streamErr pkts written calls).closeErr = none := by
  induction pkts generalizing written calls with
  | nil => rfl
  | cons pkt rest ih =>
    simp only [FetchRef.receive]
    split
    · rfl
    · exact ih _ _

/-- The goroutine of `FetchRef` over packets none of which is flagged as the end:
all the data is written to the pipe, the failure of `ReceiveRefPacket` is
logged, and the pipe is closed with `nil`. -/
theorem FetchRef.receive_truncated (streamErr : Error) (pkts : List FetchRefResponseBody)
    (written : List Nat) (calls : Nat) (hEnd : ∀ pkt ∈ pkts, pkt.End = false) :
    FetchRef.receive streamErr pkts written calls =
      { data := written ++ (pkts.map (fun pkt => pkt.Data)).flatten, closeErr := none,
        calls := calls + pkts.length + 1, sawEnd := false, logged := some streamErr } := by
  induction pkts generalizing written calls with
  | nil => simp [FetchRef.receive]
  | cons pkt rest ih =>
    have h1 : pkt.End = false := hEnd pkt (List.mem_cons_self _ _)
    have h2 : ∀ p ∈ rest, p.End = false := fun p hp => hEnd p (List.mem_cons_of_mem _ hp)
    simp only [FetchRef.receive, h1, Bool.false_eq_true, if_false, ih _ _ h2, List.map_cons,
      List.flatten_cons, List.append_assoc, List.length_cons]
    congr 1
    omega

/-- No call of `announceRefs` is a `StoreObject`. -/
theorem announceRefs_countP_store (env : RefEnv) (refIDs : List RefID) :
    (announceRefs env refIDs).countP RefEvent.isStoreOfFailedStream = 0 := by
  rw [List.countP_eq_zero]
  intro e he
  simp only [announceRefs, List.mem_flatMap] at he
  obtain ⟨t, _, r, _, he⟩ := he
  revert he
  split
  · split <;> intro he <;> simp at he <;> rcases he with rfl | rfl <;>
      simp [RefEvent.isStoreOfFailedStream]
  · intro he
    simp at he
    subst he
    simp [RefEvent.isStoreOfFailedStream]

/-- The loop of `FetchRef` never hands `StoreObject` a reader that ends with an
error. -/
theorem FetchRef.loop_countP_store (env : RefEnv) (refID : RefID) (peers : List Peer)
    (trace : List RefEvent) :
    (FetchRef.loop env refID peers trace).trace.countP RefEvent.isStoreOfFailedStream =
      trace.countP RefEvent.isStoreOfFailedStream := by
  induction peers generalizing trace with
  | nil => rfl
  | cons peer rest ih =>
    simp only [FetchRef.loop]
    repeat' split
    all_goals
      simp [ih, List.countP_append, List.countP_cons, List.countP_replicate,
        RefEvent.isStoreOfFailedStream, FetchRef.receive_closeErr, announceRefs_countP_store]

/-- Claim C26, the code at a failing input: whatever the peers deliver, the reader
that `FetchRef` hands to `RefStore.StoreObject` ends cleanly (the deferred
`pw.CloseWithError(err)` reads a variable that is never assigned an error of
`ReceiveRefPacket`). With a first provider that delivers three bytes and then
fails, no packet being flagged as the end, the three bytes are stored as a
complete object, their hashes are announced, and the second provider is never
connected to. -/
theorem FetchRef_stores_truncated_stream_as_complete :
    (∀ env refID, (FetchRef env refID).trace.countP RefEvent.isStoreOfFailedStream = 0) ∧
    (FetchRef.receive (exRefEnvTruncated.RefPackets exPeer).err
      (exRefEnvTruncated.RefPackets exPeer).packets [] 0).sawEnd = false ∧
    (FetchRef.receive (exRefEnvTruncated.RefPackets exPeer).err
      (exRefEnvTruncated.RefPackets exPeer).packets [] 0).logged = some "connection reset" ∧
    RefEvent.StoreObject [1, 2, 3] none ∈ (FetchRef exRefEnvTruncated exRefID).trace ∧
    (FetchRef exRefEnvTruncated exRefID).stored = some (3, 6) ∧
    RefEvent.AnnounceRef "libp2p" { HashAlg := HashAlg.SHA1, Hash := 3 } ∈
      (FetchRef exRefEnvTruncated exRefID).trace ∧
    RefEvent.EnsureConnected exPeer2 ∉ (FetchRef exRefEnvTruncated exRefID).trace := by
  refine ⟨?_, by decide, by decide, by decide, by decide, by decide, by decide⟩
  intro env refID
  rw [FetchRef, FetchRef.loop_countP_store]
  rfl

/-- Claim C28, the code at a failing input: one turn of the loop of `serveGetState`
ends in a run-time panic exactly when the first '[' of the part is its last
byte, where the slice expression `part[idx+1 : len(part)-1]` has a low bound
above its high bound; so the part "foo[" panics, whatever follows it and
whatever the parsing of integers does. -/
theorem serveGetState_part_panics_iff (env : SliceIndexEnv) (part : List Char)
    (rest newParts : List (List Char)) :
    (serveGetState.part env part newParts = SliceIndexParse.panicked ↔
      part.indexOf '[' + 1 = part.length) ∧
    sliceExpr ['f', 'o', 'o', '['] (3 + 1) (4 - 1) = none ∧
    serveGetState.newParts env (['f', 'o', 'o', '['] :: rest) newParts =
      SliceIndexParse.panicked := by
  refine ⟨?_, by decide, ?_⟩
  · simp only [serveGetState.part, IndexByte]
    by_cases hmem : '[' ∈ part
    · have hlt : part.indexOf '[' < part.length := List.indexOf_lt_length.2 hmem
      simp only [hmem, if_true, sliceExpr]
      by_cases hb : part.indexOf '[' + 1 ≤ part.length - 1 ∧ part.length - 1 ≤ part.length
      · simp only [hb, and_self, if_true]
        constructor
        · intro h
          split at h <;> cases h
        · intro h
          omega
      · simp only [hb, if_false, true_iff]
        omega
    · have heq : part.indexOf '[' = part.length := List.indexOf_eq_length.2 hmem
      simp only [hmem, if_false, heq]
      constructor
      · intro h; cases h
      · intro h; omega
  · have hp : serveGetState.part env ['f', 'o', 'o', '['] newParts = SliceIndexParse.panicked := by
      simp [serveGetState.part, IndexByte, sliceExpr, List.indexOf_cons]
    simp only [serveGetState.newParts, hp]

/-! ## Properties of the HTTP transport -/

/-- A string that "localhost" is put before begins with "localhost". -/
theorem HasPrefix_localhost_append (s : String) : HasPrefix ("localhost" ++ s) "localhost" = true := by
  simp [HasPrefix, String.data_append, List.isPrefixOf]

/-- A string that begins with "localhost" does not begin with a colon. -/
theorem head_of_HasPrefix_localhost (s : String) (h : HasPrefix s "localhost" = true) :
    s.data.head? ≠ some ':' := by
  unfold HasPrefix at h
  cases hs : s.data with
  | nil => simp
  | cons c rest =>
    rw [hs] at h
    have hc : c = 'l' := by
      simp [List.isPrefixOf] at h
      exact h.1.symm
    subst hc
    simp

/-- Claim C23, the code at a failing input: `NewPeerConn` of the own URL of the
transport answers `ErrPeerIsSelf` exactly when the listen address begins with a
colon or with "localhost"; for every other listen address the transport
accepts its own URL. A transport that listens on "10.0.0.5:8080" has that
own URL, and `NewPeerConn` of it returns a peer without error; and a transport
that listens on ":8080" has the own URL "localhost:8080", and `NewPeerConn` of
"localhost:9090", which is not its own URL, answers `ErrPeerIsSelf`: the
function tests whether the dial address begins with "localhost" and never
looks at `ownURL`. -/
theorem NewPeerConn_own_URL_rejected_iff (listenAddr : String)
    (peerStoreAddress : PeerDialInfo → Address)
    (PeersFromTransportWithAddress : Address → Option PeerDialInfo) :
    ((NewHTTPTransport listenAddr peerStoreAddress PeersFromTransportWithAddress).NewPeerConn
        (NewHTTPTransport listenAddr peerStoreAddress PeersFromTransportWithAddress).ownURL =
        .error ErrPeerIsSelf ↔
      (listenAddr.data.head? = some ':' ∨ HasPrefix listenAddr "localhost" = true)) ∧
    exTransportAddr.listenAddr = "10.0.0.5:8080" ∧
    exTransportAddr.ownURL = "10.0.0.5:8080" ∧
    exTransportAddr.NewPeerConn exTransportAddr.ownURL =
      .ok { DialInfo := { TransportName := "http", DialAddr := "10.0.0.5:8080" }, Address := 0 } ∧
    exTransport.ownURL = "localhost:8080" ∧
    "localhost:9090" ≠ exTransport.ownURL ∧
    exTransport.NewPeerConn "localhost:9090" = .error ErrPeerIsSelf := by
  refine ⟨?_, by decide, by decide, rfl, by decide, by decide, rfl⟩
  by_cases hc : listenAddr.data.head? = some ':'
  · have hown : (NewHTTPTransport listenAddr peerStoreAddress
        PeersFromTransportWithAddress).ownURL = "localhost" ++ listenAddr := by
      simp [NewHTTPTransport, hc]
    rw [hown]
    simp [httpTransport.NewPeerConn, HasPrefix_localhost_append, hc]
  · have hown : (NewHTTPTransport listenAddr peerStoreAddress
        PeersFromTransportWithAddress).ownURL = listenAddr := by
      simp [NewHTTPTransport, hc]
    rw [hown]
    by_cases hp : HasPrefix listenAddr "localhost" = true
    · simp [httpTransport.NewPeerConn, hp]
    · simp [httpTransport.NewPeerConn, hp, hc]

/-! ## Properties of the private txs over HTTP -/

/-- Claim C30: `servePostPrivateTx` calls `host.HandleTxReceived` exactly when the
body decodes as an envelope, the sealed payload opens with the sender key of
the envelope, the plaintext decodes as a tx, and the tx id of the envelope is
the id of that tx. It is then called once, with that tx and the peer made for
the address of the request, and the host is left as `HandleTxReceived` leaves
it; in every other case it is not called and the host is unchanged (a body
that does not decode makes the handler panic). -/
theorem servePostPrivateTx_calls_HandleTxReceived_iff (t : httpTransport)
    (penv : PrivateTxEnv) (env : Env) (h : Host) (body : List Nat) (address : Address) :
    ((∃ e ∈ (t.servePostPrivateTx penv env h body address).trace,
        e.isHandleTxReceived = true) ↔
      ∃ encryptedTx bs tx,
        penv.DecodeEncryptedTx body = .ok encryptedTx ∧
        penv.OpenMessageFrom (penv.EncryptingPublicKeyFromBytes encryptedTx.SenderPublicKey)
          encryptedTx.EncryptedPayload = .ok bs ∧
        penv.UnmarshalTx bs = .ok tx ∧
        encryptedTx.TxID = tx.ID) ∧
    (∀ encryptedTx bs tx,
      penv.DecodeEncryptedTx body = .ok encryptedTx →
      penv.OpenMessageFrom (penv.EncryptingPublicKeyFromBytes encryptedTx.SenderPublicKey)
        encryptedTx.EncryptedPayload = .ok bs →
      penv.UnmarshalTx bs = .ok tx →
      encryptedTx.TxID = tx.ID →
      (t.servePostPrivateTx penv env h body address).trace =
        [HTTPEvent.HandleTxReceived tx (t.makePeerWithAddress address)] ∧
      (t.makePeerWithAddress address).Address = address ∧
      (t.servePostPrivateTx penv env h body address).host =
        (HandleTxReceived env h tx (t.makePeerWithAddress address)).1 ∧
      (t.servePostPrivateTx penv env h body address).hostTrace =
        (HandleTxReceived env h tx (t.makePeerWithAddress address)).2) ∧
    ((∀ e ∈ (t.servePostPrivateTx penv env h body address).trace,
        e.isHandleTxReceived = false) →
      (t.servePostPrivateTx penv env h body address).host = h ∧
      (t.servePostPrivateTx penv env h body address).hostTrace = []) ∧
    ((t.servePostPrivateTx penv env h body address).panicked =
      (match penv.DecodeEncryptedTx body with
        | .error err => some err
        | .ok _ => none)) := by
  refine ⟨?_, ?_, ?_, ?_⟩
  · simp only [httpTransport.servePostPrivateTx]
    cases h1 : penv.DecodeEncryptedTx body with
    | error e => simp
    | ok enc =>
      cases h2 : penv.OpenMessageFrom (penv.EncryptingPublicKeyFromBytes enc.SenderPublicKey)
          enc.EncryptedPayload with
      | error e => simp [h2, HTTPEvent.isHandleTxReceived]
      | ok bs =>
        cases h3 : penv.UnmarshalTx bs with
        | error e => simp [h2, h3, HTTPEvent.isHandleTxReceived]
        | ok tx =>
          by_cases h4 : enc.TxID = tx.ID
          · simp [h2, h3, h4, HTTPEvent.isHandleTxReceived]
          · simp [h2, h3, h4, HTTPEvent.isHandleTxReceived]
  · intro enc bs tx h1 h2 h3 h4
    simp [httpTransport.servePostPrivateTx, h1, h2, h3, h4, httpTransport.makePeerWithAddress]
  · simp only [httpTransport.servePostPrivateTx]
    repeat' split
    all_goals simp [HTTPEvent.isHandleTxReceived]
  · simp only [httpTransport.servePostPrivateTx]
    repeat' split
    all_goals simp_all

/-! ## Properties of the work queue -/

/-- A step keeps the capacity, and keeps the number of waiting values within it. -/
theorem workQueue.step_pending_le (q q1 : workQueue) (a : workQueue.Action)
    (h : q.step a = some q1) (hq : q.pending ≤ q.size) :
    q1.pending ≤ q1.size ∧ q1.size = q.size := by
  cases a with
  | Enqueue =>
    simp only [workQueue.step, Option.some.injEq] at h
    subst h
    unfold workQueue.Enqueue
    repeat' split
    all_goals first
      | exact ⟨hq, rfl⟩
      | exact ⟨by assumption, rfl⟩
  | Receive =>
    simp only [workQueue.step] at h
    split at h
    · injection h with h
      subst h
      constructor <;> simp
      omega
    · cases h
  | Return =>
    simp only [workQueue.step] at h
    split at h
    · injection h with h
      subst h
      exact ⟨hq, rfl⟩
    · cases h

/-- A sequence of steps keeps the capacity, and keeps the number of waiting values
within it. -/
theorem workQueue.steps_pending_le (actions : List workQueue.Action) (q q1 : workQueue)
    (h : q.steps actions = some q1) (hq : q.pending ≤ q.size) :
    q1.pending ≤ q1.size ∧ q1.size = q.size := by
  induction actions generalizing q with
  | nil =>
    simp only [workQueue.steps, Option.some.injEq] at h
    subst h
    exact ⟨hq, rfl⟩
  | cons a rest ih =>
    simp only [workQueue.steps] at h
    cases hs : q.step a with
    | none => rw [hs] at h; cases h
    | some q2 =>
      rw [hs] at h
      obtain ⟨h1, h2⟩ := workQueue.step_pending_le q q2 a hs hq
      obtain ⟨h3, h4⟩ := ih q2 h h1
      exact ⟨h3, h4.trans h2⟩

/-- One or more calls of `Enqueue` on a queue of capacity 1 leave one value
waiting. -/
theorem workQueue.steps_Enqueue (k : Nat) (q : workQueue) (rest : List workQueue.Action)
    (hsize : q.size = 1) (hq : q.pending ≤ 1) :
    q.steps (List.replicate (k + 1) workQueue.Action.Enqueue ++ rest) =
      ({ q with pending := 1 } : workQueue).steps rest := by
  induction k generalizing q with
  | zero =>
    have hE : q.Enqueue = { q with pending := 1 } := by
      unfold workQueue.Enqueue
      by_cases h0 : q.pending = 0
      · simp [h0, hsize]
      · have h1 : q.pending = 1 := by omega
        cases q
        simp_all
    simp [workQueue.steps, workQueue.step, hE]
  | succ k ih =>
    have hE : q.Enqueue = { q with pending := 1 } := by
      unfold workQueue.Enqueue
      by_cases h0 : q.pending = 0
      · simp [h0, hsize]
      · have h1 : q.pending = 1 := by omega
        cases q
        simp_all
    rw [List.replicate_succ, List.cons_append, workQueue.steps]
    simp only [workQueue.step, hE]
    exact ih _ hsize (Nat.le_refl 1)

/-- Claim C24: the single-slot coalescing work queue. In every state `q` that a
queue made by `NewWorkQueue(1, callback)` reaches by calls of `Enqueue` and
steps of its worker, at most one value is waiting; a call of `Enqueue` can
always be taken (it never blocks), and changes nothing when the slot is full;
and when a run of `callback` is in progress in `q`, any number `k >= 1` of calls
of `Enqueue` made before it returns is followed by exactly one more run: the
worker returns, receives, runs `callback` once more, returns, and then finds
nothing waiting. -/
theorem workQueue_single_slot_coalesces (actions : List workQueue.Action) (q : workQueue)
    (k : Nat) (hreach : (NewWorkQueue 1).steps actions = some q) :
    q.pending ≤ 1 ∧
    q.step workQueue.Action.Enqueue = some q.Enqueue ∧
    (q.pending = 1 → q.Enqueue = q) ∧
    (q.running = true → 1 ≤ k →
      ∃ q2, q.steps (List.replicate k workQueue.Action.Enqueue ++
          [workQueue.Action.Return, workQueue.Action.Receive, workQueue.Action.Return]) =
          some q2 ∧
        q2.runs = q.runs + 1 ∧ q2.pending = 0 ∧ q2.running = false ∧
        q2.step workQueue.Action.Receive = none) := by
  obtain ⟨h1, h2⟩ := workQueue.steps_pending_le actions (NewWorkQueue 1) q hreach (by decide)
  have hsize : q.size = 1 := h2
  have hpend : q.pending ≤ 1 := by rw [hsize] at h1; exact h1
  refine ⟨hpend, rfl, ?_, ?_⟩
  · intro hp
    simp [workQueue.Enqueue, hp, hsize]
  · intro hrun hk
    obtain ⟨j, rfl⟩ : ∃ j, k = j + 1 := ⟨k - 1, by omega⟩
    rw [workQueue.steps_Enqueue j q _ hsize hpend]
    simp [workQueue.steps, workQueue.step, hrun]

/-- After one `Enqueue` and the receive of the worker, three calls of `Enqueue`
during the run are followed by one more run. -/
theorem workQueue_single_slot_coalesces_witness :
    (NewWorkQueue 1).steps [workQueue.Action.Enqueue, workQueue.Action.Receive] =
      some { size := 1, pending := 0, running := true, runs := 1 } ∧
    ∃ q2, ({ size := 1, pending := 0, running := true, runs := 1 } : workQueue).steps
        (List.replicate 3 workQueue.Action.Enqueue ++
          [workQueue.Action.Return, workQueue.Action.Receive, workQueue.Action.Return]) =
        some q2 ∧
      q2.runs = 1 + 1 ∧ q2.pending = 0 ∧ q2.running = false ∧
      q2.step workQueue.Action.Receive = none :=
  ⟨by decide,
    (workQueue_single_slot_coalesces [workQueue.Action.Enqueue, workQueue.Action.Receive]
      { size := 1, pending := 0, running := true, runs := 1 } 3 (by decide)).2.2.2 rfl
      (by decide)⟩

/-! ## Properties of `handleNewState` -/

/-- `HandleWritableSubscriptionClosed` leaves the subscribed set and the registry of
readable subscriptions as they are. -/
theorem HandleWritableSubscriptionClosed_config (env : Env) (h : Host)
    (s : WritableSubscription) :
    (HandleWritableSubscriptionClosed env h s).1.SubscribedStateURIs = h.SubscribedStateURIs ∧
    (HandleWritableSubscriptionClosed env h s).1.readableSubscriptions =
      h.readableSubscriptions := by
  unfold HandleWritableSubscriptionClosed
  dsimp only
  cases h.writableSubscriptions s.StateURI <;> exact ⟨rfl, rfl⟩

/-- One turn of the loop of `broadcastToWritableSubscribers` leaves the subscribed
set and the registry of readable subscriptions as they are, and does not call
`config.Update`. -/
theorem broadcastToWritableSubscribers.iteration_config (env : Env) (tx : Tx)
    (leaves : List ID) (b : Broadcast) (x : WritableSubscription) :
    (broadcastToWritableSubscribers.iteration env tx leaves b x).host.SubscribedStateURIs =
      b.host.SubscribedStateURIs ∧
    (broadcastToWritableSubscribers.iteration env tx leaves b x).host.readableSubscriptions =
      b.host.readableSubscriptions ∧
    (broadcastToWritableSubscribers.iteration env tx leaves b x).trace.countP
      Event.isConfigUpdate = b.trace.countP Event.isConfigUpdate := by
  have hc1 := fun h => (HandleWritableSubscriptionClosed_config env h x).1
  have hc2 := fun h => (HandleWritableSubscriptionClosed_config env h x).2
  have hc3 : ∀ h, (HandleWritableSubscriptionClosed env h x).2.countP Event.isConfigUpdate = 0 :=
    fun h => HandleWritableSubscriptionClosed_countP env h x _ rfl (fun _ => rfl)
  simp only [broadcastToWritableSubscribers.iteration, broadcastToWritableSubscribers.goroutine]
  generalize (if x.Keypath = KeypathSeparator then none else x.Keypath) = kp
  repeat' split
  all_goals
    simp [*, List.countP_append, List.countP_cons, Event.isConfigUpdate]

/-- The fan-out to the subscribers leaves the subscribed set and the registry of
readable subscriptions as they are, and does not call `config.Update`. -/
theorem broadcastToWritableSubscribers_config (env : Env) (tx : Tx) (leaves : List ID)
    (b : Broadcast) :
    (broadcastToWritableSubscribers env tx leaves b).host.SubscribedStateURIs =
      b.host.SubscribedStateURIs ∧
    (broadcastToWritableSubscribers env tx leaves b).host.readableSubscriptions =
      b.host.readableSubscriptions ∧
    (broadcastToWritableSubscribers env tx leaves b).trace.countP Event.isConfigUpdate =
      b.trace.countP Event.isConfigUpdate := by
  unfold broadcastToWritableSubscribers
  split
  · exact ⟨rfl, rfl, rfl⟩
  · rename_i subs _
    clear * -
    induction subs generalizing b with
    | nil => exact ⟨rfl, rfl, rfl⟩
    | cons x rest ih =>
      obtain ⟨h1, h2, h3⟩ := broadcastToWritableSubscribers.iteration_config env tx leaves b x
      obtain ⟨g1, g2, g3⟩ := ih (broadcastToWritableSubscribers.iteration env tx leaves b x)
      rw [List.foldl_cons]
      exact ⟨g1.trans h1, g2.trans h2, g3.trans h3⟩

/-- The fan-out to the providers does not call `config.Update`. -/
theorem broadcastToStateURIProviders_countP_config (env : Env) (tx : Tx) (leaves : List ID)
    (b : Broadcast) :
    (broadcastToStateURIProviders env tx leaves b).trace.countP Event.isConfigUpdate =
      b.trace.countP Event.isConfigUpdate := by
  unfold broadcastToStateURIProviders
  generalize env.ProvidersOfStateURI tx.StateURI = peers
  induction peers generalizing b with
  | nil => rfl
  | cons p rest ih =>
    rw [List.foldl_cons, ih]
    simp only [broadcastToStateURIProviders.iteration, broadcastToStateURIProviders.goroutine]
    repeat' split
    all_goals simp [List.countP_append, List.countP_cons, Event.isConfigUpdate]

/-- The broadcast of `handleNewState` leaves the subscribed set and the registry of
readable subscriptions as they are, and does not call `config.Update`. -/
theorem handleNewState.broadcast_config (env : Env) (h : Host) (tx : Tx) (state : StateNode)
    (leaves : List ID) :
    (handleNewState.broadcast env h tx state leaves).host.SubscribedStateURIs =
      h.SubscribedStateURIs ∧
    (handleNewState.broadcast env h tx state leaves).host.readableSubscriptions =
      h.readableSubscriptions ∧
    (handleNewState.broadcast env h tx state leaves).trace.countP Event.isConfigUpdate = 0 := by
  simp only [handleNewState.broadcast, broadcastToStateURIProviders.underContext, if_true]
  obtain ⟨h1, h2, h3⟩ := broadcastToWritableSubscribers_config env tx leaves
    { host := h, alreadySentPeers := [], state := state, trace := [] }
  exact ⟨h1, h2, by rw [h3]; rfl⟩

/-- What `host.Subscribe` leaves behind when `config.Update` succeeds: the state URI
has a readable subscription, the subscribed set is the caller's set after `Add`,
and a subscription is returned. -/
theorem Subscribe_ok (env : Env) (h : Host) (stateURI : String) (st : SubscriptionType)
    (kp : Keypath) (so : Nat) (hUpdate : env.ConfigUpdate = none) :
    (Subscribe env h stateURI st kp so).err = none ∧
    (Subscribe env h stateURI st kp so).sub =
      some { ident := so, StateURI := stateURI, Type_ := st, Keypath := kp, peer := none } ∧
    (Subscribe env h stateURI st kp so).host.SubscribedStateURIs =
      (h.SubscribedStateURIs.Add stateURI).receiver ∧
    ((Subscribe env h stateURI st kp so).host.readableSubscriptions stateURI).isSome = true ∧
    (Subscribe env h stateURI st kp so).trace.countP Event.isConfigUpdate = 1 ∧
    (Subscribe env h stateURI st kp so).trace.head? = some Event.ConfigUpdate := by
  simp only [Subscribe, subscribe, hUpdate]
  cases hr : h.readableSubscriptions stateURI with
  | none => simp [HandleWritableSubscriptionOpened.register, Event.isConfigUpdate]
  | some m => simp [HandleWritableSubscriptionOpened.register, Event.isConfigUpdate, hr]

/-- Deleting the in-process subscription leaves the subscribed set and the registry
of readable subscriptions as they are. -/
theorem Subscribe.stopped_config (h : Host) (sub : WritableSubscription) :
    (Subscribe.stopped h sub).SubscribedStateURIs = h.SubscribedStateURIs ∧
    (Subscribe.stopped h sub).readableSubscriptions = h.readableSubscriptions := by
  unfold Subscribe.stopped
  cases h.writableSubscriptions sub.StateURI <;> exact ⟨rfl, rfl⟩

/-- The auto-subscribe of `handleNewState`, for every input: `host.subscribe` is
called (once) exactly when the tx is private, is the genesis tx, and its state
URI is not in the subscribed set. When it is called and `config.Update`
succeeds, the fan-out starts only afterwards, from a host `h2` in which the
state URI has a readable subscription and whose subscribed set is the caller's
set after the dropped `Add`, which contains the state URI when the set was not
nil; both are the same at the end. When it is not called, the subscribed set
and the registry of readable subscriptions are unchanged. -/
theorem handleNewState_subscribes_iff (env : Env) (h : Host) (tx : Tx) (state : StateNode)
    (leaves : List ID) (so : Nat) (stopped : Bool) :
    ((handleNewState env h tx state leaves so stopped).trace.countP Event.isConfigUpdate =
      if handleNewState.subscribes env h tx = true then 1 else 0) ∧
    (handleNewState.subscribes env h tx = true → env.ConfigUpdate = none →
      ∃ pre h2 s,
        (handleNewState env h tx state leaves so stopped).trace =
          pre ++ (handleNewState.broadcast env h2 tx s leaves).trace ∧
        (handleNewState env h tx state leaves so stopped).host =
          (handleNewState.broadcast env h2 tx s leaves).host ∧
        Event.ConfigUpdate ∈ pre ∧
        (h2.readableSubscriptions tx.StateURI).isSome = true ∧
        h2.SubscribedStateURIs = (h.SubscribedStateURIs.Add tx.StateURI).receiver ∧
        (h.SubscribedStateURIs ≠ none → h2.SubscribedStateURIs.Contains tx.StateURI = true) ∧
        ((handleNewState env h tx state leaves so stopped).host.readableSubscriptions
          tx.StateURI).isSome = true ∧
        (handleNewState env h tx state leaves so stopped).host.SubscribedStateURIs =
          (h.SubscribedStateURIs.Add tx.StateURI).receiver ∧
        (handleNewState env h tx state leaves so stopped).panicked = false) ∧
    (handleNewState.subscribes env h tx = false →
      (handleNewState env h tx state leaves so stopped).host.SubscribedStateURIs =
        h.SubscribedStateURIs ∧
      (handleNewState env h tx state leaves so stopped).host.readableSubscriptions =
        h.readableSubscriptions) := by
  have hcond : (tx.IsPrivate && decide (tx.ID = env.GenesisTxID) &&
      !h.SubscribedStateURIs.Contains tx.StateURI) = handleNewState.subscribes env h tx := rfl
  have hc0 : (handleNewState.copy env state).2.countP Event.isConfigUpdate = 0 := by
    unfold handleNewState.copy
    split <;> simp [Event.isConfigUpdate]
  refine ⟨?_, ?_, ?_⟩
  · simp only [handleNewState, hcond]
    generalize handleNewState.copy env state = copied at hc0 ⊢
    cases hs : handleNewState.subscribes env h tx with
    | false =>
      simp only [Bool.false_eq_true, if_false, List.countP_append, hc0,
        (handleNewState.broadcast_config env h tx copied.1 leaves).2.2]
    | true =>
      simp only [if_true]
      cases hu : env.ConfigUpdate with
      | some err =>
        simp [Subscribe, subscribe, hu, List.countP_append, List.countP_cons, hc0,
          Event.isConfigUpdate]
      | none =>
        obtain ⟨s1, s2, s3, s4, s5, s6⟩ := Subscribe_ok env h tx.StateURI 0 none so hu
        simp only [s1, s2, List.countP_append, hc0, s5, List.countP_cons, List.countP_nil,
          Event.isConfigUpdate, (handleNewState.broadcast_config env _ tx copied.1 leaves).2.2]
        simp
  · intro hs hu
    obtain ⟨s1, s2, s3, s4, s5, s6⟩ := Subscribe_ok env h tx.StateURI 0 none so hu
    have hmem : Event.ConfigUpdate ∈ (Subscribe env h tx.StateURI 0 none so).trace := by
      cases ht : (Subscribe env h tx.StateURI 0 none so).trace with
      | nil => rw [ht] at s6; cases s6
      | cons e rest =>
        rw [ht] at s6
        simp only [List.head?_cons, Option.some.injEq] at s6
        subst s6
        exact List.mem_cons_self _ _
    have hrecv : ((h.SubscribedStateURIs.Add tx.StateURI).receiver).Contains tx.StateURI = true ∨
        h.SubscribedStateURIs = none := by
      cases hset : h.SubscribedStateURIs with
      | none => exact Or.inr rfl
      | some m =>
        left
        by_cases hv : tx.StateURI ∈ m <;> simp [StringSet.Add, StringSet.Contains, hv]
    have hh2 : ∀ h2 : Host,
        h2 = (inProcessSubscription.Close (Subscribe env h tx.StateURI 0 none so).host
          (WritableSubscription.mk so tx.StateURI 0 none none) stopped) →
        (h2.readableSubscriptions tx.StateURI).isSome = true ∧
        h2.SubscribedStateURIs = (h.SubscribedStateURIs.Add tx.StateURI).receiver := by
      intro h2 hh
      subst hh
      unfold inProcessSubscription.Close
      cases stopped
      · exact ⟨by simpa using s4, by simpa using s3⟩
      · exact ⟨by simpa [(Subscribe.stopped_config _ _).2] using s4,
          by simpa [(Subscribe.stopped_config _ _).1] using s3⟩
    have hres : handleNewState env h tx state leaves so stopped =
        { host := (handleNewState.broadcast env
            (inProcessSubscription.Close (Subscribe env h tx.StateURI 0 none so).host
          (WritableSubscription.mk so tx.StateURI 0 none none) stopped) tx
            (handleNewState.copy env state).1 leaves).host
          trace := (handleNewState.copy env state).2 ++
            (Subscribe env h tx.StateURI 0 none so).trace ++
            [Event.CloseSub (WritableSubscription.mk so tx.StateURI 0 none none)] ++
            (handleNewState.broadcast env
              (inProcessSubscription.Close (Subscribe env h tx.StateURI 0 none so).host
          (WritableSubscription.mk so tx.StateURI 0 none none) stopped) tx
              (handleNewState.copy env state).1 leaves).trace
          panicked := false } := by
      simp [handleNewState, hcond, hs, s1, s2]
    rw [hres]
    generalize (inProcessSubscription.Close (Subscribe env h tx.StateURI 0 none so).host
          (WritableSubscription.mk so tx.StateURI 0 none none) stopped) = h2 at hh2 ⊢
    obtain ⟨r1, r2⟩ := hh2 h2 rfl
    refine ⟨(handleNewState.copy env state).2 ++ (Subscribe env h tx.StateURI 0 none so).trace ++
        [Event.CloseSub (WritableSubscription.mk so tx.StateURI 0 none none)], h2,
      (handleNewState.copy env state).1, rfl, rfl, ?_, r1, r2, ?_, ?_, ?_, rfl⟩
    · simp [hmem]
    · intro hnn
      rcases hrecv with hr | hr
      · rw [r2]; exact hr
      · exact absurd hr hnn
    · show ((handleNewState.broadcast env h2 tx (handleNewState.copy env state).1
        leaves).host.readableSubscriptions tx.StateURI).isSome = true
      rw [(handleNewState.broadcast_config env _ tx _ leaves).2.1]
      exact r1
    · show (handleNewState.broadcast env h2 tx (handleNewState.copy env state).1
        leaves).host.SubscribedStateURIs = _
      rw [(handleNewState.broadcast_config env _ tx _ leaves).1]
      exact r2
  · intro hs
    simp only [handleNewState, hcond, hs, Bool.false_eq_true, if_false]
    exact ⟨(handleNewState.broadcast_config env h tx _ leaves).1,
      (handleNewState.broadcast_config env h tx _ leaves).2.1⟩

/-- Claim C27, the code at every failing input: when `handleNewState` subscribes
(a private genesis tx on a state URI that is not in the subscribed set) and
`config.Update` fails, `host.Subscribe` returns a nil subscription and the
error; the error is logged, and the next statement, `sub.Close()` on the nil
interface value, panics: the goroutine ends there, after the copy of the
state, the call of `config.Update` and the log line, and no fan-out to
subscribers or providers is made. -/
theorem handleNewState_panics_when_Subscribe_fails (env : Env) (h : Host) (tx : Tx)
    (state : StateNode) (leaves : List ID) (so : Nat) (stopped : Bool) (err : Error)
    (hsub : handleNewState.subscribes env h tx = true)
    (hUpdate : env.ConfigUpdate = some err) :
    (Subscribe env h tx.StateURI 0 none so).sub = none ∧
    (Subscribe env h tx.StateURI 0 none so).err = some err ∧
    (handleNewState env h tx state leaves so stopped).panicked = true ∧
    (handleNewState env h tx state leaves so stopped).trace =
      (handleNewState.copy env state).2 ++ [Event.ConfigUpdate, Event.Errorf err] ∧
    (handleNewState env h tx state leaves so stopped).trace.countP Event.isAnyWrite = 0 ∧
    (handleNewState env h tx state leaves so stopped).trace.countP Event.isPut = 0 := by
  have hcond : (tx.IsPrivate && decide (tx.ID = env.GenesisTxID) &&
      !h.SubscribedStateURIs.Contains tx.StateURI) = handleNewState.subscribes env h tx := rfl
  have htrace : (handleNewState env h tx state leaves so stopped).trace =
      (handleNewState.copy env state).2 ++ [Event.ConfigUpdate, Event.Errorf err] := by
    simp [handleNewState, hcond, hsub, Subscribe, subscribe, hUpdate]
  refine ⟨by simp [Subscribe, subscribe, hUpdate], by simp [Subscribe, subscribe, hUpdate],
    ?_, htrace, ?_, ?_⟩
  · simp [handleNewState, hcond, hsub, Subscribe, subscribe, hUpdate]
  · rw [htrace]
    unfold handleNewState.copy
    split <;> simp [Event.isAnyWrite]
  · rw [htrace]
    unfold handleNewState.copy
    split <;> simp [Event.isPut]

/-! ## Error paths, transport and private txs at concrete inputs -/

/-- Claim C21, the code at a failing input: the subscribed set of the host is the
nil `StringSet`; `handleNewState` of the genesis tx of the private state URI
"room.bar" subscribes (`config.Update` is called and succeeds, and "room.bar"
gets its readable subscription), and afterwards the subscribed set is still nil
and does not contain "room.bar". -/
theorem handleNewState_nil_set_stays_nil :
    exHostNil.SubscribedStateURIs = none ∧
    handleNewState.subscribes exEnv exHostNil exTxPrivateGenesis = true ∧
    exEnv.ConfigUpdate = none ∧
    (handleNewState exEnv exHostNil exTxPrivateGenesis "state" [7] 9 true).panicked = false ∧
    Event.ConfigUpdate ∈
      (handleNewState exEnv exHostNil exTxPrivateGenesis "state" [7] 9 true).trace ∧
    (handleNewState exEnv exHostNil exTxPrivateGenesis "state" [7] 9 true).host.readableSubscriptions
      "room.bar" = some { stateURI := "room.bar" } ∧
    (handleNewState exEnv exHostNil exTxPrivateGenesis "state" [7] 9
      true).host.SubscribedStateURIs = none ∧
    (handleNewState exEnv exHostNil exTxPrivateGenesis "state" [7] 9
      true).host.SubscribedStateURIs.Contains "room.bar" = false ∧
    (handleNewState exEnv exHostNil exTxPrivateGenesis "state" [7] 9
      false).host.SubscribedStateURIs.Contains "room.bar" = false := by
  decide

/-- On a host whose subscribed set is empty and not nil, the private genesis tx
subscribes, and the set contains "room.bar" afterwards. -/
theorem handleNewState_subscribes_iff_witness :
    handleNewState.subscribes exEnv exHost exTxPrivateGenesis = true ∧
    ∃ pre h2 s,
      (handleNewState exEnv exHost exTxPrivateGenesis "state" [7] 9 true).trace =
        pre ++ (handleNewState.broadcast exEnv h2 exTxPrivateGenesis s [7]).trace ∧
      (handleNewState exEnv exHost exTxPrivateGenesis "state" [7] 9 true).host =
        (handleNewState.broadcast exEnv h2 exTxPrivateGenesis s [7]).host ∧
      Event.ConfigUpdate ∈ pre ∧
      (h2.readableSubscriptions exTxPrivateGenesis.StateURI).isSome = true ∧
      h2.SubscribedStateURIs =
        (exHost.SubscribedStateURIs.Add exTxPrivateGenesis.StateURI).receiver ∧
      (exHost.SubscribedStateURIs ≠ none →
        h2.SubscribedStateURIs.Contains exTxPrivateGenesis.StateURI = true) ∧
      ((handleNewState exEnv exHost exTxPrivateGenesis "state" [7] 9
        true).host.readableSubscriptions exTxPrivateGenesis.StateURI).isSome = true ∧
      (handleNewState exEnv exHost exTxPrivateGenesis "state" [7] 9
        true).host.SubscribedStateURIs =
        (exHost.SubscribedStateURIs.Add exTxPrivateGenesis.StateURI).receiver ∧
      (handleNewState exEnv exHost exTxPrivateGenesis "state" [7] 9 true).panicked = false :=
  ⟨by decide,
    (handleNewState_subscribes_iff exEnv exHost exTxPrivateGenesis "state" [7] 9 true).2.1
      (by decide) rfl⟩

/-- With a `config.Update` that fails, `handleNewState` of the private genesis tx
panics after the log line. -/
theorem handleNewState_panics_when_Subscribe_fails_witness :
    handleNewState.subscribes exEnvConfigFails exHost exTxPrivateGenesis = true ∧
    exEnvConfigFails.ConfigUpdate = some "disk full" ∧
    (handleNewState exEnvConfigFails exHost exTxPrivateGenesis "state" [7] 9 false).panicked =
      true ∧
    (handleNewState exEnvConfigFails exHost exTxPrivateGenesis "state" [7] 9 false).trace =
      (handleNewState.copy exEnvConfigFails "state").2 ++
        [Event.ConfigUpdate, Event.Errorf "disk full"] :=
  ⟨by decide, rfl,
    (handleNewState_panics_when_Subscribe_fails exEnvConfigFails exHost exTxPrivateGenesis
      "state" [7] 9 false "disk full" (by decide) rfl).2.2.1,
    (handleNewState_panics_when_Subscribe_fails exEnvConfigFails exHost exTxPrivateGenesis
      "state" [7] 9 false "disk full" (by decide) rfl).2.2.2.1⟩

/-- With a `HaveTx` that fails, the tx is marked as seen by `exPeer` and neither
added nor acknowledged. -/
theorem HandleTxReceived_HaveTx_error_witness :
    exEnvHaveTxFails.hub.HaveTx exTxSigned.StateURI exTxSigned.ID = .error "db closed" ∧
    (HandleTxReceived exEnvHaveTxFails exHost exTxSigned exPeer).2 =
      [Event.HaveTx "room.foo/chat" 5, Event.Errorf "db closed"] ∧
    txSeenByPeer (HandleTxReceived exEnvHaveTxFails exHost exTxSigned exPeer).1 exPeer
      "room.foo/chat" 5 = true :=
  ⟨rfl,
    (HandleTxReceived_HaveTx_error exEnvHaveTxFails exHost exTxSigned exPeer "db closed" rfl).2.1,
    (HandleTxReceived_HaveTx_error exEnvHaveTxFails exHost exTxSigned exPeer "db closed"
      rfl).2.2.2.2 (by decide)⟩

/-- An envelope with the tx id 5 whose payload opens to a tx with the id 5 reaches
`HandleTxReceived`. -/
theorem servePostPrivateTx_calls_HandleTxReceived_iff_witness :
    exPrivateTxEnv.DecodeEncryptedTx [5, 5] =
      .ok { TxID := 5, EncryptedPayload := [5], SenderPublicKey := [21] } ∧
    (exTransport.servePostPrivateTx exPrivateTxEnv exEnv exHost [5, 5] 9).trace =
      [HTTPEvent.HandleTxReceived { exTxSigned with ID := 5 }
        (exTransport.makePeerWithAddress 9)] :=
  ⟨rfl,
    ((servePostPrivateTx_calls_HandleTxReceived_iff exTransport exPrivateTxEnv exEnv exHost
      [5, 5] 9).2.1 { TxID := 5, EncryptedPayload := [5], SenderPublicKey := [21] } [5]
      { exTxSigned with ID := 5 } rfl rfl rfl rfl).1⟩

/-! ## Properties of the broadcast of `handleNewState` -/

end Redwood
